import Mathlib

/-!
# mcp-debug: a shallow embedding of the dynamic MCP proxy

The Go sources embedded here are

* `client/jsonrpc.go`, `client/interface.go`, `client/stdio_client.go` (the stdio JSON-RPC client),
* `proxy/handler.go` (result translation and the tool registry),
* `config/types.go`, `config/loader.go` (the configuration, its validation and expansion),
* `discovery/types.go`, `discovery/discoverer.go` (discovery of the static servers),
* `integration/dynamic_wrapper.go` (the dynamic wrapper: management tools, dispatch, recording),
* `integration/proxy_server.go`, `integration/dynamic_proxy_server.go` (static initialization),
* `playback/parser.go`, `playback/server.go`, `playback/client.go` (recordings and playback).

Conventions of the embedding.

* Go strings are Lean strings; `fmt.Sprintf` is string concatenation.
* A Go `map[string]T` is an association list with at most one pair per key
  (`GoMap.set` overwrites in place, `GoMap.delete` erases).
* Pointers to clients are references (`ClientRef`) into a heap kept in the wrapper state.
* The outside world (child processes, pipes, the scheduler's choice in a `select`) is an
  explicit input of each operation.
* Text handled by `encoding/json` is represented by its parsed form `Json`; the decoders
  follow the rules of `json.Unmarshal` on that form.
* A Go runtime panic is the outcome `Outcome.panicked`.
-/

namespace McpDebug

/-! ## Strings -/

/-- The character-list form of `strings.HasPrefix`. -/
def hasPrefixChars : List Char → List Char → Bool
  | _, [] => true
  | [], _ :: _ => false
  | c :: s, d :: p => c == d && hasPrefixChars s p

/-- The character-list form of `strings.Contains`. -/
def containsChars : List Char → List Char → Bool
  | [], sub => hasPrefixChars [] sub
  | c :: s, sub => hasPrefixChars (c :: s) sub || containsChars s sub

/-- Go `strings.Contains`. -/
def Contains (s sub : String) : Bool := containsChars s.data sub.data

/-- Go `strings.HasPrefix`. -/
def HasPrefix (s p : String) : Bool := hasPrefixChars s.data p.data

/-- The runes above ASCII that have a lower-case mapping in the table `unicode.CaseRanges`
of the Go standard library (Unicode 15.0.0): an entry `(lo, hi, stride, delta)` maps every
rune `lo + k * stride` up to `hi` to the rune `delta` further on. -/
def lowerCaseRanges : List (Nat × Nat × Nat × Int) :=
  [(0xC0, 0xD6, 1, 32), (0xD8, 0xDE, 1, 32), (0x100, 0x12E, 2, 1), (0x130, 0x130, 1, -199),
   (0x132, 0x136, 2, 1), (0x139, 0x147, 2, 1), (0x14A, 0x176, 2, 1), (0x178, 0x178, 1, -121),
   (0x179, 0x17D, 2, 1), (0x181, 0x181, 1, 210), (0x182, 0x184, 2, 1), (0x186, 0x186, 1, 206),
   (0x187, 0x187, 1, 1), (0x189, 0x18A, 1, 205), (0x18B, 0x18B, 1, 1), (0x18E, 0x18E, 1, 79),
   (0x18F, 0x18F, 1, 202), (0x190, 0x190, 1, 203), (0x191, 0x191, 1, 1), (0x193, 0x193, 1, 205),
   (0x194, 0x194, 1, 207), (0x196, 0x196, 1, 211), (0x197, 0x197, 1, 209), (0x198, 0x198, 1, 1),
   (0x19C, 0x19C, 1, 211), (0x19D, 0x19D, 1, 213), (0x19F, 0x19F, 1, 214), (0x1A0, 0x1A4, 2, 1),
   (0x1A6, 0x1A6, 1, 218), (0x1A7, 0x1A7, 1, 1), (0x1A9, 0x1A9, 1, 218), (0x1AC, 0x1AC, 1, 1),
   (0x1AE, 0x1AE, 1, 218), (0x1AF, 0x1AF, 1, 1), (0x1B1, 0x1B2, 1, 217), (0x1B3, 0x1B5, 2, 1),
   (0x1B7, 0x1B7, 1, 219), (0x1B8, 0x1B8, 1, 1), (0x1BC, 0x1BC, 1, 1), (0x1C4, 0x1C4, 1, 2),
   (0x1C5, 0x1C5, 1, 1), (0x1C7, 0x1C7, 1, 2), (0x1C8, 0x1C8, 1, 1), (0x1CA, 0x1CA, 1, 2),
   (0x1CB, 0x1DB, 2, 1), (0x1DE, 0x1EE, 2, 1), (0x1F1, 0x1F1, 1, 2), (0x1F2, 0x1F4, 2, 1),
   (0x1F6, 0x1F6, 1, -97), (0x1F7, 0x1F7, 1, -56), (0x1F8, 0x21E, 2, 1), (0x220, 0x220, 1, -130),
   (0x222, 0x232, 2, 1), (0x23A, 0x23A, 1, 10795), (0x23B, 0x23B, 1, 1), (0x23D, 0x23D, 1, -163),
   (0x23E, 0x23E, 1, 10792), (0x241, 0x241, 1, 1), (0x243, 0x243, 1, -195),
   (0x244, 0x244, 1, 69), (0x245, 0x245, 1, 71), (0x246, 0x24E, 2, 1), (0x370, 0x372, 2, 1),
   (0x376, 0x376, 1, 1), (0x37F, 0x37F, 1, 116), (0x386, 0x386, 1, 38), (0x388, 0x38A, 1, 37),
   (0x38C, 0x38C, 1, 64), (0x38E, 0x38F, 1, 63), (0x391, 0x3A1, 1, 32), (0x3A3, 0x3AB, 1, 32),
   (0x3CF, 0x3CF, 1, 8), (0x3D8, 0x3EE, 2, 1), (0x3F4, 0x3F4, 1, -60), (0x3F7, 0x3F7, 1, 1),
   (0x3F9, 0x3F9, 1, -7), (0x3FA, 0x3FA, 1, 1), (0x3FD, 0x3FF, 1, -130), (0x400, 0x40F, 1, 80),
   (0x410, 0x42F, 1, 32), (0x460, 0x480, 2, 1), (0x48A, 0x4BE, 2, 1), (0x4C0, 0x4C0, 1, 15),
   (0x4C1, 0x4CD, 2, 1), (0x4D0, 0x52E, 2, 1), (0x531, 0x556, 1, 48), (0x10A0, 0x10C5, 1, 7264),
   (0x10C7, 0x10C7, 1, 7264), (0x10CD, 0x10CD, 1, 7264), (0x13A0, 0x13EF, 1, 38864),
   (0x13F0, 0x13F5, 1, 8), (0x1C90, 0x1CBA, 1, -3008), (0x1CBD, 0x1CBF, 1, -3008),
   (0x1E00, 0x1E94, 2, 1), (0x1E9E, 0x1E9E, 1, -7615), (0x1EA0, 0x1EFE, 2, 1),
   (0x1F08, 0x1F0F, 1, -8), (0x1F18, 0x1F1D, 1, -8), (0x1F28, 0x1F2F, 1, -8),
   (0x1F38, 0x1F3F, 1, -8), (0x1F48, 0x1F4D, 1, -8), (0x1F59, 0x1F5F, 2, -8),
   (0x1F68, 0x1F6F, 1, -8), (0x1F88, 0x1F8F, 1, -8), (0x1F98, 0x1F9F, 1, -8),
   (0x1FA8, 0x1FAF, 1, -8), (0x1FB8, 0x1FB9, 1, -8), (0x1FBA, 0x1FBB, 1, -74),
   (0x1FBC, 0x1FBC, 1, -9), (0x1FC8, 0x1FCB, 1, -86), (0x1FCC, 0x1FCC, 1, -9),
   (0x1FD8, 0x1FD9, 1, -8), (0x1FDA, 0x1FDB, 1, -100), (0x1FE8, 0x1FE9, 1, -8),
   (0x1FEA, 0x1FEB, 1, -112), (0x1FEC, 0x1FEC, 1, -7), (0x1FF8, 0x1FF9, 1, -128),
   (0x1FFA, 0x1FFB, 1, -126), (0x1FFC, 0x1FFC, 1, -9), (0x2126, 0x2126, 1, -7517),
   (0x212A, 0x212A, 1, -8383), (0x212B, 0x212B, 1, -8262), (0x2132, 0x2132, 1, 28),
   (0x2160, 0x216F, 1, 16), (0x2183, 0x2183, 1, 1), (0x24B6, 0x24CF, 1, 26),
   (0x2C00, 0x2C2F, 1, 48), (0x2C60, 0x2C60, 1, 1), (0x2C62, 0x2C62, 1, -10743),
   (0x2C63, 0x2C63, 1, -3814), (0x2C64, 0x2C64, 1, -10727), (0x2C67, 0x2C6B, 2, 1),
   (0x2C6D, 0x2C6D, 1, -10780), (0x2C6E, 0x2C6E, 1, -10749), (0x2C6F, 0x2C6F, 1, -10783),
   (0x2C70, 0x2C70, 1, -10782), (0x2C72, 0x2C72, 1, 1), (0x2C75, 0x2C75, 1, 1),
   (0x2C7E, 0x2C7F, 1, -10815), (0x2C80, 0x2CE2, 2, 1), (0x2CEB, 0x2CED, 2, 1),
   (0x2CF2, 0x2CF2, 1, 1), (0xA640, 0xA66C, 2, 1), (0xA680, 0xA69A, 2, 1),
   (0xA722, 0xA72E, 2, 1), (0xA732, 0xA76E, 2, 1), (0xA779, 0xA77B, 2, 1),
   (0xA77D, 0xA77D, 1, -35332), (0xA77E, 0xA786, 2, 1), (0xA78B, 0xA78B, 1, 1),
   (0xA78D, 0xA78D, 1, -42280), (0xA790, 0xA792, 2, 1), (0xA796, 0xA7A8, 2, 1),
   (0xA7AA, 0xA7AA, 1, -42308), (0xA7AB, 0xA7AB, 1, -42319), (0xA7AC, 0xA7AC, 1, -42315),
   (0xA7AD, 0xA7AD, 1, -42305), (0xA7AE, 0xA7AE, 1, -42308), (0xA7B0, 0xA7B0, 1, -42258),
   (0xA7B1, 0xA7B1, 1, -42282), (0xA7B2, 0xA7B2, 1, -42261), (0xA7B3, 0xA7B3, 1, 928),
   (0xA7B4, 0xA7C2, 2, 1), (0xA7C4, 0xA7C4, 1, -48), (0xA7C5, 0xA7C5, 1, -42307),
   (0xA7C6, 0xA7C6, 1, -35384), (0xA7C7, 0xA7C9, 2, 1), (0xA7D0, 0xA7D0, 1, 1),
   (0xA7D6, 0xA7D8, 2, 1), (0xA7F5, 0xA7F5, 1, 1), (0xFF21, 0xFF3A, 1, 32),
   (0x10400, 0x10427, 1, 40), (0x104B0, 0x104D3, 1, 40), (0x10570, 0x1057A, 1, 39),
   (0x1057C, 0x1058A, 1, 39), (0x1058C, 0x10592, 1, 39), (0x10594, 0x10595, 1, 39),
   (0x10C80, 0x10CB2, 1, 64), (0x118A0, 0x118BF, 1, 32), (0x16E40, 0x16E5F, 1, 32),
   (0x1E900, 0x1E921, 1, 34)]

/-- Go `unicode.ToLower`: the ASCII capitals by the offset of `'a' - 'A'`, the runes above
ASCII by the case table, every other rune unchanged. -/
def toLowerRune (c : Char) : Char :=
  if c.toNat < 128 then c.toLower
  else
    match lowerCaseRanges.find?
        (fun r => decide (r.1 ≤ c.toNat) && decide (c.toNat ≤ r.2.1) &&
          decide ((c.toNat - r.1) % r.2.2.1 = 0)) with
    | some r => Char.ofNat (Int.toNat ((c.toNat : Int) + r.2.2.2))
    | none => c

/-- Go `strings.ToLower` on valid UTF-8: `unicode.ToLower` of every rune. -/
def ToLower (s : String) : String := ⟨s.data.map toLowerRune⟩

/-- Go `unicode.IsSpace`. -/
def isSpace (c : Char) : Bool :=
  let n := c.toNat
  (9 ≤ n && n ≤ 13) || n == 32 || n == 0x85 || n == 0xA0 || n == 0x1680 ||
  (0x2000 ≤ n && n ≤ 0x200A) || n == 0x2028 || n == 0x2029 || n == 0x202F ||
  n == 0x205F || n == 0x3000

/-- The scan of `strings.Fields`: `cur` is the token being read, reversed. -/
def fieldsAux : List Char → List Char → List String
  | [], [] => []
  | [], c :: cur => [String.mk (c :: cur).reverse]
  | c :: s, cur =>
    if isSpace c then
      match cur with
      | [] => fieldsAux s []
      | d :: ds => String.mk (d :: ds).reverse :: fieldsAux s []
    else fieldsAux s (c :: cur)

/-- Go `strings.Fields`: the maximal runs of non-space characters. -/
def Fields (s : String) : List String := fieldsAux s.data []

/-- Go `strings.TrimSpace`. -/
def TrimSpace (s : String) : String :=
  ⟨((s.data.dropWhile isSpace).reverse.dropWhile isSpace).reverse⟩

/-- Go `strings.Join`. -/
def Join (xs : List String) (sep : String) : String := sep.intercalate xs

/-- The text of `%d` for an integer. -/
def fmtInt (n : Int) : String := toString n

/-- The text of `%d` for a length or a count. -/
def fmtNat (n : Nat) : String := toString n

/-! ## Go maps -/

/-- A Go map with string keys: read. -/
def GoMap.get {α : Type} : List (String × α) → String → Option α
  | [], _ => none
  | (k, v) :: m, key => if k = key then some v else GoMap.get m key

/-- A Go map with string keys: `m[key] = v`. -/
def GoMap.set {α : Type} : List (String × α) → String → α → List (String × α)
  | [], key, v => [(key, v)]
  | (k, w) :: m, key, v => if k = key then (k, v) :: m else (k, w) :: GoMap.set m key v

/-- A Go map with string keys: `delete(m, key)`. -/
def GoMap.delete {α : Type} (m : List (String × α)) (key : String) : List (String × α) :=
  m.filter (fun kv => kv.1 ≠ key)

/-- Decidable equality of results. -/
instance instDecidableEqExcept {ε α : Type} [DecidableEq ε] [DecidableEq α] :
    DecidableEq (Except ε α)
  | .ok a, .ok b =>
    if h : a = b then isTrue (by rw [h]) else isFalse (by intro e; cases e; exact h rfl)
  | .error a, .error b =>
    if h : a = b then isTrue (by rw [h]) else isFalse (by intro e; cases e; exact h rfl)
  | .ok _, .error _ => isFalse (by intro e; cases e)
  | .error _, .ok _ => isFalse (by intro e; cases e)

/-! ## JSON documents -/

/-- A parsed JSON document. `frac` is a number literal that is not an integer. -/
inductive Json where
  | null
  | bool (b : Bool)
  | int (n : Int)
  | frac (text : String)
  | str (s : String)
  | arr (xs : List Json)
  | obj (kvs : List (String × Json))

/-- The constructor of a JSON document, as a number. -/
def Json.tag : Json → Nat
  | .null => 0
  | .bool _ => 1
  | .int _ => 2
  | .frac _ => 3
  | .str _ => 4
  | .arr _ => 5
  | .obj _ => 6

/-- The name `encoding/json` gives the kind of a value in its type errors. -/
def Json.kind : Json → String
  | .null => "null"
  | .bool _ => "bool"
  | .int _ => "number"
  | .frac _ => "number"
  | .str _ => "string"
  | .arr _ => "array"
  | .obj _ => "object"

mutual
/-- Decidable equality of JSON documents. -/
def Json.decEq : (a b : Json) → Decidable (a = b)
  | .null, .null => isTrue rfl
  | .bool a, .bool b =>
    if h : a = b then isTrue (by rw [h]) else isFalse (by intro e; cases e; exact h rfl)
  | .int a, .int b =>
    if h : a = b then isTrue (by rw [h]) else isFalse (by intro e; cases e; exact h rfl)
  | .frac a, .frac b =>
    if h : a = b then isTrue (by rw [h]) else isFalse (by intro e; cases e; exact h rfl)
  | .str a, .str b =>
    if h : a = b then isTrue (by rw [h]) else isFalse (by intro e; cases e; exact h rfl)
  | .arr a, .arr b =>
    match Json.decEqList a b with
    | isTrue h => isTrue (by rw [h])
    | isFalse h => isFalse (by intro e; cases e; exact h rfl)
  | .obj a, .obj b =>
    match Json.decEqFields a b with
    | isTrue h => isTrue (by rw [h])
    | isFalse h => isFalse (by intro e; cases e; exact h rfl)
  | .null, .bool _ => isFalse (by intro e; cases e)
  | .null, .int _ => isFalse (by intro e; cases e)
  | .null, .frac _ => isFalse (by intro e; cases e)
  | .null, .str _ => isFalse (by intro e; cases e)
  | .null, .arr _ => isFalse (by intro e; cases e)
  | .null, .obj _ => isFalse (by intro e; cases e)
  | .bool _, .null => isFalse (by intro e; cases e)
  | .bool _, .int _ => isFalse (by intro e; cases e)
  | .bool _, .frac _ => isFalse (by intro e; cases e)
  | .bool _, .str _ => isFalse (by intro e; cases e)
  | .bool _, .arr _ => isFalse (by intro e; cases e)
  | .bool _, .obj _ => isFalse (by intro e; cases e)
  | .int _, .null => isFalse (by intro e; cases e)
  | .int _, .bool _ => isFalse (by intro e; cases e)
  | .int _, .frac _ => isFalse (by intro e; cases e)
  | .int _, .str _ => isFalse (by intro e; cases e)
  | .int _, .arr _ => isFalse (by intro e; cases e)
  | .int _, .obj _ => isFalse (by intro e; cases e)
  | .frac _, .null => isFalse (by intro e; cases e)
  | .frac _, .bool _ => isFalse (by intro e; cases e)
  | .frac _, .int _ => isFalse (by intro e; cases e)
  | .frac _, .str _ => isFalse (by intro e; cases e)
  | .frac _, .arr _ => isFalse (by intro e; cases e)
  | .frac _, .obj _ => isFalse (by intro e; cases e)
  | .str _, .null => isFalse (by intro e; cases e)
  | .str _, .bool _ => isFalse (by intro e; cases e)
  | .str _, .int _ => isFalse (by intro e; cases e)
  | .str _, .frac _ => isFalse (by intro e; cases e)
  | .str _, .arr _ => isFalse (by intro e; cases e)
  | .str _, .obj _ => isFalse (by intro e; cases e)
  | .arr _, .null => isFalse (by intro e; cases e)
  | .arr _, .bool _ => isFalse (by intro e; cases e)
  | .arr _, .int _ => isFalse (by intro e; cases e)
  | .arr _, .frac _ => isFalse (by intro e; cases e)
  | .arr _, .str _ => isFalse (by intro e; cases e)
  | .arr _, .obj _ => isFalse (by intro e; cases e)
  | .obj _, .null => isFalse (by intro e; cases e)
  | .obj _, .bool _ => isFalse (by intro e; cases e)
  | .obj _, .int _ => isFalse (by intro e; cases e)
  | .obj _, .frac _ => isFalse (by intro e; cases e)
  | .obj _, .str _ => isFalse (by intro e; cases e)
  | .obj _, .arr _ => isFalse (by intro e; cases e)
/-- Decidable equality of lists of JSON documents. -/
def Json.decEqList : (a b : List Json) → Decidable (a = b)
  | [], [] => isTrue rfl
  | [], _ :: _ => isFalse (by intro e; cases e)
  | _ :: _, [] => isFalse (by intro e; cases e)
  | x :: xs, y :: ys =>
    match Json.decEq x y, Json.decEqList xs ys with
    | isTrue h, isTrue h2 => isTrue (by rw [h, h2])
    | isFalse h, _ => isFalse (by intro e; cases e; exact h rfl)
    | _, isFalse h => isFalse (by intro e; cases e; exact h rfl)
/-- Decidable equality of the member lists of JSON objects. -/
def Json.decEqFields : (a b : List (String × Json)) → Decidable (a = b)
  | [], [] => isTrue rfl
  | [], _ :: _ => isFalse (by intro e; cases e)
  | _ :: _, [] => isFalse (by intro e; cases e)
  | (k, x) :: xs, (l, y) :: ys =>
    if hk : k = l then
      match Json.decEq x y, Json.decEqFields xs ys with
      | isTrue h, isTrue h2 => isTrue (by rw [hk, h, h2])
      | isFalse h, _ => isFalse (by intro e; cases e; exact h rfl)
      | _, isFalse h => isFalse (by intro e; cases e; exact h rfl)
    else isFalse (by intro e; cases e; exact hk rfl)
end

instance : DecidableEq Json := Json.decEq

/-- Folding of one rune of an object key, as `encoding/json` folds it when it matches a
key against a struct field: ASCII letters fold by case, and the long s and the Kelvin sign
fold to `s` and `k`. -/
def foldRune (c : Char) : Char :=
  if c.toNat = 0x17F then 's' else if c.toNat = 0x212A then 'k' else c.toLower

/-- The folded form of an object key. -/
def foldName (s : String) : String := ⟨s.data.map foldRune⟩

/-- Whether the object key `key` selects the struct field tagged `name`: an exact match,
or else a match of the folded names. -/
def keyIs (name key : String) : Bool := key == name || foldName key == foldName name

/-- The message of the `UnmarshalTypeError` of `encoding/json`. -/
def typeError (v : Json) (target : String) : String :=
  "json: cannot unmarshal " ++ v.kind ++ " into Go value of type " ++ target

/-- Whether an integer fits Go's `int64` (and `int` on a 64-bit platform). -/
def fitsInt64 (n : Int) : Bool := decide (-(2 ^ 63 : Int) ≤ n) && decide (n < (2 ^ 63 : Int))

/-- Decoding into a Go `string` field. JSON null leaves the field as it is. -/
def decodeString (cur : String) : Json → Except String String
  | .str s => .ok s
  | .null => .ok cur
  | v => .error (typeError v "string")

/-- Decoding into a Go `bool` field. -/
def decodeBool (cur : Bool) : Json → Except String Bool
  | .bool b => .ok b
  | .null => .ok cur
  | v => .error (typeError v "bool")

/-- Decoding into a Go `int64` or `int` field. -/
def decodeInt64 (cur : Int) : Json → Except String Int
  | .int n => if fitsInt64 n then .ok n else .error (typeError (.int n) "int64")
  | .null => .ok cur
  | v => .error (typeError v "int64")

/-- Decoding the members of a JSON object one after the other into a struct; the first
type error is the error of the whole decoding. -/
def foldFields {σ : Type} (step : σ → String × Json → Except String σ) :
    σ → List (String × Json) → Except String σ
  | s, [] => .ok s
  | s, kv :: rest =>
    match step s kv with
    | .ok s1 => foldFields step s1 rest
    | .error e => .error e

/-- Decoding into a Go struct value: an object is decoded member by member, JSON null
leaves the value as it is, anything else is a type error. -/
def decodeStruct {σ : Type} (step : σ → String × Json → Except String σ) (target : String)
    (cur : σ) : Json → Except String σ
  | .obj kvs => foldFields step cur kvs
  | .null => .ok cur
  | v => .error (typeError v target)

/-- Decoding the elements of a JSON array one after the other. -/
def decodeElems {α : Type} (elem : Json → Except String α) : List Json → Except String (List α)
  | [] => .ok []
  | x :: xs =>
    match elem x with
    | .error e => .error e
    | .ok a =>
      match decodeElems elem xs with
      | .error e => .error e
      | .ok rest => .ok (a :: rest)

/-- Decoding into a Go slice: an array is decoded element by element, JSON null gives the
nil slice, anything else is a type error. -/
def decodeSlice {α : Type} (elem : Json → Except String α) (target : String) :
    Json → Except String (List α)
  | .arr xs => decodeElems elem xs
  | .null => .ok []
  | v => .error (typeError v target)

/-- Decoding into a Go `map[string]interface{}`. -/
def decodeMap : Json → Except String (List (String × Json))
  | .obj kvs => .ok (kvs.foldl (fun m kv => GoMap.set m kv.1 kv.2) [])
  | .null => .ok []
  | v => .error (typeError v "map[string]interface {}")

/-! ## client/jsonrpc.go and client/interface.go -/

/-- The parameters of a request, as the client builds them. -/
inductive Params where
  | absent
  | InitializeParams (ProtocolVersion : String) (Capabilities : List (String × Json))
      (ClientName ClientVersion : String)
  | CallToolParams (Name : String) (Arguments : List (String × Json))
  deriving DecidableEq

/-- Go `client.JSONRPCRequest`. -/
structure JSONRPCRequest where
  JSONRPC : String
  Method : String
  Params : Params
  ID : Int
  deriving DecidableEq

/-- Go `client.JSONRPCError`. -/
structure JSONRPCError where
  Code : Int := 0
  Message : String := ""
  Data : Option Json := none
  deriving DecidableEq

/-- Go `client.JSONRPCResponse`. `Result` is a `json.RawMessage`: `none` is the nil
slice of an absent member. -/
structure JSONRPCResponse where
  JSONRPC : String := ""
  Result : Option Json := none
  Error : Option JSONRPCError := none
  ID : Int := 0
  deriving DecidableEq

/-- Go `client.ToolInfo`. -/
structure ToolInfo where
  Name : String := ""
  Description : String := ""
  InputSchema : Option Json := none
  deriving DecidableEq

/-- Go `client.ContentItem`; `Typ` is the field `Type`. -/
structure ContentItem where
  Typ : String := ""
  Text : String := ""
  deriving DecidableEq

/-- Go `client.CallToolResult`. -/
structure CallToolResult where
  Content : List ContentItem := []
  IsError : Bool := false
  deriving DecidableEq

/-- Go `client.ServerInfo`. -/
structure ServerInfo where
  Name : String := ""
  Version : String := ""
  deriving DecidableEq

/-- Go `client.InitializeResult`. -/
structure InitializeResult where
  ProtocolVersion : String := ""
  Capabilities : List (String × Json) := []
  ServerInfo : ServerInfo := {}
  deriving DecidableEq

/-- Go `client.ClientError`. -/
structure ClientError where
  Code : Int
  Message : String
  Server : String

/-- Go `(*ClientError).Error`. -/
def ClientError.Error (e : ClientError) : String :=
  "[" ++ e.Server ++ "] " ++ e.Message ++ " (code: " ++ fmtInt e.Code ++ ")"

/-- The value of an `int64` after an addition that may wrap around. -/
def wrapInt64 (n : Int) : Int := (n + 2 ^ 63) % 2 ^ 64 - 2 ^ 63

/-- Go `(*RequestIDGenerator).NextID` on the counter: the new counter, which is also the
id returned. -/
def NextID (counter : Int) : Int := wrapInt64 (counter + 1)

/-- Go `NewInitializeRequest`, given the id drawn from the generator. -/
def NewInitializeRequest (id : Int) (clientName clientVersion : String) : JSONRPCRequest :=
  { JSONRPC := "2.0", Method := "initialize",
    Params := .InitializeParams "2024-11-05" [("tools", .obj [])] clientName clientVersion,
    ID := id }

/-- Go `NewListToolsRequest`. -/
def NewListToolsRequest (id : Int) : JSONRPCRequest :=
  { JSONRPC := "2.0", Method := "tools/list", Params := .absent, ID := id }

/-- Go `NewCallToolRequest`. -/
def NewCallToolRequest (id : Int) (toolName : String) (args : List (String × Json)) :
    JSONRPCRequest :=
  { JSONRPC := "2.0", Method := "tools/call", Params := .CallToolParams toolName args, ID := id }

/-- One member of a JSON object decoded into a `JSONRPCError`. -/
def stepJSONRPCError (cur : JSONRPCError) (kv : String × Json) : Except String JSONRPCError :=
  if keyIs "code" kv.1 then (decodeInt64 cur.Code kv.2).map (fun c => { cur with Code := c })
  else if keyIs "message" kv.1 then
    (decodeString cur.Message kv.2).map (fun m => { cur with Message := m })
  else if keyIs "data" kv.1 then
    .ok { cur with Data := if kv.2 = .null then none else some kv.2 }
  else .ok cur

/-- Decoding into the field `Error *JSONRPCError`: JSON null sets the pointer to nil, an
object is decoded into the struct pointed to (a fresh one when the pointer is nil). -/
def decodeErrorPtr (cur : Option JSONRPCError) : Json → Except String (Option JSONRPCError)
  | .null => .ok none
  | .obj kvs => (foldFields stepJSONRPCError (cur.getD {}) kvs).map some
  | v => .error (typeError v "client.JSONRPCError")

/-- One member of a JSON object decoded into a `JSONRPCResponse`. -/
def stepJSONRPCResponse (cur : JSONRPCResponse) (kv : String × Json) :
    Except String JSONRPCResponse :=
  if keyIs "jsonrpc" kv.1 then
    (decodeString cur.JSONRPC kv.2).map (fun s => { cur with JSONRPC := s })
  else if keyIs "result" kv.1 then .ok { cur with Result := some kv.2 }
  else if keyIs "error" kv.1 then
    (decodeErrorPtr cur.Error kv.2).map (fun e => { cur with Error := e })
  else if keyIs "id" kv.1 then (decodeInt64 cur.ID kv.2).map (fun i => { cur with ID := i })
  else .ok cur

/-- The `json.Unmarshal(responseLine, &response)` of `sendRequest`, on a parsed line. -/
def unmarshalResponse (j : Json) : Except String JSONRPCResponse :=
  decodeStruct stepJSONRPCResponse "client.JSONRPCResponse" {} j

/-- One member of a JSON object decoded into a `ContentItem`. -/
def stepContentItem (cur : ContentItem) (kv : String × Json) : Except String ContentItem :=
  if keyIs "type" kv.1 then (decodeString cur.Typ kv.2).map (fun s => { cur with Typ := s })
  else if keyIs "text" kv.1 then (decodeString cur.Text kv.2).map (fun s => { cur with Text := s })
  else .ok cur

/-- One member of a JSON object decoded into a `CallToolResult`. -/
def stepCallToolResult (cur : CallToolResult) (kv : String × Json) :
    Except String CallToolResult :=
  if keyIs "content" kv.1 then
    (decodeSlice (decodeStruct stepContentItem "client.ContentItem" {}) "[]client.ContentItem"
      kv.2).map (fun c => { cur with Content := c })
  else if keyIs "isError" kv.1 then
    (decodeBool cur.IsError kv.2).map (fun b => { cur with IsError := b })
  else .ok cur

/-- One member of a JSON object decoded into a `ToolInfo`. -/
def stepToolInfo (cur : ToolInfo) (kv : String × Json) : Except String ToolInfo :=
  if keyIs "name" kv.1 then (decodeString cur.Name kv.2).map (fun s => { cur with Name := s })
  else if keyIs "description" kv.1 then
    (decodeString cur.Description kv.2).map (fun s => { cur with Description := s })
  else if keyIs "inputSchema" kv.1 then .ok { cur with InputSchema := some kv.2 }
  else .ok cur

/-- One member of a JSON object decoded into the anonymous struct `{Tools []ToolInfo}` of
`ListTools`. -/
def stepToolList (_cur : List ToolInfo) (kv : String × Json) : Except String (List ToolInfo) :=
  if keyIs "tools" kv.1 then
    decodeSlice (decodeStruct stepToolInfo "client.ToolInfo" {}) "[]client.ToolInfo" kv.2
  else .ok _cur

/-- One member of a JSON object decoded into a `ServerInfo`. -/
def stepServerInfo (cur : ServerInfo) (kv : String × Json) : Except String ServerInfo :=
  if keyIs "name" kv.1 then (decodeString cur.Name kv.2).map (fun s => { cur with Name := s })
  else if keyIs "version" kv.1 then
    (decodeString cur.Version kv.2).map (fun s => { cur with Version := s })
  else .ok cur

/-- One member of a JSON object decoded into an `InitializeResult`. -/
def stepInitializeResult (cur : InitializeResult) (kv : String × Json) :
    Except String InitializeResult :=
  if keyIs "protocolVersion" kv.1 then
    (decodeString cur.ProtocolVersion kv.2).map (fun s => { cur with ProtocolVersion := s })
  else if keyIs "capabilities" kv.1 then
    (decodeMap kv.2).map (fun m => { cur with Capabilities := m })
  else if keyIs "serverInfo" kv.1 then
    (decodeStruct stepServerInfo "client.ServerInfo" cur.ServerInfo kv.2).map
      (fun s => { cur with ServerInfo := s })
  else .ok cur

/-- Go `ParseResponse`: a JSON-RPC error object becomes a `ClientError` (whose `Server`
is left empty), otherwise the raw result is decoded by `decode`; an absent result is the
empty input, which `json.Unmarshal` refuses. -/
def ParseResponse {α : Type} (decode : Json → Except String α) (response : JSONRPCResponse) :
    Except String α :=
  match response.Error with
  | some e => .error (ClientError.Error { Code := e.Code, Message := e.Message, Server := "" })
  | none =>
    match response.Result with
    | none => .error "unexpected end of JSON input"
    | some j => decode j

/-! ## client/stdio_client.go -/

/-- The error of a context that is done. -/
inductive CtxErr where
  | deadlineExceeded
  | canceled
  deriving DecidableEq

/-- The text of `ctx.Err()`. -/
def CtxErr.Error : CtxErr → String
  | .deadlineExceeded => "context deadline exceeded"
  | .canceled => "context canceled"

/-- What the reader goroutine of `sendRequest` meets on the child's stdout. -/
inductive ReadOutcome where
  /-- `ReadBytes` fails with `e` (end of file, closed pipe). -/
  | readErr (e : String)
  /-- A line arrives that is not a JSON document; `e` is the syntax error. -/
  | syntaxErr (e : String)
  /-- A line arrives that is the JSON document `j`. -/
  | doc (j : Json)
  deriving DecidableEq

/-- The environment of one `sendRequest`: the outcome of `json.Marshal` and of the write to
the child's stdin, what the reader goroutine meets, and `ctxDone = some e` when the
`select` takes the `ctx.Done()` case (the caller's context or the 30 s deadline fires
before the reader delivers, or both are ready and the scheduler picks this case; in
particular whenever the child never answers). -/
structure Exchange where
  marshalErr : Option String := none
  writeErr : Option String := none
  reader : ReadOutcome
  ctxDone : Option CtxErr := none
  deriving DecidableEq

/-- What the reader goroutine of `sendRequest` puts on `responseChan` or `errorChan`. -/
def readerResult (reader : ReadOutcome) (request : JSONRPCRequest) :
    Except String JSONRPCResponse :=
  match reader with
  | .readErr e => .error ("failed to read response: " ++ e)
  | .syntaxErr e => .error ("failed to unmarshal response: " ++ e)
  | .doc j =>
    match unmarshalResponse j with
    | .error e => .error ("failed to unmarshal response: " ++ e)
    | .ok response =>
      if response.ID ≠ request.ID then
        .error ("response ID " ++ fmtInt response.ID ++ " does not match request ID " ++
          fmtInt request.ID)
      else .ok response

/-- Go `(*StdioClient).sendRequest`. -/
def sendRequest (x : Exchange) (request : JSONRPCRequest) : Except String JSONRPCResponse :=
  match x.marshalErr with
  | some e => .error ("failed to marshal request: " ++ e)
  | none =>
    match x.writeErr with
    | some e => .error ("failed to write request: " ++ e)
    | none =>
      match x.ctxDone with
      | some c => .error ("request timeout: " ++ c.Error)
      | none => readerResult x.reader request

/-- The state of a Go `*StdioClient` that the operations read and write: the
configuration, the counter of the id generator, and the `connected` flag. The process and
pipe handles are part of the outside world. -/
structure StdioClient where
  serverName : String
  command : String
  args : List String
  env : Option (List String) := none
  counter : Int := 0
  connected : Bool := false
  deriving DecidableEq

/-- Go `NewStdioClient`. -/
def NewStdioClient (serverName command : String) (args : List String) : StdioClient :=
  { serverName := serverName, command := command, args := args }

/-- The environment of one `Connect`: the errors of `StdinPipe`, `StdoutPipe` and `Start`. -/
structure SpawnWorld where
  stdinPipeErr : Option String := none
  stdoutPipeErr : Option String := none
  startErr : Option String := none
  deriving DecidableEq

/-- The environment of one `Close`: the errors of closing stdin, closing stdout and of
killing the process. -/
structure CloseWorld where
  stdinErr : Option String := none
  stdoutErr : Option String := none
  killErr : Option String := none
  deriving DecidableEq

/-- Go `(*StdioClient).Connect`: the client afterwards and the error, if any. -/
def StdioClient.Connect (c : StdioClient) (w : SpawnWorld) : StdioClient × Option String :=
  if c.connected then (c, none)
  else
    match w.stdinPipeErr with
    | some e => (c, some ("failed to create stdin pipe: " ++ e))
    | none =>
      match w.stdoutPipeErr with
      | some e => (c, some ("failed to create stdout pipe: " ++ e))
      | none =>
        match w.startErr with
        | some e => (c, some ("failed to start MCP server: " ++ e))
        | none => ({ c with connected := true }, none)

/-- Go `(*StdioClient).Initialize`. -/
def StdioClient.Initialize (c : StdioClient) (x : Exchange) :
    StdioClient × Except String InitializeResult :=
  if !c.connected then (c, .error "client not connected")
  else
    let id := NextID c.counter
    let request := NewInitializeRequest id "dynamic-mcp-proxy" "1.0.0"
    let c1 := { c with counter := id }
    match sendRequest x request with
    | .error e => (c1, .error ("initialize request failed: " ++ e))
    | .ok response =>
      match ParseResponse (decodeStruct stepInitializeResult "client.InitializeResult" {})
          response with
      | .error e => (c1, .error ("failed to parse initialize response: " ++ e))
      | .ok result => (c1, .ok result)

/-- Go `(*StdioClient).ListTools`. -/
def StdioClient.ListTools (c : StdioClient) (x : Exchange) :
    StdioClient × Except String (List ToolInfo) :=
  if !c.connected then (c, .error "client not connected")
  else
    let id := NextID c.counter
    let request := NewListToolsRequest id
    let c1 := { c with counter := id }
    match sendRequest x request with
    | .error e => (c1, .error ("tools/list request failed: " ++ e))
    | .ok response =>
      match ParseResponse (decodeStruct stepToolList "struct { Tools []client.ToolInfo }" [])
          response with
      | .error e => (c1, .error ("failed to parse tools/list response: " ++ e))
      | .ok tools => (c1, .ok tools)

/-- Go `(*StdioClient).CallTool`. -/
def StdioClient.CallTool (c : StdioClient) (x : Exchange) (name : String)
    (args : List (String × Json)) : StdioClient × Except String CallToolResult :=
  if !c.connected then (c, .error "client not connected")
  else
    let id := NextID c.counter
    let request := NewCallToolRequest id name args
    let c1 := { c with counter := id }
    match sendRequest x request with
    | .error e => (c1, .error ("tools/call request failed: " ++ e))
    | .ok response =>
      match ParseResponse (decodeStruct stepCallToolResult "client.CallToolResult" {})
          response with
      | .error e => (c1, .error ("failed to parse tools/call response: " ++ e))
      | .ok result => (c1, .ok result)

/-- The errors collected by `Close`, in order. -/
def closeErrors (w : CloseWorld) : List String :=
  (match w.stdinErr with | some e => ["failed to close stdin: " ++ e] | none => []) ++
  (match w.stdoutErr with | some e => ["failed to close stdout: " ++ e] | none => []) ++
  (match w.killErr with | some e => ["failed to kill process: " ++ e] | none => [])

/-- Go `(*StdioClient).Close`: the client afterwards and the error, if any. -/
def StdioClient.Close (c : StdioClient) (w : CloseWorld) : StdioClient × Option String :=
  if !c.connected then (c, none)
  else
    let c1 := { c with connected := false }
    match closeErrors w with
    | [] => (c1, none)
    | e :: es => (c1, some ("errors during close: [" ++ Join (e :: es) " " ++ "]"))

/-- Go `(*StdioClient).ServerName`. -/
def StdioClient.ServerName (c : StdioClient) : String := c.serverName

/-- Go `(*StdioClient).IsConnected`. -/
def StdioClient.IsConnected (c : StdioClient) : Bool := c.connected

/-! ## config/types.go and discovery/types.go -/

/-- Go `config.AuthConfig`. -/
structure AuthConfig where
  Typ : String := ""
  Token : String := ""
  Username : String := ""
  Password : String := ""
  deriving DecidableEq

/-- Go `config.ServerConfig`. -/
structure ServerConfig where
  Name : String := ""
  Prefix : String := ""
  Transport : String := ""
  Command : String := ""
  Args : List String := []
  Env : List (String × String) := []
  URL : String := ""
  Auth : Option AuthConfig := none
  Timeout : String := ""
  deriving DecidableEq

/-- Go `discovery.RemoteTool`. -/
structure RemoteTool where
  OriginalName : String := ""
  PrefixedName : String := ""
  Description : String := ""
  InputSchema : Option Json := none
  ServerName : String := ""
  ServerPrefix : String := ""
  deriving DecidableEq

/-! ## The upstream library (mark3labs/mcp-go), as far as the proxy uses it -/

/-- The `mcp.CallToolRequest` of the upstream library: the tool name and the argument
object. -/
structure CallToolRequest where
  Name : String := ""
  Arguments : List (String × Json) := []
  deriving DecidableEq

/-- The `RequireString` of `mcp.CallToolRequest`: the argument when it is present and a
string. The text of its error is never used by the handlers. -/
def CallToolRequest.RequireString (r : CallToolRequest) (key : String) : Option String :=
  match GoMap.get r.Arguments key with
  | some (.str s) => some s
  | _ => none

/-- The `mcp.CallToolResult` of the upstream library, as built by `NewToolResultText` and
`NewToolResultError`: one text content item and the error flag. -/
structure ToolResult where
  Text : String
  IsError : Bool
  deriving DecidableEq

/-- The `mcp.NewToolResultError` of the upstream library. -/
def NewToolResultError (text : String) : ToolResult := { Text := text, IsError := true }

/-- The `mcp.NewToolResultText` of the upstream library. -/
def NewToolResultText (text : String) : ToolResult := { Text := text, IsError := false }

/-- The `mcp.Tool` built by `mcp.NewTool(name, mcp.WithDescription(d))`. -/
structure McpTool where
  Name : String
  Description : String
  deriving DecidableEq

/-- The handlers that the wrapper registers with the upstream server. A forwarding handler
is the closure `createDynamicProxyHandler(serverName, originalToolName)`. -/
inductive Handler where
  | serverAdd
  | serverRemove
  | serverList
  | serverDisconnect
  | serverReconnect
  | dynamicProxy (serverName originalToolName : String)
  deriving DecidableEq

/-! ## proxy/handler.go -/

/-- The text joined by the loop of `transformResult`: every item's `Text`, with a newline
before every item but the first. -/
def joinContent : List ContentItem → String
  | [] => ""
  | c :: rest => rest.foldl (fun text content => text ++ "\n" ++ content.Text) c.Text

/-- Go `proxy.transformResult`. -/
def transformResult (clientResult : CallToolResult) : ToolResult :=
  if clientResult.IsError then
    match clientResult.Content with
    | c :: _ => NewToolResultError c.Text
    | [] => NewToolResultError "Tool execution failed"
  else
    match clientResult.Content with
    | c :: rest => NewToolResultText (joinContent (c :: rest))
    | [] => NewToolResultText "Tool executed successfully"

/-- A reference to a `*StdioClient`: its index in the heap of the wrapper state. -/
abbrev ClientRef := Nat

/-- Go `proxy.ToolRegistry`. -/
structure ToolRegistry where
  tools : List (String × RemoteTool) := []
  clients : List (String × ClientRef) := []
  deriving DecidableEq

/-- Go `proxy.NewToolRegistry`. -/
def NewToolRegistry : ToolRegistry := {}

/-- Go `(*ToolRegistry).RegisterTool`. -/
def ToolRegistry.RegisterTool (r : ToolRegistry) (tool : RemoteTool) (mcpClient : ClientRef) :
    ToolRegistry :=
  { tools := GoMap.set r.tools tool.PrefixedName tool,
    clients := GoMap.set r.clients tool.ServerName mcpClient }

/-- Go `(*ToolRegistry).GetTool`. -/
def ToolRegistry.GetTool (r : ToolRegistry) (prefixedName : String) : Option RemoteTool :=
  GoMap.get r.tools prefixedName

/-- Go `(*ToolRegistry).GetClient`. -/
def ToolRegistry.GetClient (r : ToolRegistry) (serverName : String) : Option ClientRef :=
  GoMap.get r.clients serverName

/-- Go `(*ToolRegistry).GetAllTools`, in the order of the association list (Go leaves the
order of a map iteration open). -/
def ToolRegistry.GetAllTools (r : ToolRegistry) : List RemoteTool := r.tools.map Prod.snd

/-! ## integration/dynamic_wrapper.go -/

/-- Go `integration.DynamicServerInfo`. `Client = none` is the nil interface. -/
structure DynamicServerInfo where
  Name : String
  Client : Option ClientRef
  Tools : List String
  Config : ServerConfig
  IsConnected : Bool
  ErrorMessage : String := ""
  deriving DecidableEq

/-- The state of a `DynamicWrapper`: the server map, the proxy server's registry and
client list, the tool table of the upstream server (`AddTool` writes it by tool name), and
the heap of the clients that the other components refer to. -/
structure DynamicWrapper where
  dynamicServers : List (String × DynamicServerInfo) := []
  registry : ToolRegistry := {}
  clients : List ClientRef := []
  baseTools : List (String × McpTool × Handler) := []
  heap : List StdioClient := []
  deriving DecidableEq

/-- What is passed to one call of `recordMessage`. -/
inductive RecPayload where
  | request (r : CallToolRequest)
  | result (r : ToolResult)
  deriving DecidableEq

/-- One call of `recordMessage(direction, messageType, toolName, serverName, message)`. -/
structure RecordCall where
  direction : String
  messageType : String
  toolName : String
  serverName : String
  message : RecPayload
  deriving DecidableEq

/-- What a handler does when it returns: the state afterwards, the result handed to the
upstream server, and the calls of `recordMessage` it made, in order. -/
structure Reply where
  state : DynamicWrapper
  result : ToolResult
  records : List RecordCall := []
  deriving DecidableEq

/-- The outcome of a handler: a reply, or a Go runtime panic, which ends the process
since the upstream server is built without a recovery middleware. -/
inductive Outcome where
  | ok (r : Reply)
  | panicked (reason : String)
  deriving DecidableEq

/-- The management tools of `registerManagementTools`, for the upstream tool table. -/
def managementTools : List (String × McpTool × Handler) :=
  [("server_add", ⟨"server_add", "Add a new MCP server to the proxy dynamically"⟩, .serverAdd),
   ("server_remove", ⟨"server_remove", "Remove an MCP server from the proxy"⟩, .serverRemove),
   ("server_list", ⟨"server_list", "List all connected MCP servers"⟩, .serverList),
   ("server_disconnect",
     ⟨"server_disconnect", "Disconnect a server (tools remain but return errors)"⟩,
     .serverDisconnect),
   ("server_reconnect",
     ⟨"server_reconnect", "Reconnect a server with new command (use after server_disconnect)"⟩,
     .serverReconnect)]

/-- Go `NewDynamicWrapper`, for a configuration whose static servers are not yet
connected: empty maps, and the five management tools in the upstream table. -/
def NewDynamicWrapper : DynamicWrapper := { baseTools := managementTools }

/-- Go `(*ProxyServer).createMCPTool`. -/
def createMCPTool (remoteTool : RemoteTool) : McpTool :=
  { Name := remoteTool.PrefixedName,
    Description := "[" ++ remoteTool.ServerName ++ "] " ++ remoteTool.Description }

/-- Go `isConnectionError`, on the text of the error. -/
def isConnectionError (err : String) : Bool :=
  let errStr := ToLower err
  Contains errStr "connection" || Contains errStr "broken pipe" || Contains errStr "eof" ||
    Contains errStr "closed" || Contains errStr "timeout"

/-- The environment of a `server_add` or `server_reconnect`: what happens to the new
client's `Connect`, `Initialize` and `ListTools`. -/
structure ConnectWorld where
  spawn : SpawnWorld := {}
  init : Exchange
  list : Exchange
  deriving DecidableEq

/-- The record of a request, as the handlers write it first. -/
def recRequest (toolName serverName : String) (request : CallToolRequest) : RecordCall :=
  ⟨"request", "tool_call", toolName, serverName, .request request⟩

/-- The record of a response. -/
def recResponse (toolName serverName : String) (result : ToolResult) : RecordCall :=
  ⟨"response", "tool_call", toolName, serverName, .result result⟩

/-- The body of the registration loop of `handleServerAdd` for one tool. -/
def registerOne (name : String) (stdioClient : ClientRef)
    (acc : ToolRegistry × List (String × McpTool × Handler) × List String) (tool : ToolInfo) :
    ToolRegistry × List (String × McpTool × Handler) × List String :=
  let discoveredTool : RemoteTool :=
    { OriginalName := tool.Name, PrefixedName := name ++ "_" ++ tool.Name,
      Description := tool.Description, InputSchema := tool.InputSchema, ServerName := name }
  (acc.1.RegisterTool discoveredTool stdioClient,
   GoMap.set acc.2.1 discoveredTool.PrefixedName
     (createMCPTool discoveredTool, .dynamicProxy name discoveredTool.OriginalName),
   acc.2.2 ++ [discoveredTool.PrefixedName])

/-- The three steps `Connect`, `Initialize`, `ListTools` on a fresh client, with the error
text that `handleServerAdd` and `handleServerReconnect` report when one of them fails
(after a failed `Initialize` or `ListTools` the client is closed; nothing refers to it,
so it is not kept). -/
def connectAndList (name command : String) (args : List String) (world : ConnectWorld) :
    Except String (StdioClient × List ToolInfo) :=
  match (NewStdioClient name command args).Connect world.spawn with
  | (_, some e) => .error ("Failed to connect: " ++ e)
  | (c1, none) =>
    match c1.Initialize world.init with
    | (_, .error e) => .error ("Failed to initialize: " ++ e)
    | (c2, .ok _) =>
      match c2.ListTools world.list with
      | (_, .error e) => .error ("Failed to list tools: " ++ e)
      | (c3, .ok tools) => .ok (c3, tools)

/-- Go `(*DynamicWrapper).handleServerAdd`. -/
def handleServerAdd (w : DynamicWrapper) (world : ConnectWorld) (request : CallToolRequest) :
    Outcome :=
  let rec0 := [recRequest "server_add" "proxy" request]
  match request.RequireString "name" with
  | none =>
    let result := NewToolResultError "name is required"
    .ok ⟨w, result, rec0 ++ [recResponse "server_add" "proxy" result]⟩
  | some name =>
    match request.RequireString "command" with
    | none =>
      let result := NewToolResultError "command is required"
      .ok ⟨w, result, rec0 ++ [recResponse "server_add" "proxy" result]⟩
    | some command =>
      if (GoMap.get w.dynamicServers name).isSome then
        .ok ⟨w, NewToolResultError ("Server '" ++ name ++ "' already exists"), rec0⟩
      else
        match Fields command with
        | [] => .ok ⟨w, NewToolResultError "Invalid command", rec0⟩
        | cmd :: args =>
          let serverConfig : ServerConfig :=
            { Name := name, Prefix := name, Transport := "stdio", Command := cmd, Args := args,
              Timeout := "30s" }
          match connectAndList name cmd args world with
          | .error e => .ok ⟨w, NewToolResultError e, rec0⟩
          | .ok (client, tools) =>
            let stdioClient : ClientRef := w.heap.length
            let reg := tools.foldl (registerOne name stdioClient) (w.registry, w.baseTools, [])
            let serverInfo : DynamicServerInfo :=
              { Name := name, Client := some stdioClient, Config := serverConfig,
                Tools := reg.2.2, IsConnected := true }
            let w1 : DynamicWrapper :=
              { dynamicServers := GoMap.set w.dynamicServers name serverInfo,
                registry := reg.1,
                clients := w.clients ++ [stdioClient],
                baseTools := reg.2.1,
                heap := w.heap ++ [client] }
            let toolResult := NewToolResultText
              ("Added server '" ++ name ++ "' with command: " ++ cmd ++ " " ++ Join args " " ++
                "\nRegistered " ++ fmtNat tools.length ++ " tools successfully.")
            .ok ⟨w1, toolResult, rec0 ++ [recResponse "server_add" "proxy" toolResult]⟩

/-- The effect of `client.Close()` on the heap; `none` when the reference is dangling. -/
def closeRef (heap : List StdioClient) (ref : ClientRef) (world : CloseWorld) :
    Option (List StdioClient) :=
  match heap.get? ref with
  | none => none
  | some c => some (heap.set ref (c.Close world).1)

/-- Go `(*DynamicWrapper).handleServerRemove`. The call of `Close` on a nil `Client` and a
negative capacity in `make` are runtime panics. -/
def handleServerRemove (w : DynamicWrapper) (world : CloseWorld) (request : CallToolRequest) :
    Outcome :=
  match request.RequireString "name" with
  | none => .ok ⟨w, NewToolResultError "name is required", []⟩
  | some name =>
    match GoMap.get w.dynamicServers name with
    | none => .ok ⟨w, NewToolResultError ("Server '" ++ name ++ "' not found"), []⟩
    | some serverInfo =>
      match serverInfo.Client with
      | none => .panicked "invalid memory address or nil pointer dereference"
      | some ref =>
        match closeRef w.heap ref world with
        | none => .panicked "invalid memory address or nil pointer dereference"
        | some heap1 =>
          if w.clients.length = 0 then .panicked "makeslice: cap out of range"
          else
            let w1 : DynamicWrapper :=
              { w with
                dynamicServers := GoMap.delete w.dynamicServers name,
                clients := w.clients.filter (fun c => c ≠ ref),
                heap := heap1 }
            .ok ⟨w1, NewToolResultText
              ("Removed server '" ++ name ++ "'. Note: " ++ fmtNat serverInfo.Tools.length ++
                " tools remain registered but are now unavailable."), []⟩

/-- Go `(*DynamicWrapper).handleServerDisconnect`. -/
def handleServerDisconnect (w : DynamicWrapper) (world : CloseWorld)
    (request : CallToolRequest) : Outcome :=
  match request.RequireString "name" with
  | none => .ok ⟨w, NewToolResultError "name is required", []⟩
  | some name =>
    match GoMap.get w.dynamicServers name with
    | none => .ok ⟨w, NewToolResultError ("Server '" ++ name ++ "' not found"), []⟩
    | some serverInfo =>
      if !serverInfo.IsConnected then
        .ok ⟨w, NewToolResultText ("Server '" ++ name ++ "' is already disconnected"), []⟩
      else
        let closed : Option (List StdioClient) :=
          match serverInfo.Client with
          | none => some w.heap
          | some ref => closeRef w.heap ref world
        match closed with
        | none => .panicked "invalid memory address or nil pointer dereference"
        | some heap1 =>
          let serverInfo1 : DynamicServerInfo :=
            { serverInfo with
              IsConnected := false, ErrorMessage := "Server disconnected by user",
              Client := none }
          .ok ⟨{ w with dynamicServers := GoMap.set w.dynamicServers name serverInfo1,
                        heap := heap1 },
            NewToolResultText ("Disconnected server '" ++ name ++
              "'. Tools remain registered but will return errors.\\nUse server_reconnect to restore with new binary/command."),
            []⟩

/-- The loop of `handleServerReconnect` over the proxy server's client list: the first
client whose `ServerName()` is `name` is replaced by the new client. `none` when a
reference is dangling. -/
def replaceFirstNamed (heap : List StdioClient) (name : String) (new : ClientRef) :
    List ClientRef → Option (List ClientRef)
  | [] => some []
  | c :: cs =>
    match heap.get? c with
    | none => none
    | some cl =>
      if cl.ServerName = name then some (new :: cs)
      else (replaceFirstNamed heap name new cs).map (fun rest => c :: rest)

/-- The body of the registry loop of `handleServerReconnect` for one tool of the new
server: registered again when its prefixed name is among the entry's tools. -/
def reregisterOne (name : String) (registered : List String) (stdioClient : ClientRef)
    (r : ToolRegistry) (tool : ToolInfo) : ToolRegistry :=
  let prefixedName := name ++ "_" ++ tool.Name
  if registered.contains prefixedName then
    r.RegisterTool
      { OriginalName := tool.Name, PrefixedName := prefixedName,
        Description := tool.Description, InputSchema := tool.InputSchema, ServerName := name }
      stdioClient
  else r

/-- Go `(*DynamicWrapper).handleServerReconnect`. -/
def handleServerReconnect (w : DynamicWrapper) (world : ConnectWorld)
    (request : CallToolRequest) : Outcome :=
  match request.RequireString "name" with
  | none => .ok ⟨w, NewToolResultError "name is required", []⟩
  | some name =>
    match request.RequireString "command" with
    | none => .ok ⟨w, NewToolResultError "command is required", []⟩
    | some command =>
      match GoMap.get w.dynamicServers name with
      | none => .ok ⟨w, NewToolResultError ("Server '" ++ name ++ "' not found"), []⟩
      | some serverInfo =>
        if serverInfo.IsConnected then
          .ok ⟨w, NewToolResultError
            ("Server '" ++ name ++ "' is still connected. Use server_disconnect first."), []⟩
        else
          match Fields command with
          | [] => .ok ⟨w, NewToolResultError "Invalid command", []⟩
          | cmd :: args =>
            let serverConfig : ServerConfig :=
              { Name := name, Prefix := name, Transport := "stdio", Command := cmd,
                Args := args, Timeout := "30s" }
            match connectAndList name cmd args world with
            | .error e =>
              let serverInfo1 : DynamicServerInfo :=
                { serverInfo with
                  IsConnected := false, ErrorMessage := e, Config := serverConfig }
              .ok ⟨{ w with dynamicServers := GoMap.set w.dynamicServers name serverInfo1 },
                NewToolResultError e, []⟩
            | .ok (client, tools) =>
              let stdioClient : ClientRef := w.heap.length
              let serverInfo1 : DynamicServerInfo :=
                { serverInfo with
                  Client := some stdioClient, Config := serverConfig, IsConnected := true,
                  ErrorMessage := "" }
              match replaceFirstNamed w.heap name stdioClient w.clients with
              | none => .panicked "invalid memory address or nil pointer dereference"
              | some clients1 =>
                let w1 : DynamicWrapper :=
                  { w with
                    dynamicServers := GoMap.set w.dynamicServers name serverInfo1,
                    registry :=
                      tools.foldl (reregisterOne name serverInfo.Tools stdioClient) w.registry,
                    clients := clients1,
                    heap := w.heap ++ [client] }
                .ok ⟨w1, NewToolResultText
                  ("Reconnected server '" ++ name ++ "' with command: " ++ cmd ++ " " ++
                    Join args " " ++ "\\nServer now connected and tools updated."), []⟩

/-- The translation of a downstream result that is written out in
`createDynamicProxyHandler` (the lines after "Transform the result back to MCP format"). -/
def wrapperTransform (result : CallToolResult) : ToolResult :=
  if result.IsError then
    match result.Content with
    | c :: _ => NewToolResultError c.Text
    | [] => NewToolResultError "Tool execution failed"
  else
    match result.Content with
    | c :: rest => NewToolResultText (joinContent (c :: rest))
    | [] => NewToolResultText "Tool executed successfully"

/-- The handler returned by Go `(*DynamicWrapper).createDynamicProxyHandler(serverName,
originalToolName)`, run on one request. -/
def createDynamicProxyHandler (serverName originalToolName : String) (w : DynamicWrapper)
    (world : Exchange) (request : CallToolRequest) : Outcome :=
  let prefixedToolName := serverName ++ "_" ++ originalToolName
  let rec0 := [recRequest prefixedToolName serverName request]
  match GoMap.get w.dynamicServers serverName with
  | none =>
    let result := NewToolResultError ("Server '" ++ serverName ++ "' not found")
    .ok ⟨w, result, rec0 ++ [recResponse prefixedToolName serverName result]⟩
  | some serverInfo =>
    if !serverInfo.IsConnected then
      let errorMsg := "Server '" ++ serverName ++ "' is disconnected"
      let errorMsg := if serverInfo.ErrorMessage ≠ "" then
        errorMsg ++ (": " ++ serverInfo.ErrorMessage) else errorMsg
      let errorMsg := errorMsg ++ "\nUse server_reconnect to restore connection."
      let result := NewToolResultError errorMsg
      .ok ⟨w, result, rec0 ++ [recResponse prefixedToolName serverName result]⟩
    else
      let argsMap := request.Arguments
      match serverInfo.Client with
      | none => .panicked "invalid memory address or nil pointer dereference"
      | some ref =>
        match w.heap.get? ref with
        | none => .panicked "invalid memory address or nil pointer dereference"
        | some client =>
          match client.CallTool world originalToolName argsMap with
          | (client1, .error err) =>
            let heap1 := w.heap.set ref client1
            if isConnectionError err then
              let serverInfo1 : DynamicServerInfo :=
                { serverInfo with IsConnected := false, ErrorMessage := err }
              let errorMsg := "Server '" ++ serverName ++ "' connection failed: " ++ err ++
                "\nUse server_reconnect to restore connection."
              let result := NewToolResultError errorMsg
              .ok ⟨{ w with
                     dynamicServers := GoMap.set w.dynamicServers serverName serverInfo1,
                     heap := heap1 },
                result, rec0 ++ [recResponse prefixedToolName serverName result]⟩
            else
              let errorMsg := "[" ++ serverName ++ "] " ++ err
              let result := NewToolResultError errorMsg
              .ok ⟨{ w with heap := heap1 }, result,
                rec0 ++ [recResponse prefixedToolName serverName result]⟩
          | (client1, .ok result) =>
            let finalResult := wrapperTransform result
            .ok ⟨{ w with heap := w.heap.set ref client1 }, finalResult,
              rec0 ++ [recResponse prefixedToolName serverName finalResult]⟩

/-- One management operation or forwarded call arriving at the wrapper, with its
environment. -/
inductive Op where
  | add (world : ConnectWorld) (request : CallToolRequest)
  | remove (world : CloseWorld) (request : CallToolRequest)
  | disconnect (world : CloseWorld) (request : CallToolRequest)
  | reconnect (world : ConnectWorld) (request : CallToolRequest)
  | call (serverName originalToolName : String) (world : Exchange) (request : CallToolRequest)
  deriving DecidableEq

/-- The handler that serves an operation. -/
def step (w : DynamicWrapper) : Op → Outcome
  | .add world request => handleServerAdd w world request
  | .remove world request => handleServerRemove w world request
  | .disconnect world request => handleServerDisconnect w world request
  | .reconnect world request => handleServerReconnect w world request
  | .call s t world request => createDynamicProxyHandler s t w world request

/-- The state after a sequence of operations of which none panics; `none` as soon as one
does (the process has ended). -/
def run : DynamicWrapper → List Op → Option DynamicWrapper
  | w, [] => some w
  | w, op :: ops =>
    match step w op with
    | .ok r => run r.state ops
    | .panicked _ => none

/-! ## Recording (`integration/dynamic_wrapper.go`) and its parser (`playback/parser.go`)

A `time.Time` is represented by the RFC 3339 text that `encoding/json` writes for it.
A recording file is a list of lines. -/

/-- One line of a recording file: `text s` is a line of text that is not a JSON document
on its own (a comment, a blank line, one line of an indented document); `doc j` is a line
that holds the whole JSON document `j`. -/
inductive Line where
  | text (s : String)
  | doc (j : Json)
  deriving DecidableEq

/-- Go `integration.RecordedMessage`. -/
structure RecordedMessage where
  Timestamp : String := "0001-01-01T00:00:00Z"
  Direction : String := ""
  MessageType : String := ""
  ToolName : String := ""
  ServerName : String := ""
  Message : Option Json := none
  deriving DecidableEq

/-- Go `playback.PlaybackSession` (and `integration.RecordingSession`, which has the same
fields). -/
structure PlaybackSession where
  StartTime : String := "0001-01-01T00:00:00Z"
  ServerInfo : String := ""
  Messages : List RecordedMessage := []
  deriving DecidableEq

/-- The recording state of the wrapper: `recordEnabled` and the lines written so far to
`recordFile`. -/
structure Recorder where
  recordEnabled : Bool := false
  recordFile : List Line := []
  deriving DecidableEq

/-- The text of `t.Format(time.RFC3339)` from the text with fractional seconds: the
fraction is dropped. -/
def formatRFC3339 (t : String) : String :=
  ⟨t.data.takeWhile (fun c => c ≠ '.') ++
    (t.data.dropWhile (fun c => c ≠ '.')).dropWhile (fun c => c = '.' || c.isDigit)⟩

/-- The lines of `json.MarshalIndent(session, "", "  ")` for the session header that
`EnableRecording` writes (its `Messages` is the empty slice). -/
def marshalIndentHeader (startTime serverInfo : String) : List Line :=
  [.text "\x7b",
   .text ("  \"start_time\": \"" ++ startTime ++ "\","),
   .text ("  \"server_info\": \"" ++ serverInfo ++ "\","),
   .text "  \"messages\": []",
   .text "\x7d"]

/-- Go `(*DynamicWrapper).EnableRecording`; `now` is `time.Now()` and `createErr` the
error of `os.Create`. -/
def EnableRecording (r : Recorder) (now : String) (createErr : Option String) :
    Recorder × Option String :=
  if r.recordEnabled then (r, some "recording already enabled")
  else
    match createErr with
    | some e => (r, some ("failed to create recording file: " ++ e))
    | none =>
      ({ recordEnabled := true,
         recordFile :=
           [.text "# MCP Recording Session", .text ("# Started: " ++ formatRFC3339 now)] ++
             marshalIndentHeader now "Dynamic MCP Proxy v1.0.0" }, none)

/-- The document that `json.Marshal` writes for a `RecordedMessage`: `tool_name` and
`server_name` are left out when empty. -/
def marshalRecordedMessage (m : RecordedMessage) : Json :=
  .obj ([("timestamp", .str m.Timestamp), ("direction", .str m.Direction),
      ("message_type", .str m.MessageType)] ++
    (if m.ToolName = "" then [] else [("tool_name", .str m.ToolName)]) ++
    (if m.ServerName = "" then [] else [("server_name", .str m.ServerName)]) ++
    [("message", m.Message.getD .null)])

/-- Go `(*DynamicWrapper).recordMessage`; `now` is `time.Now()` and `message` the
document that `json.Marshal(message)` gives (`none` when it fails). -/
def recordMessage (r : Recorder) (now : String) (direction messageType toolName
    serverName : String) (message : Option Json) : Recorder :=
  if !r.recordEnabled then r
  else
    match message with
    | none => r
    | some messageBytes =>
      let recorded : RecordedMessage :=
        { Timestamp := now, Direction := direction, MessageType := messageType,
          ToolName := toolName, ServerName := serverName, Message := some messageBytes }
      { r with recordFile := r.recordFile ++ [.doc (marshalRecordedMessage recorded)] }

/-- Decoding into a Go `time.Time` field; `timeOK` is the set of texts that `time.Parse`
accepts as RFC 3339. -/
def decodeTime (timeOK : String → Bool) (cur : String) : Json → Except String String
  | .str s => if timeOK s then .ok s else .error ("parsing time \"" ++ s ++ "\"")
  | .null => .ok cur
  | _ => .error "Time.UnmarshalJSON: input is not a JSON string"

/-- One member of a JSON object decoded into a `RecordedMessage`. -/
def stepRecordedMessage (timeOK : String → Bool) (cur : RecordedMessage)
    (kv : String × Json) : Except String RecordedMessage :=
  if keyIs "timestamp" kv.1 then
    (decodeTime timeOK cur.Timestamp kv.2).map (fun t => { cur with Timestamp := t })
  else if keyIs "direction" kv.1 then
    (decodeString cur.Direction kv.2).map (fun s => { cur with Direction := s })
  else if keyIs "message_type" kv.1 then
    (decodeString cur.MessageType kv.2).map (fun s => { cur with MessageType := s })
  else if keyIs "tool_name" kv.1 then
    (decodeString cur.ToolName kv.2).map (fun s => { cur with ToolName := s })
  else if keyIs "server_name" kv.1 then
    (decodeString cur.ServerName kv.2).map (fun s => { cur with ServerName := s })
  else if keyIs "message" kv.1 then .ok { cur with Message := some kv.2 }
  else .ok cur

/-- The `json.Unmarshal([]byte(line), &message)` of the parser. -/
def unmarshalRecordedMessage (timeOK : String → Bool) (j : Json) :
    Except String RecordedMessage :=
  decodeStruct (stepRecordedMessage timeOK) "integration.RecordedMessage" {} j

/-- One member of a JSON object decoded into a `PlaybackSession`. -/
def stepPlaybackSession (timeOK : String → Bool) (cur : PlaybackSession)
    (kv : String × Json) : Except String PlaybackSession :=
  if keyIs "start_time" kv.1 then
    (decodeTime timeOK cur.StartTime kv.2).map (fun t => { cur with StartTime := t })
  else if keyIs "server_info" kv.1 then
    (decodeString cur.ServerInfo kv.2).map (fun s => { cur with ServerInfo := s })
  else if keyIs "messages" kv.1 then
    (decodeSlice (unmarshalRecordedMessage timeOK) "[]integration.RecordedMessage" kv.2).map
      (fun ms => { cur with Messages := ms })
  else .ok cur

/-- The `json.Unmarshal([]byte(line), &tempSession)` of the parser. -/
def unmarshalPlaybackSession (timeOK : String → Bool) (j : Json) :
    Except String PlaybackSession :=
  decodeStruct (stepPlaybackSession timeOK) "playback.PlaybackSession" {} j

/-- The body of the scan loop of `ParseRecordingFile` for one line: the session header
found so far and the messages collected so far, before and after. A text line changes
nothing: it is skipped as a blank or comment line, or else both calls of `json.Unmarshal`
fail on it. A document is tried as session header while none is found, then as message. -/
def parseLine (timeOK : String → Bool)
    (acc : Option PlaybackSession × List RecordedMessage) (line : Line) :
    Option PlaybackSession × List RecordedMessage :=
  match line with
  | .text s =>
    let line := TrimSpace s
    if line = "" || HasPrefix line "#" then acc else acc
  | .doc j =>
    let asMessage : Option PlaybackSession × List RecordedMessage :=
      match unmarshalRecordedMessage timeOK j with
      | .error _ => acc
      | .ok message => (acc.1, acc.2 ++ [message])
    match acc.1 with
    | none =>
      match unmarshalPlaybackSession timeOK j with
      | .ok tempSession => (some tempSession, acc.2)
      | .error _ => asMessage
    | some _ => asMessage

/-- Go `playback.ParseRecordingFile` on the lines of the file; `now` is `time.Now()`,
`scanErr` the value of `scanner.Err()` after the scan. -/
def ParseRecordingFile (timeOK : String → Bool) (now : String) (scanErr : Option String)
    (file : List Line) : Except String PlaybackSession :=
  let acc := file.foldl (parseLine timeOK) (none, [])
  match scanErr with
  | some e => .error ("error reading file: " ++ e)
  | none =>
    let session : PlaybackSession :=
      match acc.1 with
      | some s => s
      | none => { StartTime := now, ServerInfo := "Unknown" }
    .ok { session with Messages := acc.2 }

/-- Go `(*PlaybackSession).GetClientMessages`. -/
def PlaybackSession.GetClientMessages (s : PlaybackSession) : List RecordedMessage :=
  s.Messages.filter (fun message => message.Direction = "request")

/-- Go `(*PlaybackSession).GetServerMessages`. -/
def PlaybackSession.GetServerMessages (s : PlaybackSession) : List RecordedMessage :=
  s.Messages.filter (fun message => message.Direction = "response")

/-- One message of a session to record: the arguments of a call of `recordMessage` and
the time of the call. -/
structure SessionEvent where
  now : String
  direction : String
  messageType : String
  toolName : String
  serverName : String
  message : Json
  deriving DecidableEq

/-- The recorder after `EnableRecording` at time `start` and one `recordMessage` per
event of the session, in order. -/
def recordSession (start : String) (S : List SessionEvent) : Recorder :=
  S.foldl
    (fun r e => recordMessage r e.now e.direction e.messageType e.toolName e.serverName
      (some e.message))
    (EnableRecording {} start none).1

/-- The `RecordedMessage` that `recordMessage` builds for an event. -/
def SessionEvent.recorded (e : SessionEvent) : RecordedMessage :=
  { Timestamp := e.now, Direction := e.direction, MessageType := e.messageType,
    ToolName := e.toolName, ServerName := e.serverName, Message := some e.message }

/-! ## Concrete inputs -/

/-- A `tools/call` request with id 1. -/
def request1 : JSONRPCRequest := NewCallToolRequest 1 "greet" [("name", .str "World")]

/-- A response line whose id is 99. -/
def answer99 : Json :=
  .obj [("jsonrpc", .str "2.0"), ("id", .int 99), ("result", .obj [("content", .arr [])])]

/-- The child answers request 1 with id 99, and the reader's result is what the `select`
receives. -/
def exchange99 : Exchange := { reader := .doc answer99 }

/-- The child answers request 1 with id 99, and the `select` takes the `ctx.Done()` case. -/
def exchange99Late : Exchange := { reader := .doc answer99, ctxDone := some .deadlineExceeded }

/-- A recorded request: the upstream call of `m_greet`. -/
def greetRequestEvent : SessionEvent :=
  { now := "2024-01-01T00:00:01Z", direction := "request", messageType := "tool_call",
    toolName := "m_greet", serverName := "m",
    message := .obj [("method", .str "tools/call"),
      ("params", .obj [("name", .str "m_greet"), ("arguments", .obj [("name", .str "A")])])] }

/-- A recorded response: the result of that call. -/
def greetResponseEvent : SessionEvent :=
  { now := "2024-01-01T00:00:02Z", direction := "response", messageType := "tool_call",
    toolName := "m_greet", serverName := "m",
    message := .obj [("content", .arr [.obj [("type", .str "text"), ("text", .str "Hello, A!")]])] }

/-- A session of one request and its response. -/
def greetSession : List SessionEvent := [greetRequestEvent, greetResponseEvent]

/-- The answer of a downstream server to `initialize` with the given id. -/
def initAnswer (id : Int) : Json :=
  .obj [("jsonrpc", .str "2.0"), ("id", .int id),
    ("result", .obj [("protocolVersion", .str "2024-11-05"), ("capabilities", .obj []),
      ("serverInfo", .obj [("name", .str "demo"), ("version", .str "1.0.0")])])]

/-- The entry of a tool named `n` with description `d` in an answer to `tools/list`. -/
def toolEntry (n d : String) : Json :=
  .obj [("name", .str n), ("description", .str d),
    ("inputSchema", .obj [("type", .str "object")])]

/-- The answer of a downstream server to `tools/list` with the given id and tools. -/
def toolsAnswer (id : Int) (tools : List Json) : Json :=
  .obj [("jsonrpc", .str "2.0"), ("id", .int id), ("result", .obj [("tools", .arr tools)])]

/-- A downstream server that starts, answers `initialize` (id 1) and lists `tools`
(id 2). -/
def serverWorld (tools : List Json) : ConnectWorld :=
  { init := { reader := .doc (initAnswer 1) }, list := { reader := .doc (toolsAnswer 2 tools) } }

/-- The upstream request `server_add(name, command)` or `server_reconnect(name, command)`. -/
def commandRequest (tool name command : String) : CallToolRequest :=
  { Name := tool, Arguments := [("name", .str name), ("command", .str command)] }

/-- The upstream request `server_remove(name)` or `server_disconnect(name)`. -/
def nameRequest (tool name : String) : CallToolRequest :=
  { Name := tool, Arguments := [("name", .str name)] }

/-- The answer of a downstream server to `tools/call` with the given id: one text item. -/
def textAnswer (id : Int) (text : String) : Json :=
  .obj [("jsonrpc", .str "2.0"), ("id", .int id),
    ("result", .obj [("content", .arr [.obj [("type", .str "text"), ("text", .str text)]])])]

/-- The text that the specification gives the translation of a successful result: the
texts of the text-typed content items joined by newlines. -/
def specJoinTextItems (r : CallToolResult) : String :=
  Join ((r.Content.filter (fun c => c.Typ = "text")).map (fun c => c.Text)) "\n"

/-- A successful downstream result with an image item before a text item. -/
def imageThenText : CallToolResult :=
  { Content := [{ Typ := "image", Text := "" }, { Typ := "text", Text := "a" }] }

/-- The state after a sequence of operations on a fresh wrapper (the fresh wrapper when
one of them panics). -/
def afterOps (ops : List Op) : DynamicWrapper := (run NewDynamicWrapper ops).getD NewDynamicWrapper

/-- The operation `server_add("s", "bin/v1")` against a server that lists `hi` and `bye`. -/
def addS : Op :=
  .add (serverWorld [toolEntry "hi" "says hi", toolEntry "bye" "says bye"])
    (commandRequest "server_add" "s" "bin/v1")

/-- The child's stdout ends while a call waits for its answer. -/
def exchangeEOF : Exchange := { reader := .readErr "EOF" }

/-- The child answers a call with a JSON-RPC error object. -/
def exchangeUnknownTool : Exchange :=
  { reader := .doc (.obj [("jsonrpc", .str "2.0"), ("id", .int 3),
      ("error", .obj [("code", .int (-32601)), ("message", .str "unknown tool")])]) }

/-- The caller's context is cancelled while the call waits for the child's answer. -/
def exchangeCancelled : Exchange :=
  { reader := .doc (textAnswer 3 "v1"), ctxDone := some .canceled }

/-- A call of the tool `s_hi` through its handler. -/
def callHi (x : Exchange) : Op := .call "s" "hi" x { Name := "s_hi" }

/-- The state that a successful `server_add` builds. -/
def addedState (w : DynamicWrapper) (name cmd : String) (args : List String)
    (client : StdioClient) (tools : List ToolInfo) : DynamicWrapper :=
  let reg := tools.foldl (registerOne name w.heap.length) (w.registry, w.baseTools, [])
  { dynamicServers := GoMap.set w.dynamicServers name
      { Name := name, Client := some w.heap.length,
        Config := { Name := name, Prefix := name, Transport := "stdio", Command := cmd,
                    Args := args, Timeout := "30s" },
        Tools := reg.2.2, IsConnected := true },
    registry := reg.1,
    clients := w.clients ++ [w.heap.length],
    baseTools := reg.2.1,
    heap := w.heap ++ [client] }

/-- The state that a successful `server_reconnect` builds. -/
def reconnectedState (w : DynamicWrapper) (name cmd : String) (args : List String)
    (info : DynamicServerInfo) (client : StdioClient) (tools : List ToolInfo)
    (clients1 : List ClientRef) : DynamicWrapper :=
  { w with
    dynamicServers := GoMap.set w.dynamicServers name
      { info with
        Client := some w.heap.length,
        Config := { Name := name, Prefix := name, Transport := "stdio", Command := cmd,
                    Args := args, Timeout := "30s" },
        IsConnected := true, ErrorMessage := "" },
    registry := tools.foldl (reregisterOne name info.Tools w.heap.length) w.registry,
    clients := clients1,
    heap := w.heap ++ [client] }

/-- Whether an operation is a `server_reconnect` of the entry `name` that succeeds in the
state `w`. -/
def isSuccessfulReconnect (name : String) (w : DynamicWrapper) : Op → Bool
  | .reconnect world request =>
    decide (request.RequireString "name" = some name) &&
      (match handleServerReconnect w world request with
       | .ok r => !r.result.IsError
       | .panicked _ => false)
  | _ => false

/-- No operation of the sequence, run from `w`, is a successful `server_reconnect` of the
entry `name`. -/
def noReconnect (name : String) : DynamicWrapper → List Op → Bool
  | _, [] => true
  | w, op :: ops =>
    !isSuccessfulReconnect name w op &&
      (match step w op with
       | .ok r => noReconnect name r.state ops
       | .panicked _ => true)

/-- A downstream server that starts and answers `initialize`, and whose answer to
`tools/list` never comes. -/
def silentListWorld : ConnectWorld :=
  { init := { reader := .doc (initAnswer 1) },
    list := { reader := .readErr "EOF", ctxDone := some .deadlineExceeded } }

/-- The operation `server_remove("s")`. -/
def removeS : Op := .remove {} (nameRequest "server_remove" "s")

/-- The operation `server_disconnect("s")`. -/
def disconnectS : Op := .disconnect {} (nameRequest "server_disconnect" "s")

/-- The entry `name` is in the server map, marked disconnected, without a client, and its
registered-tools list is `tools`. -/
def Disconnected (name : String) (tools : List String) (w : DynamicWrapper) : Prop :=
  ∃ e, GoMap.get w.dynamicServers name = some e ∧ e.IsConnected = false ∧ e.Client = none ∧
    e.Tools = tools

/-- The operation `server_reconnect("s", "bin/v2")` against a command that does not start. -/
def reconnectFails : Op :=
  .reconnect { spawn := { startErr := some "exec: \"bin/v2\": executable file not found" },
               init := { reader := .readErr "EOF" }, list := { reader := .readErr "EOF" } }
    (commandRequest "server_reconnect" "s" "bin/v2")

/-- The operation `server_add("m", "bin/m")` against a server that lists `greet`. -/
def addM : Op :=
  .add (serverWorld [toolEntry "greet" "greets"]) (commandRequest "server_add" "m" "bin/m")

/-- The registry is a map in good order: no prefixed name is bound twice, and every
binding is stored under its own prefixed name, which is its server name, "_" and its
original name, or else the prefix, "_" and the original name of a binding of one of the
configured servers `servers`. -/
def RegOK (servers : List ServerConfig) (r : ToolRegistry) : Prop :=
  (r.tools.map Prod.fst).Nodup ∧
  ∀ k t, (k, t) ∈ r.tools → t.PrefixedName = k ∧
    (k = t.ServerName ++ "_" ++ t.OriginalName ∨
      (k = t.ServerPrefix ++ "_" ++ t.OriginalName ∧
        ∃ sc ∈ servers, sc.Name = t.ServerName ∧ sc.Prefix = t.ServerPrefix))

/-- The invariant of the wrapper's bindings: the registry is in good order, and every
prefixed name in an entry's registered-tools list starts with the entry's name and "_"
and is bound in the registry. -/
def RegistryInv (servers : List ServerConfig) (w : DynamicWrapper) : Prop :=
  RegOK servers w.registry ∧
  ∀ name e, GoMap.get w.dynamicServers name = some e → ∀ p ∈ e.Tools,
    (∃ orig, p = name ++ "_" ++ orig) ∧ (GoMap.get w.registry.tools p).isSome = true

/-- The operation `server_add("a", "bin/a")` against a server that lists the tool `b_c`. -/
def addA : Op :=
  .add (serverWorld [toolEntry "b_c" "first"]) (commandRequest "server_add" "a" "bin/a")

/-- The operation `server_add("a_b", "bin/ab")` against a server that lists the tool `c`. -/
def addAB : Op :=
  .add (serverWorld [toolEntry "c" "second"]) (commandRequest "server_add" "a_b" "bin/ab")

/-- The operation `server_add("d", "bin/d")` against a server that lists the tool `t`
twice. -/
def addD : Op :=
  .add (serverWorld [toolEntry "t" "one", toolEntry "t" "two"])
    (commandRequest "server_add" "d" "bin/d")

/-- The binding that `handleServerReconnect` registers for a tool of the new server. -/
def reconnectTool (name : String) (tool : ToolInfo) : RemoteTool :=
  { OriginalName := tool.Name, PrefixedName := name ++ "_" ++ tool.Name,
    Description := tool.Description, InputSchema := tool.InputSchema, ServerName := name }

/-- The last tool listed by the new server whose prefixed name is `p`. -/
def lastListed (name : String) (tools : List ToolInfo) (p : String) : Option ToolInfo :=
  tools.reverse.find? (fun t => decide (name ++ "_" ++ t.Name = p))

/-- The operation `server_reconnect("s", "bin/v2")` against a server that lists only `hi`,
with a new description and schema. -/
def reconnectHi : Op :=
  .reconnect
    (serverWorld [.obj [("name", .str "hi"), ("description", .str "says hi, v2"),
      ("inputSchema", .obj [("type", .str "object"), ("required", .arr [.str "who"])])]])
    (commandRequest "server_reconnect" "s" "bin/v2")

/-! ## Sequences of client operations and of generated ids -/

/-- The counter of a fresh `RequestIDGenerator` after `n` calls of `NextID`, which is also
the id that the `n`-th call returns. -/
def idAfter : Nat → Int
  | 0 => 0
  | n + 1 => NextID (idAfter n)

/-- The kinds of request that a client builds. -/
inductive RequestKind where
  | Initialize (clientName clientVersion : String)
  | listTools
  | callTool (toolName : String) (args : List (String × Json))
  deriving DecidableEq

/-- The request that a client whose generator has the counter `counter` builds next. -/
def buildRequest (counter : Int) : RequestKind → JSONRPCRequest
  | .Initialize clientName clientVersion =>
    NewInitializeRequest (NextID counter) clientName clientVersion
  | .listTools => NewListToolsRequest (NextID counter)
  | .callTool toolName args => NewCallToolRequest (NextID counter) toolName args

/-- The requests that one client builds, in order, starting from the counter `counter`. -/
def buildRequests : Int → List RequestKind → List JSONRPCRequest
  | _, [] => []
  | counter, k :: ks => buildRequest counter k :: buildRequests (NextID counter) ks

/-- One operation on a `StdioClient`, with its environment. -/
inductive ClientOp where
  | connect (w : SpawnWorld)
  | Initialize (x : Exchange)
  | listTools (x : Exchange)
  | callTool (x : Exchange) (name : String) (args : List (String × Json))
  | close (w : CloseWorld)
  deriving DecidableEq

/-- The client after an operation, and the error that the operation returns, if any. -/
def StdioClient.apply (c : StdioClient) : ClientOp → StdioClient × Option String
  | .connect w => c.Connect w
  | .Initialize x =>
    match c.Initialize x with
    | (c1, .error e) => (c1, some e)
    | (c1, .ok _) => (c1, none)
  | .listTools x =>
    match c.ListTools x with
    | (c1, .error e) => (c1, some e)
    | (c1, .ok _) => (c1, none)
  | .callTool x name args =>
    match c.CallTool x name args with
    | (c1, .error e) => (c1, some e)
    | (c1, .ok _) => (c1, none)
  | .close w => c.Close w

/-- Whether an operation is a `Connect`. -/
def ClientOp.isConnect : ClientOp → Bool
  | .connect _ => true
  | _ => false

/-- Whether an operation is a `Close`. -/
def ClientOp.isClose : ClientOp → Bool
  | .close _ => true
  | _ => false

/-- The client after a sequence of operations. -/
def StdioClient.applyAll : StdioClient → List ClientOp → StdioClient
  | c, [] => c
  | c, op :: ops => StdioClient.applyAll (c.apply op).1 ops

/-- The `json.Unmarshal(response.Result, &result)` of `CallTool`. -/
def unmarshalCallToolResult (j : Json) : Except String CallToolResult :=
  decodeStruct stepCallToolResult "client.CallToolResult" {} j

/-- A content item as a downstream server writes it. -/
def contentItemJson (c : ContentItem) : Json :=
  .obj [("type", .str c.Typ), ("text", .str c.Text)]

/-- A `tools/call` result as a downstream server writes it. -/
def callToolResultJson (r : CallToolResult) : Json :=
  .obj [("content", .arr (r.Content.map contentItemJson)), ("isError", .bool r.IsError)]

/-- A client that was connected and then closed. -/
def closedClient : StdioClient :=
  (((NewStdioClient "s" "bin/v1" []).Connect {}).1.Close {}).1

/-- A `tools/call` answer with id 1 whose result has `isError` set. -/
def errorResultAnswer : Json :=
  .obj [("jsonrpc", .str "2.0"), ("id", .int 1),
    ("result", callToolResultJson
      { Content := [{ Typ := "text", Text := "division by zero" }], IsError := true })]

/-! ## Configuration: validation and environment expansion -/

/-- Go `config.ProxySettings`. -/
structure ProxySettings where
  HealthCheckInterval : String := ""
  ConnectionTimeout : String := ""
  MaxRetries : Int := 0
  deriving DecidableEq

/-- Go `config.ProxyConfig`. -/
structure ProxyConfig where
  Servers : List ServerConfig := []
  Proxy : ProxySettings := {}
  deriving DecidableEq

/-- The checks that the loop of `Validate` makes on the server with index `i`, in order,
the maps `names` and `prefixes` holding the keys that the earlier servers set to true.
`durationErr` is `time.ParseDuration`: the text of the error it returns on a string, if
any. -/
def validateServers (durationErr : String → Option String) :
    Nat → List String → List String → List ServerConfig → Option String
  | _, _, _, [] => none
  | i, names, prefixes, server :: rest =>
    if server.Name = "" then
      some ("server " ++ fmtNat i ++ ": name is required")
    else if names.contains server.Name then
      some ("duplicate server name: " ++ server.Name)
    else if server.Prefix = "" then
      some ("server " ++ server.Name ++ ": prefix is required")
    else if prefixes.contains server.Prefix then
      some ("duplicate server prefix: " ++ server.Prefix)
    else if server.Transport ≠ "stdio" ∧ server.Transport ≠ "http" then
      some ("server " ++ server.Name ++ ": transport must be 'stdio' or 'http'")
    else if server.Transport = "stdio" ∧ server.Command = "" then
      some ("server " ++ server.Name ++ ": command is required for stdio transport")
    else if server.Transport ≠ "stdio" ∧ server.Transport = "http" ∧ server.URL = "" then
      some ("server " ++ server.Name ++ ": url is required for http transport")
    else
      match (if server.Timeout ≠ "" then durationErr server.Timeout else none) with
      | some e => some ("server " ++ server.Name ++ ": invalid timeout format: " ++ e)
      | none =>
        validateServers durationErr (i + 1) (server.Name :: names) (server.Prefix :: prefixes)
          rest

/-- The checks of `Validate` on the proxy settings. -/
def validateProxy (durationErr : String → Option String) (p : ProxySettings) : Option String :=
  match (if p.HealthCheckInterval ≠ "" then durationErr p.HealthCheckInterval else none) with
  | some e => some ("invalid healthCheckInterval format: " ++ e)
  | none =>
    match (if p.ConnectionTimeout ≠ "" then durationErr p.ConnectionTimeout else none) with
    | some e => some ("invalid connectionTimeout format: " ++ e)
    | none => none

/-- Go `(*ProxyConfig).Validate`: the text of the error, `none` for nil. -/
def ProxyConfig.Validate (durationErr : String → Option String) (c : ProxyConfig) :
    Option String :=
  if c.Servers.length = 0 then none
  else
    match validateServers durationErr 0 [] [] c.Servers with
    | some e => some e
    | none => validateProxy durationErr c.Proxy

/-- Go `os.isShellSpecialVar`. -/
def isShellSpecialVar (c : Char) : Bool :=
  c == '*' || c == '#' || c == '$' || c == '@' || c == '!' || c == '?' || c == '-' ||
    ('0' ≤ c && c ≤ '9')

/-- Go `os.isAlphaNum`. -/
def isAlphaNum (c : Char) : Bool :=
  c == '_' || ('0' ≤ c && c ≤ '9') || ('a' ≤ c && c ≤ 'z') || ('A' ≤ c && c ≤ 'Z')

/-- The scan of `os.getShellName` for the closing brace: the characters before the first
`\x7d` of `s`, if there is one. -/
def scanBrace : List Char → Option (List Char)
  | [] => none
  | c :: s => if c = '\x7d' then some [] else (scanBrace s).map (fun n => c :: n)

/-- Go `os.getShellName` on the text after a `$`: the name and the number of characters
consumed. The characters are those of a valid UTF-8 string; the bytes that the Go code
tests are all ASCII. -/
def getShellName : List Char → List Char × Nat
  | [] => ([], 0)
  | c :: s =>
    if c = '\x7b' then
      match s with
      | c1 :: c2 :: _ =>
        if isShellSpecialVar c1 ∧ c2 = '\x7d' then ([c1], 3)
        else
          match scanBrace s with
          | some [] => ([], 2)
          | some name => (name, name.length + 2)
          | none => ([], 1)
      | _ =>
        match scanBrace s with
        | some [] => ([], 2)
        | some name => (name, name.length + 2)
        | none => ([], 1)
    else if isShellSpecialVar c then ([c], 1)
    else ((c :: s).takeWhile isAlphaNum, ((c :: s).takeWhile isAlphaNum).length)

/-- The loop of Go `os.Expand`: the output for the rest of the string, `skip` being the
number of characters that a reference just read still covers. -/
def expandAux (mapping : String → String) : Nat → List Char → List Char
  | _, [] => []
  | skip + 1, _ :: rest => expandAux mapping skip rest
  | 0, c :: rest =>
    if c = '$' ∧ rest ≠ [] then
      (if (getShellName rest).1 = [] ∧ 0 < (getShellName rest).2 then []
        else if (getShellName rest).1 = [] then [c]
        else (mapping (String.mk (getShellName rest).1)).data) ++
        expandAux mapping (getShellName rest).2 rest
    else c :: expandAux mapping 0 rest

/-- Go `os.Getenv` in the environment `env`: the empty string for a variable that is not
set. -/
def Getenv (env : List (String × String)) (key : String) : String :=
  (GoMap.get env key).getD ""

/-- Go `os.ExpandEnv` in the environment `env`. -/
def ExpandEnv (env : List (String × String)) (s : String) : String :=
  String.mk (expandAux (Getenv env) 0 s.data)

/-- Go `config.expandEnvVar`. -/
def expandEnvVar (env : List (String × String)) (value : String) : String :=
  if value = "" then value
  else if Contains value "$\x7b" then ExpandEnv env value
  else value

/-- The statements of `ExpandEnvVars` on one server. -/
def expandServer (env : List (String × String)) (server : ServerConfig) : ServerConfig :=
  { server with
    Command := expandEnvVar env server.Command
    Args := server.Args.map (expandEnvVar env)
    Env := server.Env.map (fun kv => (kv.1, expandEnvVar env kv.2))
    URL := expandEnvVar env server.URL
    Auth := server.Auth.map (fun a =>
      { a with
        Token := expandEnvVar env a.Token
        Username := expandEnvVar env a.Username
        Password := expandEnvVar env a.Password }) }

/-- Go `(*ProxyConfig).ExpandEnvVars`. -/
def ProxyConfig.ExpandEnvVars (env : List (String × String)) (c : ProxyConfig) : ProxyConfig :=
  { c with Servers := c.Servers.map (expandServer env) }

/-- Go `config.LoadConfigFromString`. `parsed` is the outcome of `yaml.Unmarshal` on the
text: the configuration that it fills, or the text of its error. -/
def LoadConfigFromString (env : List (String × String)) (durationErr : String → Option String)
    (parsed : Except String ProxyConfig) : Except String ProxyConfig :=
  match parsed with
  | .error e => .error ("failed to parse YAML config: " ++ e)
  | .ok config =>
    match (config.ExpandEnvVars env).Validate durationErr with
    | some e => .error ("invalid configuration: " ++ e)
    | none => .ok (config.ExpandEnvVars env)

/-- Go `config.LoadConfig`. `file` is the outcome of `os.ReadFile`: the text of its error,
or the outcome of `yaml.Unmarshal` on the data read. -/
def LoadConfig (env : List (String × String)) (durationErr : String → Option String)
    (file : Except String (Except String ProxyConfig)) : Except String ProxyConfig :=
  match file with
  | .error e => .error ("failed to read config file: " ++ e)
  | .ok parsed => LoadConfigFromString env durationErr parsed

/-- A `time.ParseDuration` that accepts "30s" and "10s" only. -/
def sampleDurationErr (s : String) : Option String :=
  if s = "30s" ∨ s = "10s" then none else some ("time: invalid duration " ++ s)

/-- An environment in which `TOOL` is `xyz` and `N` is `a`. -/
def toolEnv : List (String × String) := [("TOOL", "xyz"), ("N", "a")]

/-- A configuration with one stdio server whose command is `command`. -/
def configWithCommand (command : String) : ProxyConfig :=
  { Servers := [{ Name := "math", Prefix := "m", Transport := "stdio", Command := command }] }

/-- A configuration in which every string field of the server holds a reference. -/
def referenceConfig : ProxyConfig :=
  { Servers := [
      { Name := "$\x7bN\x7d"
        Prefix := "$\x7bN\x7d"
        Transport := "stdio"
        Command := "$\x7bTOOL\x7d"
        Args := ["$\x7bN\x7d"]
        Env := [("K", "$\x7bN\x7d")]
        URL := "$\x7bN\x7d"
        Auth := some
          { Typ := "$\x7bN\x7d"
            Token := "$\x7bN\x7d"
            Username := "$\x7bN\x7d"
            Password := "$\x7bN\x7d" }
        Timeout := "$\x7bN\x7d" }] }

/-- The configuration `referenceConfig` after `ExpandEnvVars` in `toolEnv`. -/
def referenceExpanded : ProxyConfig :=
  { Servers := [
      { Name := "$\x7bN\x7d"
        Prefix := "$\x7bN\x7d"
        Transport := "stdio"
        Command := "xyz"
        Args := ["a"]
        Env := [("K", "a")]
        URL := "a"
        Auth := some
          { Typ := "$\x7bN\x7d"
            Token := "a"
            Username := "a"
            Password := "a" }
        Timeout := "$\x7bN\x7d" }] }

/-- Two servers with different names and prefixes. -/
def twoServers : ProxyConfig :=
  { Servers := [
      { Name := "math", Prefix := "m", Transport := "stdio", Command := "bin/math" },
      { Name := "web", Prefix := "w", Transport := "http", URL := "http://localhost:1"
        Timeout := "30s" }]
    Proxy := { HealthCheckInterval := "30s" } }

/-! ## Prefixed tool names: static discovery and `DynamicProxyServer` -/

/-- Go `discovery.ToolInfo`. -/
structure DiscoveryToolInfo where
  Name : String := ""
  Description : String := ""
  InputSchema : Option Json := none
  deriving DecidableEq

/-- Go `discovery.CreatePrefixedTool`. -/
def CreatePrefixedTool (serverName serverPrefix : String) (originalTool : DiscoveryToolInfo) :
    RemoteTool :=
  let prefixedName := serverPrefix ++ "_" ++ originalTool.Name
  { OriginalName := originalTool.Name, PrefixedName := prefixedName,
    Description := originalTool.Description, InputSchema := originalTool.InputSchema,
    ServerName := serverName, ServerPrefix := serverPrefix }

/-- The loop "Convert to prefixed tools" of `(*Discoverer).discoverServer`, on the tools
that `ListTools` returned. -/
def convertToPrefixed (serverConfig : ServerConfig) (toolInfos : List ToolInfo) :
    List RemoteTool :=
  toolInfos.map (fun toolInfo =>
    CreatePrefixedTool serverConfig.Name serverConfig.Prefix
      { Name := toolInfo.Name, Description := toolInfo.Description,
        InputSchema := toolInfo.InputSchema })

/-- Go `integration.DiscoveredTool`. -/
structure DiscoveredTool where
  OriginalName : String := ""
  PrefixedName : String := ""
  Description : String := ""
  ServerName : String := ""
  deriving DecidableEq

/-- What `registerTool` stores in the upstream server under a prefixed name: the
description, and the handler, which calls the tool `Target` on the client `Client`. -/
structure ProxyToolEntry where
  Description : String
  Target : String
  Client : ClientRef
  deriving DecidableEq

/-- The state of a `DynamicProxyServer`: the tool table of the upstream server and the
three maps. -/
structure DynamicProxyServer where
  mcpTools : List (String × ProxyToolEntry) := []
  clients : List (String × ClientRef) := []
  serverConfigs : List (String × ServerConfig) := []
  toolRegistry : List (String × List String) := []
  deriving DecidableEq

/-- Go `(*DynamicProxyServer).registerTool`. `registerErr` is the error, if any, that the
`RegisterTool` of the upstream server returns for a tool name. -/
def DynamicProxyServer.registerTool (p : DynamicProxyServer)
    (registerErr : String → Option String) (tool : DiscoveredTool) (mcpClient : ClientRef) :
    DynamicProxyServer × Option String :=
  let description := "[" ++ tool.ServerName ++ "] " ++ tool.Description
  match registerErr tool.PrefixedName with
  | some e => (p, some e)
  | none =>
    ({ p with
       mcpTools := GoMap.set p.mcpTools tool.PrefixedName
         { Description := description, Target := tool.OriginalName, Client := mcpClient } },
     none)

/-- The loop "Convert tools to discovery format" of `ConnectToServer`. -/
def convertDiscovered (serverConfig : ServerConfig) (tools : List ToolInfo) :
    List DiscoveredTool :=
  tools.map (fun tool =>
    { OriginalName := tool.Name, PrefixedName := serverConfig.Prefix ++ "_" ++ tool.Name,
      Description := tool.Description, ServerName := serverConfig.Name })

/-- The body of the loop "Register all discovered tools dynamically" of `ConnectToServer`:
a tool whose registration fails is skipped. -/
def registerDiscovered (registerErr : String → Option String) (mcpClient : ClientRef)
    (acc : DynamicProxyServer × List String) (tool : DiscoveredTool) :
    DynamicProxyServer × List String :=
  match acc.1.registerTool registerErr tool mcpClient with
  | (_, some _) => acc
  | (p1, none) => (p1, acc.2 ++ [tool.PrefixedName])

/-- Go `(*DynamicProxyServer).ConnectToServer`. `connected` is the outcome of
`createAndConnectClient` and `listed` that of the new client's `ListTools`. -/
def DynamicProxyServer.ConnectToServer (p : DynamicProxyServer) (serverConfig : ServerConfig)
    (connected : Except String ClientRef) (listed : Except String (List ToolInfo))
    (registerErr : String → Option String) : DynamicProxyServer × Option String :=
  let serverName := serverConfig.Name
  if (GoMap.get p.clients serverName).isSome then
    (p, some ("server " ++ serverName ++ " already connected"))
  else
    match connected with
    | .error e => (p, some ("failed to connect to server " ++ serverName ++ ": " ++ e))
    | .ok mcpClient =>
      match listed with
      | .error e => (p, some ("failed to list tools from " ++ serverName ++ ": " ++ e))
      | .ok tools =>
        let discoveredTools := convertDiscovered serverConfig tools
        let p1 : DynamicProxyServer :=
          { p with
            clients := GoMap.set p.clients serverName mcpClient
            serverConfigs := GoMap.set p.serverConfigs serverName serverConfig }
        let reg := discoveredTools.foldl (registerDiscovered registerErr mcpClient) (p1, [])
        ({ reg.1 with toolRegistry := GoMap.set reg.1.toolRegistry serverName reg.2 }, none)

/-- A server configuration with name "math" and prefix "m". -/
def mathServer : ServerConfig :=
  { Name := "math", Prefix := "m", Transport := "stdio", Command := "bin/math" }

/-- The tools `add` and `sub`. -/
def mathTools : List ToolInfo :=
  [{ Name := "add", Description := "adds" }, { Name := "sub", Description := "subtracts" }]

/-! ## The request envelope on the wire -/

/-- The nearest multiple of `2 ^ e` to `n`; of two nearest ones, the even multiple. -/
def roundToMultiple (n e : Nat) : Nat :=
  let q := n / 2 ^ e
  let r := n % 2 ^ e
  if 2 * r < 2 ^ e then q * 2 ^ e
  else if 2 ^ e < 2 * r then (q + 1) * 2 ^ e
  else if q % 2 = 0 then q * 2 ^ e
  else (q + 1) * 2 ^ e

/-- The least `e`, counted from the given one, with `n < 2 ^ (53 + e)`: the exponent of
the last bit that a `float64` keeps of `n`. -/
def float64Exp : Nat → Nat → Nat → Nat
  | 0, e, _ => e
  | fuel + 1, e, n => if n < 2 ^ (53 + e) then e else float64Exp fuel (e + 1) n

/-- The `float64` nearest to a natural number below `2 ^ 1024`, as `strconv.ParseFloat`
rounds its decimal text: to 53 significant bits, ties to even. -/
def float64OfNat (n : Nat) : Nat := roundToMultiple n (float64Exp 1024 0 n)

/-- The `float64` nearest to an integer. -/
def float64OfInt (n : Int) : Int :=
  if n < 0 then -((float64OfNat n.natAbs : Nat) : Int) else ((float64OfNat n.natAbs : Nat) : Int)

/-- Whether an integer is out of the range of `float64`: whether the nearest number with
53 significant bits is `2 ^ 1024` or more, that is, has its last bit at exponent 972 or
more. -/
def float64Overflows (n : Int) : Bool :=
  decide (972 ≤ float64Exp 1024 0 (float64OfNat n.natAbs))

/-- The message of `encoding/json` for a number that `strconv.ParseFloat` rejects. -/
def numberError (text : String) : String :=
  "json: cannot unmarshal number " ++ text ++ " into Go value of type float64"

mutual
/-- Decoding into a Go `interface{}`, the value stored being given by its JSON form: a
number becomes a `float64`, an object a `map[string]interface{}`, in which a later member
replaces an earlier one with the same key. `floatText` gives, for a number literal that is
not an integer, the JSON form of the `float64` that it parses to, if it is in range. -/
def decodeInterface (floatText : String → Option Json) : Json → Except String Json
  | .null => .ok .null
  | .bool b => .ok (.bool b)
  | .int n =>
    if float64Overflows n then .error (numberError (fmtInt n)) else .ok (.int (float64OfInt n))
  | .frac t =>
    match floatText t with
    | some v => .ok v
    | none => .error (numberError t)
  | .str s => .ok (.str s)
  | .arr xs =>
    match decodeInterfaceList floatText xs with
    | .ok ys => .ok (.arr ys)
    | .error e => .error e
  | .obj kvs =>
    match decodeInterfaceFields floatText kvs with
    | .ok m => .ok (.obj (m.foldl (fun acc kv => GoMap.set acc kv.1 kv.2) []))
    | .error e => .error e
/-- Decoding of the elements of an array into `interface{}` values. -/
def decodeInterfaceList (floatText : String → Option Json) :
    List Json → Except String (List Json)
  | [] => .ok []
  | x :: xs =>
    match decodeInterface floatText x with
    | .error e => .error e
    | .ok y =>
      match decodeInterfaceList floatText xs with
      | .error e => .error e
      | .ok ys => .ok (y :: ys)
/-- Decoding of the members of an object into `interface{}` values. -/
def decodeInterfaceFields (floatText : String → Option Json) :
    List (String × Json) → Except String (List (String × Json))
  | [] => .ok []
  | (k, x) :: kvs =>
    match decodeInterface floatText x with
    | .error e => .error e
    | .ok y =>
      match decodeInterfaceFields floatText kvs with
      | .error e => .error e
      | .ok m => .ok ((k, y) :: m)
end

/-- The JSON form that `json.Marshal` writes for the params of a request; `none` for the
nil params, which `omitempty` leaves out. -/
def marshalParams : Params → Option Json
  | .absent => none
  | .InitializeParams protocolVersion capabilities clientName clientVersion =>
    some (.obj [("protocolVersion", .str protocolVersion),
      ("capabilities", .obj capabilities),
      ("clientInfo", .obj [("name", .str clientName), ("version", .str clientVersion)])])
  | .CallToolParams name arguments =>
    some (.obj [("name", .str name), ("arguments", .obj arguments)])

/-- The document that `json.Marshal(request)` writes in `sendRequest`. -/
def marshalRequest (request : JSONRPCRequest) : Json :=
  .obj ([("jsonrpc", .str request.JSONRPC), ("method", .str request.Method)] ++
    (match marshalParams request.Params with
      | some p => [("params", p)]
      | none => []) ++
    [("id", .int request.ID)])

/-- A `JSONRPCRequest` as `json.Unmarshal` fills it: `Params` holds nil (`none`) or the
value decoded into the `interface{}`, given by its JSON form. -/
structure DecodedRequest where
  JSONRPC : String := ""
  Method : String := ""
  Params : Option Json := none
  ID : Int := 0
  deriving DecidableEq

/-- One member of a JSON object decoded into a `JSONRPCRequest`. -/
def stepJSONRPCRequest (floatText : String → Option Json) (cur : DecodedRequest)
    (kv : String × Json) : Except String DecodedRequest :=
  if keyIs "jsonrpc" kv.1 then
    (decodeString cur.JSONRPC kv.2).map (fun s => { cur with JSONRPC := s })
  else if keyIs "method" kv.1 then
    (decodeString cur.Method kv.2).map (fun s => { cur with Method := s })
  else if keyIs "params" kv.1 then
    match kv.2 with
    | .null => .ok { cur with Params := none }
    | v => (decodeInterface floatText v).map (fun d => { cur with Params := some d })
  else if keyIs "id" kv.1 then
    (decodeInt64 cur.ID kv.2).map (fun n => { cur with ID := n })
  else .ok cur

/-- The `json.Unmarshal(line, &request)` into a `JSONRPCRequest`. -/
def unmarshalRequest (floatText : String → Option Json) (j : Json) :
    Except String DecodedRequest :=
  decodeStruct (stepJSONRPCRequest floatText) "client.JSONRPCRequest" {} j

mutual
/-- Whether a JSON form comes back as it is from decoding into an `interface{}`: every
integer in it is at most `2 ^ 53` in absolute value, every other number is written as
`json.Marshal` writes the `float64` that it parses to, and no object has two members with
the same key. -/
def Json.exact (floatText : String → Option Json) : Json → Bool
  | .null => true
  | .bool _ => true
  | .int n => decide (n.natAbs ≤ 2 ^ 53)
  | .frac t => decide (floatText t = some (.frac t))
  | .str _ => true
  | .arr xs => Json.exactList floatText xs
  | .obj kvs => Json.exactFields floatText kvs && decide ((kvs.map Prod.fst).Nodup)
/-- Whether every element of an array is exact. -/
def Json.exactList (floatText : String → Option Json) : List Json → Bool
  | [] => true
  | x :: xs => Json.exact floatText x && Json.exactList floatText xs
/-- Whether the value of every member of an object is exact. -/
def Json.exactFields (floatText : String → Option Json) : List (String × Json) → Bool
  | [] => true
  | (_, x) :: kvs => Json.exact floatText x && Json.exactFields floatText kvs
end

/-- A `strconv.ParseFloat` for the literal "0.5" only. -/
def sampleFloatText (t : String) : Option Json := if t = "0.5" then some (.frac "0.5") else none

/-- A `tools/call` request whose argument `n` is the `int64` value `2 ^ 53 + 1`. -/
def bigIntRequest : JSONRPCRequest :=
  NewCallToolRequest 1 "count" [("n", .int 9007199254740993)]

/-- A recording file without session header: a comment, a blank line, the line of a
recorded request, a line that is not JSON, and the line of the recorded response. -/
def headerlessFile : List Line :=
  [.text "# notes", .text "",
   .doc (marshalRecordedMessage greetRequestEvent.recorded),
   .text "not json",
   .doc (marshalRecordedMessage greetResponseEvent.recorded)]

/-- A recording file whose session header is one line, followed by the two messages. -/
def oneLineHeaderFile : List Line :=
  [.text "# MCP Recording Session",
   .doc (.obj [("start_time", .str "2024-01-01T00:00:00Z"),
     ("server_info", .str "Dynamic MCP Proxy v1.0.0"), ("messages", .arr [])]),
   .doc (marshalRecordedMessage greetRequestEvent.recorded),
   .doc (marshalRecordedMessage greetResponseEvent.recorded)]

/-! ## playback/parser.go (pairs), playback/server.go and playback/client.go

A `json.RawMessage` is represented as in `RecordedMessage.Message`: by the document it
holds, `none` for the empty one. A line printed with `fmt.Println(string(raw))` is
represented by the raw message. -/

/-- Go `playback.MessagePair`. -/
structure MessagePair where
  Request : RecordedMessage
  Response : RecordedMessage
  deriving DecidableEq

/-- The loop of `GetMessagePairs` over the rest of the messages; `currentRequest` is the
pointer of that name (`none` is nil). The pointer is taken to the variable of the current
iteration, which the later iterations do not write (loop variables are per iteration since
Go 1.22, and the upstream library in use requires a later version). -/
def pairsLoop : Option RecordedMessage → List RecordedMessage → List MessagePair
  | _, [] => []
  | currentRequest, message :: rest =>
    if message.Direction = "request" then pairsLoop (some message) rest
    else if message.Direction = "response" then
      match currentRequest with
      | some request => { Request := request, Response := message } :: pairsLoop none rest
      | none => pairsLoop none rest
    else pairsLoop currentRequest rest

/-- Go `(*PlaybackSession).GetMessagePairs`. -/
def PlaybackSession.GetMessagePairs (s : PlaybackSession) : List MessagePair :=
  pairsLoop none s.Messages

/-- Go `playback.PlaybackServer`; `delay` is in milliseconds. -/
structure PlaybackServer where
  session : PlaybackSession
  responses : List (Option Json)
  delay : Nat
  deriving DecidableEq

/-- Go `playback.NewPlaybackServer`. -/
def NewPlaybackServer (session : PlaybackSession) : PlaybackServer :=
  { session := session,
    responses := session.GetServerMessages.map (fun msg => msg.Message),
    delay := 50 }

/-- The document that `json.Marshal` writes for the `errorResponse` map of
`(*PlaybackServer).Run`; the keys of a map are written in sorted order. -/
def errorResponse : Json :=
  .obj [("error", .obj [("code", .int (-32000)),
      ("message", .str "No more recorded responses available")]),
    ("id", .null), ("jsonrpc", .str "2.0")]

/-- The scan loop of `(*PlaybackServer).Run`: the lines printed to standard output for
the lines still to be read from standard input, `responseIndex` being the variable of
that name. -/
def serverLoop (responses : List (Option Json)) : Nat → List String → List (Option Json)
  | _, [] => []
  | responseIndex, _ :: stdin =>
    if h : responseIndex < responses.length then
      responses[responseIndex] :: serverLoop responses (responseIndex + 1) stdin
    else some errorResponse :: serverLoop responses responseIndex stdin

/-- Go `(*PlaybackServer).Run`: the lines printed and the error returned. `stdin` holds the
lines that the scanner reads, `scanErr` is `scanner.Err()` after the last of them. -/
def PlaybackServer.Run (s : PlaybackServer) (stdin : List String) (scanErr : Option String) :
    List (Option Json) × Option String :=
  (serverLoop s.responses 0 stdin,
   scanErr.map (fun e => "error reading client requests: " ++ e))

/-- Go `playback.PlaybackClient`; `delay` is in milliseconds. -/
structure PlaybackClient where
  session : PlaybackSession
  messages : List (Option Json)
  delay : Nat
  deriving DecidableEq

/-- Go `playback.NewPlaybackClient`. -/
def NewPlaybackClient (session : PlaybackSession) : PlaybackClient :=
  { session := session,
    messages := session.GetClientMessages.map (fun msg => msg.Message),
    delay := 100 }

/-- What a run of `(*PlaybackClient).Run` did: the lines printed, the number of lines read
from standard input, and whether the loop was left by `break`. -/
structure ClientRun where
  printed : List (Option Json) := []
  linesRead : Nat := 0
  broke : Bool := false
  deriving DecidableEq

/-- The scan loop of `(*PlaybackClient).Run` for the lines still to be read from standard
input, `messageIndex` being the variable of that name. -/
def clientLoop (messages : List (Option Json)) : Nat → List String → ClientRun
  | _, [] => {}
  | messageIndex, _ :: stdin =>
    if h : messageIndex < messages.length then
      let rest := clientLoop messages (messageIndex + 1) stdin
      { rest with printed := messages[messageIndex] :: rest.printed,
                  linesRead := rest.linesRead + 1 }
    else { printed := [], linesRead := 1, broke := true }

/-- Go `(*PlaybackClient).Run`: what the loop did and the error returned. `scanErr` is
`scanner.Err()` when the scanner has stopped; after a `break` no read has failed. -/
def PlaybackClient.Run (c : PlaybackClient) (stdin : List String) (scanErr : Option String) :
    ClientRun × Option String :=
  let run := clientLoop c.messages 0 stdin
  (run, if run.broke then none else scanErr.map (fun e => "error reading server responses: " ++ e))

/-- A recorded message with the given direction and document. -/
def recordedAt (direction : String) (n : Int) : RecordedMessage :=
  { Direction := direction, MessageType := "tool_call", Message := some (.int n) }

/-- A session of two requests, a response, a notification, a response and a request. -/
def mixedSession : PlaybackSession :=
  { Messages := [recordedAt "request" 1, recordedAt "request" 2, recordedAt "response" 3,
      recordedAt "notification" 4, recordedAt "response" 5, recordedAt "request" 6,
      recordedAt "log" 7, recordedAt "response" 8] }

/-! ## The static handler, `server_list`, and the log of a handler's records -/

/-- The handler returned by Go `proxy.CreateProxyHandler(mcpClient, remoteTool)`, run on
one request: the client afterwards and the result. `extractArguments` returns no error. -/
def CreateProxyHandler (mcpClient : StdioClient) (remoteTool : RemoteTool) (world : Exchange)
    (request : CallToolRequest) : StdioClient × ToolResult :=
  let args := request.Arguments
  match mcpClient.CallTool world remoteTool.OriginalName args with
  | (client1, .error err) =>
    let errorMsg := "[" ++ remoteTool.ServerName ++ "] " ++ err
    (client1, NewToolResultError errorMsg)
  | (client1, .ok result) => (client1, transformResult result)

/-- The lines that `handleServerList` writes for the tools of one dynamic server. -/
def listedTools (tools : List String) : String :=
  if 0 < tools.length ∧ tools.length ≤ 5 then
    String.join (tools.map (fun tool => "  • " ++ tool ++ "\n"))
  else if 5 < tools.length then
    String.join ((tools.take 3).map (fun tool => "  • " ++ tool ++ "\n")) ++
      ("  • ... and " ++ fmtNat (tools.length - 3) ++ " more\n")
  else ""

/-- The lines that `handleServerList` writes for one dynamic server. -/
def listedServer (name : String) (info : DynamicServerInfo) : String :=
  let status :=
    if !info.IsConnected then
      if info.ErrorMessage ≠ "" then "disconnected (" ++ info.ErrorMessage ++ ")"
      else "disconnected"
    else "connected"
  "- " ++ name ++ " [" ++ status ++ "] - " ++ fmtNat info.Tools.length ++ " tools\n" ++
    listedTools info.Tools

/-- Go `(*DynamicWrapper).handleServerList`; `config` is the configuration of the proxy
server. The servers of the map are visited in the order of the list that holds them (Go
leaves the order open). The handler does not call `recordMessage`. -/
def handleServerList (w : DynamicWrapper) (config : ProxyConfig) (_request : CallToolRequest) :
    Outcome :=
  let staticCount := config.Servers.length
  let header := "Connected MCP Servers:\n" ++ "=====================\n\n"
  let static :=
    if 0 < staticCount then
      "Static servers (from config):\n" ++
        String.join (config.Servers.map (fun server => "- " ++ server.Name ++ " [static]\n")) ++
        "\n"
    else ""
  let dynamic :=
    if w.dynamicServers.length = 0 ∧ staticCount = 0 then "No servers connected.\n"
    else if 0 < w.dynamicServers.length then
      "Dynamic servers:\n" ++
        String.join (w.dynamicServers.map (fun e => listedServer e.1 e.2))
    else ""
  let totalServers := staticCount + w.dynamicServers.length
  let total := "\nTotal servers: " ++ fmtNat totalServers ++ " (static: " ++
    fmtNat staticCount ++ ", dynamic: " ++ fmtNat w.dynamicServers.length ++ ")\n"
  .ok ⟨w, NewToolResultText (header ++ static ++ dynamic ++ total), []⟩

/-- The log after the calls of `recordMessage` that a handler made, in order. `marshal` is
`json.Marshal` on the message passed (`none` when it fails), `clock` gives `time.Now()` at
a call from the number of lines written before it. -/
def writeRecords (marshal : RecPayload → Option Json) (clock : Nat → String) (r : Recorder)
    (calls : List RecordCall) : Recorder :=
  calls.foldl
    (fun r c => recordMessage r (clock r.recordFile.length) c.direction c.messageType
      c.toolName c.serverName (marshal c.message))
    r

/-- A downstream answer to the call with id 3: a result with `isError` set and the text
"bad input". -/
def exchangeToolError : Exchange :=
  { reader := .doc (.obj [("jsonrpc", .str "2.0"), ("id", .int 3),
      ("result", callToolResultJson
        { Content := [{ Typ := "text", Text := "bad input" }], IsError := true })]) }

/-- A downstream answer to the call with id 3: a JSON-RPC error object whose message
holds the word "Connection". -/
def exchangeQuotaError : Exchange :=
  { reader := .doc (.obj [("jsonrpc", .str "2.0"), ("id", .int 3),
      ("error", .obj [("code", .int (-32000)),
        ("message", .str "Connection pool quota reached")])]) }

/-- The request of a `server_list` call. -/
def listRequest : CallToolRequest := { Name := "server_list" }

/-! ## Entries marked disconnected -/

/-- The entry `name` is in the server map and marked disconnected. -/
def Marked (name : String) (w : DynamicWrapper) : Prop :=
  ∃ e, GoMap.get w.dynamicServers name = some e ∧ e.IsConnected = false

/-- Whether an operation is a `server_remove` of the entry `name` that succeeds in the
state `w`. -/
def isSuccessfulRemove (name : String) (w : DynamicWrapper) : Op → Bool
  | .remove world request =>
    decide (request.RequireString "name" = some name) &&
      (match handleServerRemove w world request with
       | .ok r => !r.result.IsError
       | .panicked _ => false)
  | _ => false

/-- No operation of the sequence, run from `w`, is a successful `server_reconnect` or a
successful `server_remove` of the entry `name`. -/
def keepsEntry (name : String) : DynamicWrapper → List Op → Bool
  | _, [] => true
  | w, op :: ops =>
    !isSuccessfulReconnect name w op && !isSuccessfulRemove name w op &&
      (match step w op with
       | .ok r => keepsEntry name r.state ops
       | .panicked _ => true)

/-! ## Static servers: discovery and `(*ProxyServer).Initialize` -/

/-- Go `discovery.DiscoveryResult`, without the duration. `Error = none` is the nil
error. -/
structure DiscoveryResult where
  ServerName : String := ""
  ServerPrefix : String := ""
  Tools : List RemoteTool := []
  Error : Option String := none
  deriving DecidableEq

/-- Go `(*DiscoveryResult).IsSuccessful`. -/
def DiscoveryResult.IsSuccessful (r : DiscoveryResult) : Bool := r.Error.isNone

/-- Go `(*Discoverer).createStdioClient`; `createAndConnectClient` builds its client with
the same lines. The entries of the `Env` map are taken in the order of the association
list (Go leaves the order of a map iteration open). -/
def createStdioClient (serverConfig : ServerConfig) : StdioClient :=
  let stdioClient := NewStdioClient serverConfig.Name serverConfig.Command serverConfig.Args
  if 0 < serverConfig.Env.length then
    { stdioClient with env := some (serverConfig.Env.map (fun kv => kv.1 ++ "=" ++ kv.2)) }
  else stdioClient

/-- Go `(*Discoverer).discoverServer`. The client of the discovery is closed when the
function returns and is not kept. -/
def discoverServer (world : ConnectWorld) (serverConfig : ServerConfig) : DiscoveryResult :=
  let result : DiscoveryResult :=
    { ServerName := serverConfig.Name, ServerPrefix := serverConfig.Prefix, Tools := [] }
  if serverConfig.Transport = "stdio" then
    let mcpClient := createStdioClient serverConfig
    match mcpClient.Connect world.spawn with
    | (_, some e) => { result with Error := some ("failed to connect: " ++ e) }
    | (c1, none) =>
      match c1.Initialize world.init with
      | (_, .error e) => { result with Error := some ("failed to initialize: " ++ e) }
      | (c2, .ok _) =>
        match c2.ListTools world.list with
        | (_, .error e) => { result with Error := some ("failed to list tools: " ++ e) }
        | (_, .ok toolInfos) => { result with Tools := convertToPrefixed serverConfig toolInfos }
  else if serverConfig.Transport = "http" then
    { result with
      Error := some ("failed to create client: " ++ "HTTP transport not yet implemented") }
  else
    { result with
      Error := some ("failed to create client: " ++
        ("unsupported transport: " ++ serverConfig.Transport)) }

/-- The environment of one configured server during `Initialize`: what happens to the
client of the discovery, and to the `Connect` and `Initialize` of the client that
`createAndConnectClient` builds afterwards. -/
structure StaticWorld where
  discover : ConnectWorld
  connect : SpawnWorld := {}
  init : Exchange
  deriving DecidableEq

/-- Go `(*Discoverer).DiscoverAll`: one result for every configured server, at the index
of the server. `worlds i` is the environment of the server with index `i`. -/
def DiscoverAll (worlds : Nat → StaticWorld) (config : ProxyConfig) : List DiscoveryResult :=
  config.Servers.enum.map (fun ic => discoverServer (worlds ic.1).discover ic.2)

/-- Go `discovery.GetSuccessfulResults`, every result with its index in `results`. -/
def GetSuccessfulResults (results : List DiscoveryResult) : List (Nat × DiscoveryResult) :=
  results.enum.filter (fun ir => ir.2.IsSuccessful)

/-- Go `(*ProxyServer).createAndConnectClient`. After a failed `Initialize` the client is
closed and dropped. -/
def createAndConnectClient (config : ProxyConfig) (world : StaticWorld)
    (serverName : String) : Except String StdioClient :=
  match config.Servers.find? (fun cfg => decide (cfg.Name = serverName)) with
  | none => .error ("server config not found: " ++ serverName)
  | some serverConfig =>
    if serverConfig.Transport = "stdio" then
      let mcpClient := createStdioClient serverConfig
      match mcpClient.Connect world.connect with
      | (_, some e) => .error ("failed to connect: " ++ e)
      | (c1, none) =>
        match c1.Initialize world.init with
        | (_, .error e) => .error ("failed to initialize: " ++ e)
        | (c2, .ok _) => .ok c2
    else .error ("unsupported transport: " ++ serverConfig.Transport)

/-- The tool table of the server that `(*ProxyServer).Initialize` creates: under each
tool name the tool definition and the handler `proxy.CreateProxyHandler(mcpClient, tool)`,
given by the client and the tool it closes over. -/
abbrev StaticTable := List (String × McpTool × ClientRef × RemoteTool)

/-- The wrapper with the remaining fields of its `ProxyServer`: the configuration, the
server that `proxyServer.mcpServer` points to (`none`: the wrapper's `baseServer`, whose
tool table is `wrapper.baseTools`; `some table`: the server created by `Initialize`, with
its tool table), and the flag `initialized`. -/
structure ConfiguredWrapper where
  wrapper : DynamicWrapper
  config : ProxyConfig
  mcpServer : Option StaticTable := none
  initialized : Bool := false
  deriving DecidableEq

/-- Go `NewDynamicWrapper(cfg)`: `proxyServer.mcpServer = baseServer`, and the management
tools are registered with `baseServer`. -/
def NewDynamicWrapperWith (cfg : ProxyConfig) : ConfiguredWrapper :=
  { wrapper := NewDynamicWrapper, config := cfg, mcpServer := none }

/-- The body of the loop "Register tools and create handlers" of `Initialize`:
`p.registry.RegisterTool(tool, mcpClient)` and `p.mcpServer.AddTool(mcpTool, handler)`,
where `p.mcpServer` is the server created at the start of `Initialize`. -/
def registerStaticTool (mcpClient : ClientRef) (acc : ToolRegistry × StaticTable)
    (tool : RemoteTool) : ToolRegistry × StaticTable :=
  (acc.1.RegisterTool tool mcpClient,
    GoMap.set acc.2 tool.PrefixedName (createMCPTool tool, mcpClient, tool))

/-- The body of the loop "Process successful discoveries" of `Initialize`, on the wrapper
state and the tool table of the created server. -/
def processResult (config : ProxyConfig) (worlds : Nat → StaticWorld)
    (acc : DynamicWrapper × StaticTable) (ir : Nat × DiscoveryResult) :
    DynamicWrapper × StaticTable :=
  match createAndConnectClient config (worlds ir.1) ir.2.ServerName with
  | .error _ => acc
  | .ok client =>
    let mcpClient := acc.1.heap.length
    let reg := ir.2.Tools.foldl (registerStaticTool mcpClient) (acc.1.registry, acc.2)
    ({ acc.1 with
       clients := acc.1.clients ++ [mcpClient],
       registry := reg.1,
       heap := acc.1.heap ++ [client] },
     reg.2)

/-- Go `(*DynamicWrapper).Initialize`, which is `w.proxyServer.Initialize(ctx)`: the state
afterwards. The error returned is nil, since `DiscoverAll` returns no error. -/
def ConfiguredWrapper.Initialize (p : ConfiguredWrapper) (worlds : Nat → StaticWorld) :
    ConfiguredWrapper :=
  if p.initialized then p
  else
    let results := DiscoverAll worlds p.config
    let successfulResults := GetSuccessfulResults results
    let done := successfulResults.foldl (processResult p.config worlds) (p.wrapper, [])
    { p with wrapper := done.1, mcpServer := some done.2, initialized := true }

/-- Go `(*DynamicWrapper).Start`: the tool table of the server handed to `ServeStdio`,
which is `w.baseServer`. -/
def ConfiguredWrapper.Start (p : ConfiguredWrapper) : List (String × McpTool × Handler) :=
  p.wrapper.baseTools

/-- One operation arriving at the wrapper after `Initialize`; `none` when the handler
panics. -/
def ConfiguredWrapper.apply (p : ConfiguredWrapper) (op : Op) : Option ConfiguredWrapper :=
  match step p.wrapper op with
  | .ok r => some { p with wrapper := r.state }
  | .panicked _ => none

/-- A configuration with the one static server "math" (prefix "m"). -/
def mathConfig : ProxyConfig := { Servers := [mathServer] }

/-- The server "math" starts twice, answers `initialize`, and lists the tools `add` and
`sub` to the discovery. -/
def mathWorlds : Nat → StaticWorld := fun _ =>
  { discover := serverWorld [toolEntry "add" "adds", toolEntry "sub" "subtracts"],
    init := { reader := .doc (initAnswer 1) } }

/-- The wrapper created from `mathConfig`, after `Initialize`. -/
def mathInitialized : ConfiguredWrapper :=
  (NewDynamicWrapperWith mathConfig).Initialize mathWorlds

/-- The operation `server_add("m", "bin/m2")` against a server that lists the tool `add`:
its prefixed name "m_add" is that of a tool of the static server "math". -/
def addMAdd : Op :=
  .add (serverWorld [toolEntry "add" "other"]) (commandRequest "server_add" "m" "bin/m2")

/-- The state after a sequence of operations on the wrapper configured with "math" and
initialized (that wrapper when one of them panics). -/
def mathAfter (ops : List Op) : DynamicWrapper :=
  (run mathInitialized.wrapper ops).getD mathInitialized.wrapper

/-- The entry `name` is in the server map, marked disconnected, and its registered-tools
list is `tools`. -/
def MarkedWith (name : String) (tools : List String) (w : DynamicWrapper) : Prop :=
  ∃ e, GoMap.get w.dynamicServers name = some e ∧ e.IsConnected = false ∧ e.Tools = tools

/-! # Theorems -/

/-! ## Strings -/

theorem hasPrefixChars_iff (s p : List Char) :
    hasPrefixChars s p = true ↔ ∃ c, s = p ++ c := by
  induction p generalizing s with
  | nil => simp [hasPrefixChars]
  | cons d p ih =>
    cases s with
    | nil => simp [hasPrefixChars]
    | cons c s =>
      simp only [hasPrefixChars, Bool.and_eq_true, beq_iff_eq, ih, List.cons_append,
        List.cons.injEq]
      constructor
      · rintro ⟨rfl, t, rfl⟩
        exact ⟨t, rfl, rfl⟩
      · rintro ⟨t, rfl, rfl⟩
        exact ⟨rfl, t, rfl⟩

theorem containsChars_iff (s sub : List Char) :
    containsChars s sub = true ↔ ∃ a c, s = a ++ sub ++ c := by
  induction s with
  | nil =>
    simp only [containsChars, hasPrefixChars_iff]
    constructor
    · rintro ⟨c, h⟩
      exact ⟨[], c, by simpa using h⟩
    · rintro ⟨a, c, h⟩
      have h1 : a ++ sub ++ c = [] := h.symm
      simp only [List.append_eq_nil] at h1
      exact ⟨[], by simp [h1.1.2]⟩
  | cons x s ih =>
    simp only [containsChars, Bool.or_eq_true, hasPrefixChars_iff, ih]
    constructor
    · rintro (⟨c, h⟩ | ⟨a, c, h⟩)
      · exact ⟨[], c, by simpa using h⟩
      · exact ⟨x :: a, c, by simp [h]⟩
    · rintro ⟨a, c, h⟩
      cases a with
      | nil => exact Or.inl ⟨c, by simpa using h⟩
      | cons y a =>
        simp only [List.cons_append, List.cons.injEq] at h
        exact Or.inr ⟨a, c, h.2⟩

theorem Contains_iff (s sub : String) :
    Contains s sub = true ↔ ∃ a c : List Char, s.data = a ++ sub.data ++ c :=
  containsChars_iff s.data sub.data

theorem Contains_append_left {s sub : String} (h : Contains s sub = true) (a : String) :
    Contains (a ++ s) sub = true := by
  rw [Contains_iff] at h ⊢
  obtain ⟨x, y, hxy⟩ := h
  exact ⟨a.data ++ x, y, by simp [String.data_append, hxy]⟩

theorem Contains_append_right {s sub : String} (h : Contains s sub = true) (c : String) :
    Contains (s ++ c) sub = true := by
  rw [Contains_iff] at h ⊢
  obtain ⟨x, y, hxy⟩ := h
  exact ⟨x, y ++ c.data, by simp [String.data_append, hxy]⟩

/-! ## Go maps -/

theorem GoMap.get_set {α : Type} (m : List (String × α)) (k : String) (v : α) (key : String) :
    GoMap.get (GoMap.set m k v) key = if k = key then some v else GoMap.get m key := by
  induction m with
  | nil => simp [GoMap.set, GoMap.get]
  | cons kv m ih =>
    obtain ⟨k1, v1⟩ := kv
    by_cases h1 : k1 = k
    · subst h1
      by_cases h2 : k1 = key <;> simp [GoMap.set, GoMap.get, h2]
    · by_cases h2 : k1 = key
      · subst h2
        have h3 : ¬ k = k1 := fun h => h1 h.symm
        simp [GoMap.set, GoMap.get, h1, h3]
      · simp [GoMap.set, GoMap.get, h1, h2, ih]

theorem GoMap.get_set_same {α : Type} (m : List (String × α)) (k : String) (v : α) :
    GoMap.get (GoMap.set m k v) k = some v := by
  simp [GoMap.get_set]

theorem GoMap.get_set_other {α : Type} (m : List (String × α)) (k : String) (v : α)
    (key : String) (h : k ≠ key) : GoMap.get (GoMap.set m k v) key = GoMap.get m key := by
  simp [GoMap.get_set, h]

theorem GoMap.get_delete {α : Type} (m : List (String × α)) (k key : String) :
    GoMap.get (GoMap.delete m k) key = if k = key then none else GoMap.get m key := by
  unfold GoMap.delete
  induction m with
  | nil => simp [GoMap.get]
  | cons kv m ih =>
    obtain ⟨k1, v1⟩ := kv
    by_cases h1 : k1 = k
    · subst h1
      by_cases h2 : k1 = key
      · simpa [List.filter_cons, GoMap.get, h2] using ih
      · simpa [List.filter_cons, GoMap.get, h2] using ih
    · by_cases h2 : k1 = key
      · subst h2
        have h3 : ¬ k = k1 := fun h => h1 h.symm
        simp [List.filter_cons, GoMap.get, h1, h3]
      · simpa [List.filter_cons, GoMap.get, h1, h2] using ih

/-! ## C1: the id check of `sendRequest` -/

theorem readerResult_mismatch (reader : ReadOutcome) (request : JSONRPCRequest) (j : Json)
    (response : JSONRPCResponse) (hr : reader = .doc j)
    (hd : unmarshalResponse j = .ok response) (hne : response.ID ≠ request.ID) :
    readerResult reader request = .error ("response ID " ++ fmtInt response.ID ++
      " does not match request ID " ++ fmtInt request.ID) := by
  simp [readerResult, hr, hd, hne]

theorem readerResult_ok_id (reader : ReadOutcome) (request : JSONRPCRequest)
    (r : JSONRPCResponse) (h : readerResult reader request = .ok r) : r.ID = request.ID := by
  unfold readerResult at h
  split at h
  · cases h
  · cases h
  · split at h
    · cases h
    · split at h
      · cases h
      · rename_i h2
        simp only [Except.ok.injEq] at h
        subst h
        simpa using h2

theorem sendRequest_ok_reader (x : Exchange) (request : JSONRPCRequest) (r : JSONRPCResponse)
    (h : sendRequest x request = .ok r) : readerResult x.reader request = .ok r := by
  unfold sendRequest at h
  split at h
  · cases h
  · split at h
    · cases h
    · split at h
      · cases h
      · exact h

theorem mismatch_text_contains (a b : String) :
    Contains ("response ID " ++ a ++ " does not match request ID " ++ b)
      "does not match request ID" = true := by
  have h0 : Contains " does not match request ID " "does not match request ID" = true := by
    decide
  exact Contains_append_right (Contains_append_left h0 ("response ID " ++ a)) b

/-- C1 (amended). Whenever `sendRequest` returns a response, its id equals the request's
id. When the request was written and the line read for it decodes to a response whose id
differs from the request's id, the call never returns a response: it fails with an error
whose message contains "does not match request ID" when the `select` receives the reader's
result, and with "request timeout: ..." when the `select` takes the `ctx.Done()` case. -/
theorem sendRequest_id_check (x : Exchange) (request : JSONRPCRequest) :
    (∀ r, sendRequest x request = .ok r → r.ID = request.ID) ∧
    (∀ j response, x.marshalErr = none → x.writeErr = none → x.reader = .doc j →
      unmarshalResponse j = .ok response → response.ID ≠ request.ID →
      (∀ r, sendRequest x request ≠ .ok r) ∧
      (x.ctxDone = none →
        ∃ msg, sendRequest x request = .error msg ∧
          Contains msg "does not match request ID" = true) ∧
      (∀ c, x.ctxDone = some c →
        sendRequest x request = .error ("request timeout: " ++ c.Error))) := by
  constructor
  · intro r h
    exact readerResult_ok_id x.reader request r (sendRequest_ok_reader x request r h)
  · intro j response hm hw hr hd hne
    have hread := readerResult_mismatch x.reader request j response hr hd hne
    refine ⟨?_, ?_, ?_⟩
    · intro r
      cases hc : x.ctxDone <;> simp [sendRequest, hm, hw, hc, hread]
    · intro hc
      exact ⟨"response ID " ++ fmtInt response.ID ++ " does not match request ID " ++
        fmtInt request.ID, by simp [sendRequest, hm, hw, hc, hread],
        mismatch_text_contains _ _⟩
    · intro c hc
      simp [sendRequest, hm, hw, hc]

/-- C1, at request id 1 answered with id 99: the call fails with an error that contains
"does not match request ID". -/
theorem sendRequest_id_check_witness :
    unmarshalResponse answer99 =
      .ok { JSONRPC := "2.0", ID := 99, Result := some (.obj [("content", .arr [])]) } ∧
    (99 : Int) ≠ request1.ID ∧
    ∃ msg, sendRequest exchange99 request1 = .error msg ∧
      Contains msg "does not match request ID" = true :=
  ⟨by decide, by decide,
    ((sendRequest_id_check exchange99 request1).2 answer99
      { JSONRPC := "2.0", ID := 99, Result := some (.obj [("content", .arr [])]) }
      rfl rfl rfl (by decide) (by decide)).2.1 rfl⟩

/-- C1 as stated fails when the deadline wins: request id 1 is answered with id 99, the
line is read and decoded, and the `select` takes the `ctx.Done()` case; the error is the
timeout error, which does not contain "does not match request ID". -/
theorem sendRequest_mismatch_timeout_counterexample :
    exchange99Late.marshalErr = none ∧ exchange99Late.writeErr = none ∧
    exchange99Late.reader = .doc answer99 ∧
    (unmarshalResponse answer99).map (fun r => r.ID) = .ok 99 ∧
    (99 : Int) ≠ request1.ID ∧
    sendRequest exchange99Late request1 =
      .error "request timeout: context deadline exceeded" ∧
    Contains "request timeout: context deadline exceeded" "does not match request ID" =
      false := by
  decide

/-! ## C2: recording a session and parsing it back -/

/-- C2, at the session of one request and its response, recorded at a time when every
timestamp is well-formed: the file holds the two comment lines, the five lines of the
indented session header and the two message lines; the parser skips the header lines,
takes the first message line for the session header and returns only the response, so
`GetClientMessages` is empty although one request was recorded. -/
theorem record_parse_loses_first_message :
    (recordSession "2024-01-01T00:00:00Z" greetSession).recordFile =
      [.text "# MCP Recording Session", .text "# Started: 2024-01-01T00:00:00Z",
       .text "\x7b", .text "  \"start_time\": \"2024-01-01T00:00:00Z\",",
       .text "  \"server_info\": \"Dynamic MCP Proxy v1.0.0\",", .text "  \"messages\": []",
       .text "\x7d",
       .doc (marshalRecordedMessage greetRequestEvent.recorded),
       .doc (marshalRecordedMessage greetResponseEvent.recorded)] ∧
    ParseRecordingFile (fun _ => true) "2024-01-02T00:00:00Z" none
        (recordSession "2024-01-01T00:00:00Z" greetSession).recordFile =
      .ok { StartTime := "0001-01-01T00:00:00Z", ServerInfo := "",
            Messages := [greetResponseEvent.recorded] } ∧
    (ParseRecordingFile (fun _ => true) "2024-01-02T00:00:00Z" none
        (recordSession "2024-01-01T00:00:00Z" greetSession).recordFile).map
      (fun s => (s.GetClientMessages, s.GetServerMessages)) =
      .ok ([], [greetResponseEvent.recorded]) ∧
    (greetSession.filter (fun e => e.direction = "request")).length = 1 := by
  decide

/-! ## C8: the translation of a downstream result -/

theorem intercalate_go_eq_foldl (rest : List ContentItem) (acc : String) :
    String.intercalate.go acc "\n" (rest.map (fun c => c.Text)) =
      rest.foldl (fun text content => text ++ "\n" ++ content.Text) acc := by
  induction rest generalizing acc with
  | nil => simp [String.intercalate.go]
  | cons c rest ih => simp [String.intercalate.go, ih]

theorem joinContent_eq_Join (content : List ContentItem) :
    joinContent content = Join (content.map (fun c => c.Text)) "\n" := by
  cases content with
  | nil => rfl
  | cons c rest =>
    simp [joinContent, Join, String.intercalate, intercalate_go_eq_foldl]

theorem filter_text_of_all_text (content : List ContentItem)
    (h : ∀ c ∈ content, c.Typ = "text") :
    content.filter (fun c => c.Typ = "text") = content := by
  rw [List.filter_eq_self]
  intro c hc
  simp [h c hc]

/-- C8 (amended). For every downstream result `r`, the inline translation of the dynamic
handler and `transformResult` both give: when `r.isError`, a tool error whose text is the
first content item's text, or "Tool execution failed" when `r` has no content; otherwise a
text result whose text is the `Text` of all content items, of whatever type, joined by
newlines, or "Tool executed successfully" when `r` has no content. When every item is
text-typed and there is at least one, this is the text of the text-typed items joined by
newlines. -/
theorem translate_result (r : CallToolResult) :
    (r.IsError = true →
      wrapperTransform r = NewToolResultError
        (match r.Content with | c :: _ => c.Text | [] => "Tool execution failed") ∧
      transformResult r = wrapperTransform r) ∧
    (r.IsError = false →
      wrapperTransform r = NewToolResultText
        (if r.Content = [] then "Tool executed successfully"
          else Join (r.Content.map (fun c => c.Text)) "\n") ∧
      transformResult r = wrapperTransform r) ∧
    (r.IsError = false → r.Content ≠ [] → (∀ c ∈ r.Content, c.Typ = "text") →
      wrapperTransform r = NewToolResultText (specJoinTextItems r)) := by
  have hsame : transformResult r = wrapperTransform r := rfl
  have hok : r.IsError = false →
      wrapperTransform r = NewToolResultText
        (if r.Content = [] then "Tool executed successfully"
          else Join (r.Content.map (fun c => c.Text)) "\n") := by
    intro h
    cases hc : r.Content with
    | nil => simp [wrapperTransform, h, hc]
    | cons c rest => simp [wrapperTransform, h, hc, joinContent_eq_Join]
  refine ⟨?_, ?_, ?_⟩
  · intro h
    refine ⟨?_, hsame⟩
    cases hc : r.Content <;> simp [wrapperTransform, h, hc]
  · intro h
    exact ⟨hok h, hsame⟩
  · intro h hne hall
    rw [hok h, if_neg hne, specJoinTextItems, filter_text_of_all_text _ hall]

/-- C8 as stated fails on a successful result with an image item before a text item (the
upstream text is "\na", the text-typed items joined give "a"), and on a successful result
with no content (the upstream text is "Tool executed successfully", not the empty text). -/
theorem translate_result_counterexample :
    wrapperTransform imageThenText = NewToolResultText "\na" ∧
    transformResult imageThenText = NewToolResultText "\na" ∧
    specJoinTextItems imageThenText = "a" ∧
    wrapperTransform { Content := [], IsError := false } =
      NewToolResultText "Tool executed successfully" ∧
    specJoinTextItems { Content := [], IsError := false } = "" := by
  decide

/-! ## C9: connection errors of a forwarded call -/

theorem handler_forwards (w : DynamicWrapper) (s t : String) (x : Exchange)
    (req : CallToolRequest) (info : DynamicServerInfo) (ref : ClientRef) (client : StdioClient)
    (hget : GoMap.get w.dynamicServers s = some info) (hconn : info.IsConnected = true)
    (hcl : info.Client = some ref) (hheap : w.heap.get? ref = some client) :
    createDynamicProxyHandler s t w x req =
      match client.CallTool x t req.Arguments with
      | (client1, .error err) =>
        if isConnectionError err then
          .ok ⟨{ w with
                 dynamicServers := GoMap.set w.dynamicServers s
                   { info with IsConnected := false, ErrorMessage := err },
                 heap := w.heap.set ref client1 },
            NewToolResultError ("Server '" ++ s ++ "' connection failed: " ++ err ++
              "\nUse server_reconnect to restore connection."),
            [recRequest (s ++ "_" ++ t) s req,
             recResponse (s ++ "_" ++ t) s
               (NewToolResultError ("Server '" ++ s ++ "' connection failed: " ++ err ++
                 "\nUse server_reconnect to restore connection."))]⟩
        else
          .ok ⟨{ w with heap := w.heap.set ref client1 },
            NewToolResultError ("[" ++ s ++ "] " ++ err),
            [recRequest (s ++ "_" ++ t) s req,
             recResponse (s ++ "_" ++ t) s (NewToolResultError ("[" ++ s ++ "] " ++ err))]⟩
      | (client1, .ok result) =>
        .ok ⟨{ w with heap := w.heap.set ref client1 }, wrapperTransform result,
          [recRequest (s ++ "_" ++ t) s req,
           recResponse (s ++ "_" ++ t) s (wrapperTransform result)]⟩ := by
  unfold createDynamicProxyHandler
  simp only [hget, hconn, hcl, hheap]
  rcases hc : client.CallTool x t req.Arguments with ⟨client1, err | result⟩
  · by_cases he : isConnectionError err = true <;> simp [he]
  · simp

theorem hint_contains (a : String) :
    Contains (a ++ "\nUse server_reconnect to restore connection.")
      "Use server_reconnect to restore connection." = true := by
  have h0 : Contains "\nUse server_reconnect to restore connection."
      "Use server_reconnect to restore connection." = true := by decide
  exact Contains_append_left h0 a

/-- C9. `isConnectionError(err)` holds exactly when the lower-cased message contains one of
"connection", "broken pipe", "eof", "closed", "timeout". When the `CallTool` forwarded by
the handler of a connected entry fails with such an error, the handler marks the entry
`IsConnected = false` with `ErrorMessage` equal to the error's message and returns an error
result that contains "Use server_reconnect to restore connection."; for any other
`CallTool` error the server map, and so the entry's connection state and error message,
are unchanged. -/
theorem call_error_marks_entry (w : DynamicWrapper) (s t : String) (x : Exchange)
    (req : CallToolRequest) (info : DynamicServerInfo) (ref : ClientRef)
    (client client1 : StdioClient) (err : String)
    (hget : GoMap.get w.dynamicServers s = some info) (hconn : info.IsConnected = true)
    (hcl : info.Client = some ref) (hheap : w.heap.get? ref = some client)
    (hcall : client.CallTool x t req.Arguments = (client1, .error err)) :
    (isConnectionError err = true ↔
      (Contains (ToLower err) "connection" = true ∨ Contains (ToLower err) "broken pipe" = true ∨
        Contains (ToLower err) "eof" = true ∨ Contains (ToLower err) "closed" = true ∨
        Contains (ToLower err) "timeout" = true)) ∧
    (isConnectionError err = true →
      ∃ r, createDynamicProxyHandler s t w x req = .ok r ∧
        GoMap.get r.state.dynamicServers s =
          some { info with IsConnected := false, ErrorMessage := err } ∧
        r.result.IsError = true ∧
        Contains r.result.Text "Use server_reconnect to restore connection." = true) ∧
    (isConnectionError err = false →
      ∃ r, createDynamicProxyHandler s t w x req = .ok r ∧
        r.state.dynamicServers = w.dynamicServers ∧
        GoMap.get r.state.dynamicServers s = some info ∧
        r.result = NewToolResultError ("[" ++ s ++ "] " ++ err)) := by
  have hh := handler_forwards w s t x req info ref client hget hconn hcl hheap
  rw [hcall] at hh
  refine ⟨?_, ?_, ?_⟩
  · simp [isConnectionError, or_assoc]
  · intro he
    simp only [he, if_true] at hh
    exact ⟨_, hh, GoMap.get_set_same _ _ _, rfl, hint_contains _⟩
  · intro he
    simp only [he] at hh
    exact ⟨_, hh, rfl, hget, rfl⟩

/-- C9, on the entry "s" added with one client: a call that meets the end of the child's
stdout marks the entry disconnected with the error's message, and a call answered by a
JSON-RPC error object leaves the entry as it is. -/
theorem call_error_marks_entry_witness :
    run NewDynamicWrapper [addS] = some (afterOps [addS]) ∧
    (∃ r, createDynamicProxyHandler "s" "hi" (afterOps [addS]) exchangeEOF {} = .ok r ∧
      (GoMap.get r.state.dynamicServers "s").map (fun e => (e.IsConnected, e.ErrorMessage)) =
        some (false, "tools/call request failed: failed to read response: EOF") ∧
      r.result.IsError = true ∧
      Contains r.result.Text "Use server_reconnect to restore connection." = true) ∧
    (∃ r, createDynamicProxyHandler "s" "hi" (afterOps [addS]) exchangeUnknownTool {} = .ok r ∧
      r.state.dynamicServers = (afterOps [addS]).dynamicServers ∧
      r.result = NewToolResultError
        "[s] failed to parse tools/call response: [] unknown tool (code: -32601)") := by
  refine ⟨by decide, ?_, ?_⟩
  · obtain ⟨r, h1, h2, h3, h4⟩ :=
      (call_error_marks_entry (afterOps [addS]) "s" "hi" exchangeEOF {}
        { Name := "s", Client := some 0, Tools := ["s_hi", "s_bye"],
          Config := { Name := "s", Prefix := "s", Transport := "stdio", Command := "bin/v1",
                      Timeout := "30s" },
          IsConnected := true }
        0 { serverName := "s", command := "bin/v1", args := [], counter := 2, connected := true }
        { serverName := "s", command := "bin/v1", args := [], counter := 3, connected := true }
        "tools/call request failed: failed to read response: EOF"
        (by decide) rfl rfl (by decide) (by decide)).2.1 (by decide)
    exact ⟨r, h1, by rw [h2]; rfl, h3, h4⟩
  · obtain ⟨r, h1, h2, _, h4⟩ :=
      (call_error_marks_entry (afterOps [addS]) "s" "hi" exchangeUnknownTool {}
        { Name := "s", Client := some 0, Tools := ["s_hi", "s_bye"],
          Config := { Name := "s", Prefix := "s", Transport := "stdio", Command := "bin/v1",
                      Timeout := "30s" },
          IsConnected := true }
        0 { serverName := "s", command := "bin/v1", args := [], counter := 2, connected := true }
        { serverName := "s", command := "bin/v1", args := [], counter := 3, connected := true }
        "failed to parse tools/call response: [] unknown tool (code: -32601)"
        (by decide) rfl rfl (by decide) (by decide)).2.2 (by decide)
    exact ⟨r, h1, h2, h4⟩

/-- The lower-casing of `isConnectionError` is that of `strings.ToLower`, which maps the
Kelvin sign to `k` and the dotted capital I to `i`: error texts spelled with them hold a
keyword. A text without a keyword does not. -/
theorem isConnectionError_unicode_capitals :
    isConnectionError "BRO\u212AEN PIPE" = true ∧ isConnectionError "T\u0130MEOUT" = true ∧
    ToLower "\u00C9OF \u03A3" = "\u00E9of \u03C3" ∧ isConnectionError "\u00C9O F" = false := by
  decide

/-! ## C10: a cancelled or timed-out forwarded call -/

theorem handler_of_disconnected (w : DynamicWrapper) (s t : String) (x : Exchange)
    (req : CallToolRequest) (info : DynamicServerInfo)
    (hget : GoMap.get w.dynamicServers s = some info) (hdis : info.IsConnected = false) :
    ∃ r, createDynamicProxyHandler s t w x req = .ok r ∧ r.state = w ∧
      r.result.IsError = true ∧ Contains r.result.Text "server_reconnect" = true := by
  have h0 : Contains "\nUse server_reconnect to restore connection." "server_reconnect" = true := by
    decide
  unfold createDynamicProxyHandler
  simp only [hget, hdis]
  exact ⟨_, rfl, rfl, rfl, Contains_append_left h0 _⟩

theorem heap_get_set (heap : List StdioClient) (ref : ClientRef) (c c1 : StdioClient)
    (h : heap.get? ref = some c) : (heap.set ref c1).get? ref = some c1 := by
  have hlt : ref < heap.length := by
    rcases List.get?_eq_some.1 h with ⟨hlt, _⟩
    exact hlt
  simp [List.getElem?_set_self hlt]

theorem timeout_is_connection_error (c : CtxErr) :
    isConnectionError ("tools/call request failed: " ++ ("request timeout: " ++ c.Error)) =
      true := by
  cases c <;> decide

theorem CallTool_of_ctxDone (client : StdioClient) (x : Exchange) (t : String)
    (args : List (String × Json)) (c : CtxErr) (hlive : client.connected = true)
    (hm : x.marshalErr = none) (hw : x.writeErr = none) (hctx : x.ctxDone = some c) :
    client.CallTool x t args =
      ({ client with counter := NextID client.counter },
        .error ("tools/call request failed: " ++ ("request timeout: " ++ c.Error))) := by
  simp [StdioClient.CallTool, hlive, sendRequest, hm, hw, hctx]

/-- When the `select` of a forwarded call takes the `ctx.Done()` case (the
caller's context is cancelled or a deadline expires while the call waits for the
downstream answer), the handler returns the error result "Server '<name>' connection
failed: tools/call request failed: request timeout: <ctx error> / Use server_reconnect to
restore connection."; the client's `connected` flag stays true; but because the message
contains "timeout" the entry is marked `IsConnected = false` with that message, and every
later call through a binding of the entry returns the `server_reconnect` error and leaves
the state, the client included, untouched. -/
theorem cancelled_call_marks_entry (w : DynamicWrapper) (s t : String) (x : Exchange)
    (req : CallToolRequest) (info : DynamicServerInfo) (ref : ClientRef) (client : StdioClient)
    (c : CtxErr)
    (hget : GoMap.get w.dynamicServers s = some info) (hconn : info.IsConnected = true)
    (hcl : info.Client = some ref) (hheap : w.heap.get? ref = some client)
    (hlive : client.connected = true)
    (hm : x.marshalErr = none) (hw : x.writeErr = none) (hctx : x.ctxDone = some c) :
    ∃ r, createDynamicProxyHandler s t w x req = .ok r ∧
      r.result = NewToolResultError
        ("Server '" ++ s ++ "' connection failed: " ++
          ("tools/call request failed: " ++ ("request timeout: " ++ c.Error)) ++
          "\nUse server_reconnect to restore connection.") ∧
      (r.state.heap.get? ref).map (fun cl => cl.connected) = some true ∧
      GoMap.get r.state.dynamicServers s =
        some { info with
               IsConnected := false,
               ErrorMessage :=
                 "tools/call request failed: " ++ ("request timeout: " ++ c.Error) } ∧
      ∀ (t2 : String) (x2 : Exchange) (req2 : CallToolRequest),
        ∃ r2, createDynamicProxyHandler s t2 r.state x2 req2 = .ok r2 ∧ r2.state = r.state ∧
          r2.result.IsError = true ∧ Contains r2.result.Text "server_reconnect" = true := by
  have hh := handler_forwards w s t x req info ref client hget hconn hcl hheap
  rw [CallTool_of_ctxDone client x t req.Arguments c hlive hm hw hctx] at hh
  simp only [timeout_is_connection_error, if_true] at hh
  refine ⟨_, hh, rfl, ?_, GoMap.get_set_same _ _ _, ?_⟩
  · rw [heap_get_set _ _ _ _ hheap]
    simp [hlive]
  · intro t2 x2 req2
    exact handler_of_disconnected _ s t2 x2 req2 _ (GoMap.get_set_same _ _ _) rfl

/-- The entry "s" whose call of `hi` is cancelled is marked disconnected, and its client
stays connected. -/
theorem cancelled_call_marks_entry_witness :
    run NewDynamicWrapper [addS] = some (afterOps [addS]) ∧
    ∃ r, createDynamicProxyHandler "s" "hi" (afterOps [addS]) exchangeCancelled {} = .ok r ∧
      r.result = NewToolResultError
        ("Server 's' connection failed: tools/call request failed: request timeout: " ++
          "context canceled\nUse server_reconnect to restore connection.") ∧
      (r.state.heap.get? 0).map (fun cl => cl.connected) = some true ∧
      (GoMap.get r.state.dynamicServers "s").map (fun e => e.IsConnected) = some false := by
  refine ⟨by decide, ?_⟩
  obtain ⟨r, h1, h2, h3, h4, _⟩ :=
    cancelled_call_marks_entry (afterOps [addS]) "s" "hi" exchangeCancelled {}
      { Name := "s", Client := some 0, Tools := ["s_hi", "s_bye"],
        Config := { Name := "s", Prefix := "s", Transport := "stdio", Command := "bin/v1",
                    Timeout := "30s" },
        IsConnected := true }
      0 { serverName := "s", command := "bin/v1", args := [], counter := 2, connected := true }
      .canceled (by decide) rfl rfl (by decide) rfl rfl rfl rfl
  exact ⟨r, h1, by rw [h2]; decide, h3, by rw [h4]; rfl⟩

/-- C10 fails on the code: after `server_add` of "s", a call of `s_hi` whose context is
cancelled leaves the client's `connected` flag true but marks the entry disconnected, and
the next call of `s_hi`, which the child would answer, is not forwarded: it returns the
`server_reconnect` error and the state, the client's request counter included, is
unchanged. -/
theorem cancelled_call_disconnects_entry :
    run NewDynamicWrapper [addS, callHi exchangeCancelled] =
      some (afterOps [addS, callHi exchangeCancelled]) ∧
    (afterOps [addS, callHi exchangeCancelled]).heap.map (fun cl => cl.connected) = [true] ∧
    (GoMap.get (afterOps [addS, callHi exchangeCancelled]).dynamicServers "s").map
      (fun e => e.IsConnected) = some false ∧
    createDynamicProxyHandler "s" "hi" (afterOps [addS, callHi exchangeCancelled])
        { reader := .doc (textAnswer 4 "v1") } { Name := "s_hi" } =
      .ok ⟨afterOps [addS, callHi exchangeCancelled],
        NewToolResultError
          ("Server 's' is disconnected: tools/call request failed: request timeout: " ++
            "context canceled\nUse server_reconnect to restore connection."),
        [recRequest "s_hi" "s" { Name := "s_hi" },
         recResponse "s_hi" "s" (NewToolResultError
          ("Server 's' is disconnected: tools/call request failed: request timeout: " ++
            "context canceled\nUse server_reconnect to restore connection."))]⟩ := by
  decide

/-! ## The effect of each handler on the state -/

theorem handleServerAdd_cases (w : DynamicWrapper) (world : ConnectWorld)
    (request : CallToolRequest) (r : Reply) (h : handleServerAdd w world request = .ok r) :
    (r.state = w ∧ r.result.IsError = true) ∨
    ∃ name command cmd args client tools,
      request.RequireString "name" = some name ∧
      request.RequireString "command" = some command ∧
      GoMap.get w.dynamicServers name = none ∧ Fields command = cmd :: args ∧
      connectAndList name cmd args world = .ok (client, tools) ∧
      r.result.IsError = false ∧ r.state = addedState w name cmd args client tools := by
  cases hn : request.RequireString "name" with
  | none =>
    simp only [handleServerAdd, hn] at h
    cases h
    exact Or.inl ⟨rfl, rfl⟩
  | some name =>
    cases hc : request.RequireString "command" with
    | none =>
      simp only [handleServerAdd, hn, hc] at h
      cases h
      exact Or.inl ⟨rfl, rfl⟩
    | some command =>
      cases hg : GoMap.get w.dynamicServers name with
      | some info =>
        simp only [handleServerAdd, hn, hc, hg, Option.isSome_some, if_true] at h
        cases h
        exact Or.inl ⟨rfl, rfl⟩
      | none =>
        cases hf : Fields command with
        | nil =>
          simp [handleServerAdd, hn, hc, hg, hf] at h
          cases h
          exact Or.inl ⟨rfl, rfl⟩
        | cons cmd args =>
          cases hcl : connectAndList name cmd args world with
          | error e =>
            simp [handleServerAdd, hn, hc, hg, hf, hcl] at h
            cases h
            exact Or.inl ⟨rfl, rfl⟩
          | ok p =>
            obtain ⟨client, tools⟩ := p
            simp [handleServerAdd, hn, hc, hg, hf, hcl] at h
            cases h
            exact Or.inr ⟨name, command, cmd, args, client, tools, rfl, rfl, hg, hf, hcl,
              rfl, rfl⟩

theorem handleServerRemove_cases (w : DynamicWrapper) (world : CloseWorld)
    (request : CallToolRequest) (r : Reply) (h : handleServerRemove w world request = .ok r) :
    (r.state = w ∧ r.result.IsError = true) ∨
    ∃ name info ref heap1,
      request.RequireString "name" = some name ∧
      GoMap.get w.dynamicServers name = some info ∧ info.Client = some ref ∧
      closeRef w.heap ref world = some heap1 ∧ w.clients.length ≠ 0 ∧
      r.result.IsError = false ∧
      r.state = { w with
                  dynamicServers := GoMap.delete w.dynamicServers name,
                  clients := w.clients.filter (fun c => c ≠ ref),
                  heap := heap1 } := by
  cases hn : request.RequireString "name" with
  | none =>
    simp only [handleServerRemove, hn] at h
    cases h
    exact Or.inl ⟨rfl, rfl⟩
  | some name =>
    cases hg : GoMap.get w.dynamicServers name with
    | none =>
      simp only [handleServerRemove, hn, hg] at h
      cases h
      exact Or.inl ⟨rfl, rfl⟩
    | some info =>
      cases hcl : info.Client with
      | none => simp [handleServerRemove, hn, hg, hcl] at h
      | some ref =>
        cases hcr : closeRef w.heap ref world with
        | none => simp [handleServerRemove, hn, hg, hcl, hcr] at h
        | some heap1 =>
          by_cases hlen : w.clients.length = 0
          · simp [handleServerRemove, hn, hg, hcl, hcr, hlen] at h
          · simp only [handleServerRemove, hn, hg, hcl, hcr, hlen, if_false] at h
            cases h
            exact Or.inr ⟨name, info, ref, heap1, rfl, hg, hcl, hcr, hlen, rfl, rfl⟩

theorem handleServerDisconnect_cases (w : DynamicWrapper) (world : CloseWorld)
    (request : CallToolRequest) (r : Reply)
    (h : handleServerDisconnect w world request = .ok r) :
    (r.state = w ∧ r.result.IsError = true) ∨
    (∃ name info, request.RequireString "name" = some name ∧
      GoMap.get w.dynamicServers name = some info ∧ info.IsConnected = false ∧
      r.state = w ∧ r.result.IsError = false) ∨
    ∃ name info heap1,
      request.RequireString "name" = some name ∧
      GoMap.get w.dynamicServers name = some info ∧ info.IsConnected = true ∧
      r.result.IsError = false ∧
      r.state = { w with
                  dynamicServers := GoMap.set w.dynamicServers name
                    { info with
                      IsConnected := false, ErrorMessage := "Server disconnected by user",
                      Client := none },
                  heap := heap1 } := by
  cases hn : request.RequireString "name" with
  | none =>
    simp only [handleServerDisconnect, hn] at h
    cases h
    exact Or.inl ⟨rfl, rfl⟩
  | some name =>
    cases hg : GoMap.get w.dynamicServers name with
    | none =>
      simp only [handleServerDisconnect, hn, hg] at h
      cases h
      exact Or.inl ⟨rfl, rfl⟩
    | some info =>
      cases hc : info.IsConnected with
      | false =>
        simp [handleServerDisconnect, hn, hg, hc] at h
        cases h
        exact Or.inr (Or.inl ⟨name, info, rfl, hg, hc, rfl, rfl⟩)
      | true =>
        simp only [handleServerDisconnect, hn, hg, hc, Bool.not_true, Bool.false_eq_true,
          if_false] at h
        split at h
        · cases h
        · next heap1 _ =>
          cases h
          exact Or.inr (Or.inr ⟨name, info, heap1, rfl, hg, hc, rfl, rfl⟩)

theorem handleServerReconnect_cases (w : DynamicWrapper) (world : ConnectWorld)
    (request : CallToolRequest) (r : Reply)
    (h : handleServerReconnect w world request = .ok r) :
    (r.state = w ∧ r.result.IsError = true) ∨
    (∃ name info e cfg, request.RequireString "name" = some name ∧
      GoMap.get w.dynamicServers name = some info ∧ info.IsConnected = false ∧
      r.result.IsError = true ∧
      r.state = { w with
                  dynamicServers := GoMap.set w.dynamicServers name
                    { info with IsConnected := false, ErrorMessage := e, Config := cfg } }) ∨
    ∃ name command cmd args info client tools clients1,
      request.RequireString "name" = some name ∧
      request.RequireString "command" = some command ∧
      GoMap.get w.dynamicServers name = some info ∧ info.IsConnected = false ∧
      Fields command = cmd :: args ∧
      connectAndList name cmd args world = .ok (client, tools) ∧
      replaceFirstNamed w.heap name w.heap.length w.clients = some clients1 ∧
      r.result.IsError = false ∧
      r.state = reconnectedState w name cmd args info client tools clients1 := by
  cases hn : request.RequireString "name" with
  | none =>
    simp only [handleServerReconnect, hn] at h
    cases h
    exact Or.inl ⟨rfl, rfl⟩
  | some name =>
    cases hc : request.RequireString "command" with
    | none =>
      simp only [handleServerReconnect, hn, hc] at h
      cases h
      exact Or.inl ⟨rfl, rfl⟩
    | some command =>
      cases hg : GoMap.get w.dynamicServers name with
      | none =>
        simp only [handleServerReconnect, hn, hc, hg] at h
        cases h
        exact Or.inl ⟨rfl, rfl⟩
      | some info =>
        cases hic : info.IsConnected with
        | true =>
          simp [handleServerReconnect, hn, hc, hg, hic] at h
          cases h
          exact Or.inl ⟨rfl, rfl⟩
        | false =>
          cases hf : Fields command with
          | nil =>
            simp [handleServerReconnect, hn, hc, hg, hic, hf] at h
            cases h
            exact Or.inl ⟨rfl, rfl⟩
          | cons cmd args =>
            cases hcl : connectAndList name cmd args world with
            | error e =>
              simp [handleServerReconnect, hn, hc, hg, hic, hf, hcl] at h
              cases h
              exact Or.inr (Or.inl ⟨name, info, e, _, rfl, hg, hic, rfl, rfl⟩)
            | ok p =>
              obtain ⟨client, tools⟩ := p
              cases hrep : replaceFirstNamed w.heap name w.heap.length w.clients with
              | none => simp [handleServerReconnect, hn, hc, hg, hic, hf, hcl, hrep] at h
              | some clients1 =>
                simp [handleServerReconnect, hn, hc, hg, hic, hf, hcl, hrep] at h
                cases h
                exact Or.inr (Or.inr ⟨name, command, cmd, args, info, client, tools, clients1,
                  rfl, rfl, hg, hic, hf, hcl, hrep, rfl, rfl⟩)

theorem createDynamicProxyHandler_cases (s t : String) (w : DynamicWrapper) (x : Exchange)
    (request : CallToolRequest) (r : Reply)
    (h : createDynamicProxyHandler s t w x request = .ok r) :
    (r.state = w ∧ r.result.IsError = true) ∨
    ∃ info ref client1,
      GoMap.get w.dynamicServers s = some info ∧ info.IsConnected = true ∧
      info.Client = some ref ∧
      (r.state = { w with heap := w.heap.set ref client1 } ∨
        ∃ err, r.result.IsError = true ∧
          r.state = { w with
                      dynamicServers := GoMap.set w.dynamicServers s
                        { info with IsConnected := false, ErrorMessage := err },
                      heap := w.heap.set ref client1 }) := by
  cases hg : GoMap.get w.dynamicServers s with
  | none =>
    simp only [createDynamicProxyHandler, hg] at h
    cases h
    exact Or.inl ⟨rfl, rfl⟩
  | some info =>
    cases hic : info.IsConnected with
    | false =>
      obtain ⟨r2, h2, h3, h4, _⟩ := handler_of_disconnected w s t x request info hg hic
      rw [h] at h2
      cases h2
      exact Or.inl ⟨h3, h4⟩
    | true =>
      cases hcl : info.Client with
      | none => simp [createDynamicProxyHandler, hg, hic, hcl] at h
      | some ref =>
        cases hh : w.heap.get? ref with
        | none =>
          rw [List.get?_eq_getElem?] at hh
          simp [createDynamicProxyHandler, hg, hic, hcl, hh] at h
        | some client =>
          rw [handler_forwards w s t x request info ref client hg hic hcl hh] at h
          rcases hct : client.CallTool x t request.Arguments with ⟨client1, err | result⟩
          · rw [hct] at h
            by_cases he : isConnectionError err = true
            · simp only [he, if_true] at h
              cases h
              exact Or.inr ⟨info, ref, client1, rfl, hic, hcl, Or.inr ⟨err, rfl, rfl⟩⟩
            · simp only [he] at h
              cases h
              exact Or.inr ⟨info, ref, client1, rfl, hic, hcl, Or.inl rfl⟩
          · rw [hct] at h
            cases h
            exact Or.inr ⟨info, ref, client1, rfl, hic, hcl, Or.inl rfl⟩

/-! ## C6: a failed `server_add` persists nothing -/

theorem connectAndList_error_of_step (name cmd : String) (args : List String)
    (world : ConnectWorld)
    (h : ((NewStdioClient name cmd args).Connect world.spawn).2.isSome = true ∨
      (∃ e, (((NewStdioClient name cmd args).Connect world.spawn).1.Initialize world.init).2 =
        .error e) ∨
      (∃ e, ((((NewStdioClient name cmd args).Connect world.spawn).1.Initialize
        world.init).1.ListTools world.list).2 = .error e)) :
    ∃ e, connectAndList name cmd args world = .error e := by
  rcases hc : (NewStdioClient name cmd args).Connect world.spawn with ⟨c1, _ | e1⟩
  · rcases hi : c1.Initialize world.init with ⟨c2, e2 | res⟩
    · exact ⟨"Failed to initialize: " ++ e2, by simp only [connectAndList, hc, hi]⟩
    · rcases hl : c2.ListTools world.list with ⟨c3, e3 | tools⟩
      · exact ⟨"Failed to list tools: " ++ e3, by simp only [connectAndList, hc, hi, hl]⟩
      · rw [hc] at h
        simp only [Option.isSome_none, Bool.false_eq_true, false_or] at h
        rw [hi] at h
        simp only [exists_false, false_or] at h
        rw [hl] at h
        simp at h
  · exact ⟨"Failed to connect: " ++ e1, by simp only [connectAndList, hc]⟩

/-- C6. `server_add(name, command)` with a name already present, with a command that has
no whitespace-delimited token, or whose `Connect`, `Initialize` or `ListTools` step fails
returns an error result and the state of the wrapper is the state before the call: the
server map, the tool registry and the proxy's client list are unchanged. -/
theorem server_add_failure_persists_nothing (w : DynamicWrapper) (world : ConnectWorld)
    (request : CallToolRequest) (name command : String)
    (hn : request.RequireString "name" = some name)
    (hc : request.RequireString "command" = some command)
    (hfail : (GoMap.get w.dynamicServers name).isSome = true ∨ Fields command = [] ∨
      ∃ cmd args, Fields command = cmd :: args ∧
        (((NewStdioClient name cmd args).Connect world.spawn).2.isSome = true ∨
         (∃ e, (((NewStdioClient name cmd args).Connect world.spawn).1.Initialize
            world.init).2 = .error e) ∨
         (∃ e, ((((NewStdioClient name cmd args).Connect world.spawn).1.Initialize
            world.init).1.ListTools world.list).2 = .error e))) :
    ∃ r, handleServerAdd w world request = .ok r ∧ r.result.IsError = true ∧
      r.state = w ∧ r.state.dynamicServers = w.dynamicServers ∧
      r.state.registry = w.registry ∧ r.state.clients = w.clients := by
  cases hg : GoMap.get w.dynamicServers name with
  | some info =>
    refine ⟨⟨w, NewToolResultError ("Server '" ++ name ++ "' already exists"),
      [recRequest "server_add" "proxy" request]⟩, ?_, rfl, rfl, rfl, rfl, rfl⟩
    simp only [handleServerAdd, hn, hc, hg, Option.isSome_some, if_true]
  | none =>
    rw [hg] at hfail
    rcases hfail with hex | hf | ⟨cmd, args, hf, hstep⟩
    · simp at hex
    · refine ⟨⟨w, NewToolResultError "Invalid command",
        [recRequest "server_add" "proxy" request]⟩, ?_, rfl, rfl, rfl, rfl, rfl⟩
      simp only [handleServerAdd, hn, hc, hg, hf, Option.isSome_none, Bool.false_eq_true,
        if_false]
    · obtain ⟨e, he⟩ := connectAndList_error_of_step name cmd args world hstep
      refine ⟨⟨w, NewToolResultError e, [recRequest "server_add" "proxy" request]⟩, ?_,
        rfl, rfl, rfl, rfl, rfl⟩
      simp only [handleServerAdd, hn, hc, hg, hf, he, Option.isSome_none, Bool.false_eq_true,
        if_false]

/-- C6, at a second `server_add` of the name "s", and at a `server_add` whose `ListTools`
gets no answer: both return an error and leave the state as it was. -/
theorem server_add_failure_persists_nothing_witness :
    run NewDynamicWrapper [addS] = some (afterOps [addS]) ∧
    (∃ r, handleServerAdd (afterOps [addS]) (serverWorld [])
        (commandRequest "server_add" "s" "bin/v2") = .ok r ∧
      r.result.IsError = true ∧ r.state = afterOps [addS]) ∧
    (∃ r, handleServerAdd (afterOps [addS]) silentListWorld
        (commandRequest "server_add" "m" "bin/m --flag") = .ok r ∧
      r.result.IsError = true ∧ r.state = afterOps [addS]) := by
  refine ⟨by decide, ?_, ?_⟩
  · obtain ⟨r, h1, h2, h3, _⟩ :=
      server_add_failure_persists_nothing (afterOps [addS]) (serverWorld [])
        (commandRequest "server_add" "s" "bin/v2") "s" "bin/v2" (by decide) (by decide)
        (Or.inl (by decide))
    exact ⟨r, h1, h2, h3⟩
  · obtain ⟨r, h1, h2, h3, _⟩ :=
      server_add_failure_persists_nothing (afterOps [addS]) silentListWorld
        (commandRequest "server_add" "m" "bin/m --flag") "m" "bin/m --flag" (by decide)
        (by decide)
        (Or.inr (Or.inr ⟨"bin/m", ["--flag"], by decide, Or.inr (Or.inr
          ⟨"tools/list request failed: request timeout: context deadline exceeded",
            by decide⟩)⟩))
    exact ⟨r, h1, h2, h3⟩

/-! ## C4: `server_remove` -/

theorem handler_of_missing (w : DynamicWrapper) (s t : String) (x : Exchange)
    (req : CallToolRequest) (hget : GoMap.get w.dynamicServers s = none) :
    createDynamicProxyHandler s t w x req =
      .ok ⟨w, NewToolResultError ("Server '" ++ s ++ "' not found"),
        [recRequest (s ++ "_" ++ t) s req,
         recResponse (s ++ "_" ++ t) s (NewToolResultError ("Server '" ++ s ++ "' not found"))]⟩ := by
  simp only [createDynamicProxyHandler, hget]
  rfl

/-- C4 (amended). After `server_remove(name)` succeeds the entry is absent from the server
map (the other entries are untouched) and its client is gone from the proxy's client
list, but the tool registry and the upstream tool table are exactly as before: every
binding with server name `name` stays registered, and a call dispatched through one of
them returns the error "Server '<name>' not found" and changes nothing. -/
theorem server_remove_keeps_registry (w : DynamicWrapper) (world : CloseWorld)
    (request : CallToolRequest) (name : String) (r : Reply)
    (hn : request.RequireString "name" = some name)
    (hok : handleServerRemove w world request = .ok r) (hsucc : r.result.IsError = false) :
    GoMap.get r.state.dynamicServers name = none ∧
    (∀ other, other ≠ name →
      GoMap.get r.state.dynamicServers other = GoMap.get w.dynamicServers other) ∧
    (∃ info ref, GoMap.get w.dynamicServers name = some info ∧ info.Client = some ref ∧
      ref ∉ r.state.clients) ∧
    r.state.registry = w.registry ∧ r.state.baseTools = w.baseTools ∧
    (∀ p, r.state.registry.GetTool p = w.registry.GetTool p) ∧
    r.state.registry.GetAllTools = w.registry.GetAllTools ∧
    ∀ (t : String) (x : Exchange) (req : CallToolRequest),
      ∃ r2, createDynamicProxyHandler name t r.state x req = .ok r2 ∧ r2.state = r.state ∧
        r2.result = NewToolResultError ("Server '" ++ name ++ "' not found") := by
  rcases handleServerRemove_cases w world request r hok with ⟨_, herr⟩ |
    ⟨name1, info, ref, heap1, hn1, hg, hcl, _, _, _, hst⟩
  · rw [herr] at hsucc
    cases hsucc
  · rw [hn] at hn1
    cases hn1
    have hnone : GoMap.get r.state.dynamicServers name = none := by
      rw [hst]
      simp [GoMap.get_delete]
    refine ⟨hnone, ?_, ⟨info, ref, hg, hcl, ?_⟩, ?_, ?_, ?_, ?_, ?_⟩
    · intro other hne
      rw [hst]
      simp [GoMap.get_delete, Ne.symm hne]
    · rw [hst]
      simp [List.mem_filter]
    · rw [hst]
    · rw [hst]
    · intro p
      rw [hst]
    · rw [hst]
    · intro t x req
      exact ⟨_, handler_of_missing r.state name t x req hnone, rfl, rfl⟩

/-- C4 (amended), at `server_remove("s")` after `server_add("s")`. -/
theorem server_remove_keeps_registry_witness :
    run NewDynamicWrapper [addS] = some (afterOps [addS]) ∧
    GoMap.get (afterOps [addS, removeS]).dynamicServers "s" = none ∧
    (afterOps [addS, removeS]).registry = (afterOps [addS]).registry ∧
    (afterOps [addS, removeS]).baseTools = (afterOps [addS]).baseTools := by
  have h := server_remove_keeps_registry (afterOps [addS]) {} (nameRequest "server_remove" "s")
    "s" ⟨afterOps [addS, removeS],
      NewToolResultText "Removed server 's'. Note: 2 tools remain registered but are now unavailable.",
      []⟩ (by decide) (by decide) rfl
  exact ⟨by decide, h.1, h.2.2.2.1, h.2.2.2.2.1⟩

/-- C4 as stated fails: after `server_add("s")` (tools `hi` and `bye`) and a successful
`server_remove("s")`, the entry is gone from the server map, yet `GetTool` and
`GetAllTools` still return the two tools with `ServerName` "s", which now have no server
entry. -/
theorem server_remove_counterexample :
    run NewDynamicWrapper [addS, removeS] = some (afterOps [addS, removeS]) ∧
    step (afterOps [addS]) removeS =
      .ok ⟨afterOps [addS, removeS],
        NewToolResultText
          "Removed server 's'. Note: 2 tools remain registered but are now unavailable.",
        []⟩ ∧
    GoMap.get (afterOps [addS, removeS]).dynamicServers "s" = none ∧
    ((afterOps [addS, removeS]).registry.GetTool "s_hi").map
      (fun t => (t.ServerName, t.OriginalName)) = some ("s", "hi") ∧
    (afterOps [addS, removeS]).registry.GetAllTools.map
      (fun t => (t.PrefixedName, t.ServerName)) = [("s_hi", "s"), ("s_bye", "s")] := by
  decide

/-! ## C3: `server_disconnect` -/

theorem Disconnected_step (name : String) (tools : List String) (w : DynamicWrapper) (op : Op)
    (r : Reply) (hJ : Disconnected name tools w)
    (hno : isSuccessfulReconnect name w op = false) (h : step w op = .ok r) :
    Disconnected name tools r.state := by
  obtain ⟨e, hge, hdis, hcl, htools⟩ := hJ
  cases op with
  | add world request =>
    rcases handleServerAdd_cases w world request r h with ⟨hst, _⟩ |
      ⟨name1, _, cmd, args, client, tls, _, _, hnone, _, _, _, hst⟩
    · rw [hst]
      exact ⟨e, hge, hdis, hcl, htools⟩
    · have hne : name1 ≠ name := by
        intro heq
        rw [heq, hge] at hnone
        cases hnone
      refine ⟨e, ?_, hdis, hcl, htools⟩
      rw [hst]
      simp only [addedState]
      rw [GoMap.get_set_other _ _ _ _ hne]
      exact hge
  | remove world request =>
    rcases handleServerRemove_cases w world request r h with ⟨hst, _⟩ |
      ⟨name1, info, ref, heap1, _, hg, hc1, _, _, _, hst⟩
    · rw [hst]
      exact ⟨e, hge, hdis, hcl, htools⟩
    · have hne : name1 ≠ name := by
        intro heq
        rw [heq, hge] at hg
        cases hg
        rw [hcl] at hc1
        cases hc1
      refine ⟨e, ?_, hdis, hcl, htools⟩
      rw [hst]
      simp [GoMap.get_delete, hne, hge]
  | disconnect world request =>
    rcases handleServerDisconnect_cases w world request r h with ⟨hst, _⟩ |
      ⟨_, _, _, _, _, hst, _⟩ | ⟨name1, info, heap1, _, hg, hic, _, hst⟩
    · rw [hst]
      exact ⟨e, hge, hdis, hcl, htools⟩
    · rw [hst]
      exact ⟨e, hge, hdis, hcl, htools⟩
    · have hne : name1 ≠ name := by
        intro heq
        rw [heq, hge] at hg
        cases hg
        rw [hdis] at hic
        cases hic
      refine ⟨e, ?_, hdis, hcl, htools⟩
      rw [hst]
      simp only
      rw [GoMap.get_set_other _ _ _ _ hne]
      exact hge
  | reconnect world request =>
    rcases handleServerReconnect_cases w world request r h with ⟨hst, _⟩ |
      ⟨name1, info, err, cfg, _, hg, _, _, hst⟩ |
      ⟨name1, _, cmd, args, info, client, tls, clients1, hn1, _, hg, _, _, _, _, hsucc, hst⟩
    · rw [hst]
      exact ⟨e, hge, hdis, hcl, htools⟩
    · by_cases heq : name1 = name
      · rw [heq, hge] at hg
        cases hg
        refine ⟨{ e with IsConnected := false, ErrorMessage := err, Config := cfg }, ?_, rfl,
          hcl, htools⟩
        rw [hst, heq]
        exact GoMap.get_set_same _ _ _
      · refine ⟨e, ?_, hdis, hcl, htools⟩
        rw [hst]
        simp only
        rw [GoMap.get_set_other _ _ _ _ heq]
        exact hge
    · have hne : name1 ≠ name := by
        intro heq
        rw [heq] at hn1
        simp [isSuccessfulReconnect, hn1, step] at hno h
        rw [h] at hno
        simp [hsucc] at hno
      refine ⟨e, ?_, hdis, hcl, htools⟩
      rw [hst]
      simp only [reconnectedState]
      rw [GoMap.get_set_other _ _ _ _ hne]
      exact hge
  | call s t x request =>
    rcases createDynamicProxyHandler_cases s t w x request r h with ⟨hst, _⟩ |
      ⟨info, ref, client1, hg, hic, _, hst | ⟨err, _, hst⟩⟩
    · rw [hst]
      exact ⟨e, hge, hdis, hcl, htools⟩
    · rw [hst]
      exact ⟨e, hge, hdis, hcl, htools⟩
    · have hne : s ≠ name := by
        intro heq
        rw [heq, hge] at hg
        cases hg
        rw [hdis] at hic
        cases hic
      refine ⟨e, ?_, hdis, hcl, htools⟩
      rw [hst]
      simp only
      rw [GoMap.get_set_other _ _ _ _ hne]
      exact hge

theorem Disconnected_run (name : String) (tools : List String) (ops : List Op) :
    ∀ w w2 : DynamicWrapper, Disconnected name tools w → noReconnect name w ops = true →
      run w ops = some w2 → Disconnected name tools w2 := by
  induction ops with
  | nil =>
    intro w w2 hJ _ hrun
    simp only [run, Option.some.injEq] at hrun
    rw [← hrun]
    exact hJ
  | cons op ops ih =>
    intro w w2 hJ hno hrun
    simp only [noReconnect, Bool.and_eq_true, Bool.not_eq_true'] at hno
    cases hs : step w op with
    | panicked p =>
      simp [run, hs] at hrun
    | ok r =>
      simp only [run, hs] at hrun
      have hno2 := hno.2
      simp only [hs] at hno2
      exact ih r.state w2 (Disconnected_step name tools w op r hJ hno.1 hs) hno2 hrun

theorem MarkedWith_step (name : String) (tools : List String) (w : DynamicWrapper) (op : Op)
    (r : Reply) (hJ : MarkedWith name tools w)
    (hno : isSuccessfulReconnect name w op = false)
    (hrm : isSuccessfulRemove name w op = false) (h : step w op = .ok r) :
    MarkedWith name tools r.state := by
  obtain ⟨e, hge, hdis, htools⟩ := hJ
  cases op with
  | add world request =>
    rcases handleServerAdd_cases w world request r h with ⟨hst, _⟩ |
      ⟨name1, _, cmd, args, client, tls, _, _, hnone, _, _, _, hst⟩
    · rw [hst]
      exact ⟨e, hge, hdis, htools⟩
    · have hne : name1 ≠ name := by
        intro heq
        rw [heq, hge] at hnone
        cases hnone
      refine ⟨e, ?_, hdis, htools⟩
      rw [hst]
      simp only [addedState]
      rw [GoMap.get_set_other _ _ _ _ hne]
      exact hge
  | remove world request =>
    rcases handleServerRemove_cases w world request r h with ⟨hst, _⟩ |
      ⟨name1, info, ref, heap1, hn1, hg, hc1, _, _, hsucc, hst⟩
    · rw [hst]
      exact ⟨e, hge, hdis, htools⟩
    · have hne : name1 ≠ name := by
        intro heq
        rw [heq] at hn1
        simp [isSuccessfulRemove, hn1, step] at hrm h
        rw [h] at hrm
        simp [hsucc] at hrm
      refine ⟨e, ?_, hdis, htools⟩
      rw [hst]
      simp [GoMap.get_delete, hne, hge]
  | disconnect world request =>
    rcases handleServerDisconnect_cases w world request r h with ⟨hst, _⟩ |
      ⟨_, _, _, _, _, hst, _⟩ | ⟨name1, info, heap1, _, hg, hic, _, hst⟩
    · rw [hst]
      exact ⟨e, hge, hdis, htools⟩
    · rw [hst]
      exact ⟨e, hge, hdis, htools⟩
    · have hne : name1 ≠ name := by
        intro heq
        rw [heq, hge] at hg
        cases hg
        rw [hdis] at hic
        cases hic
      refine ⟨e, ?_, hdis, htools⟩
      rw [hst]
      simp only
      rw [GoMap.get_set_other _ _ _ _ hne]
      exact hge
  | reconnect world request =>
    rcases handleServerReconnect_cases w world request r h with ⟨hst, _⟩ |
      ⟨name1, info, err, cfg, _, hg, _, _, hst⟩ |
      ⟨name1, _, cmd, args, info, client, tls, clients1, hn1, _, hg, _, _, _, _, hsucc, hst⟩
    · rw [hst]
      exact ⟨e, hge, hdis, htools⟩
    · by_cases heq : name1 = name
      · rw [heq, hge] at hg
        cases hg
        refine ⟨{ e with IsConnected := false, ErrorMessage := err, Config := cfg }, ?_, rfl,
          htools⟩
        rw [hst, heq]
        exact GoMap.get_set_same _ _ _
      · refine ⟨e, ?_, hdis, htools⟩
        rw [hst]
        simp only
        rw [GoMap.get_set_other _ _ _ _ heq]
        exact hge
    · have hne : name1 ≠ name := by
        intro heq
        rw [heq] at hn1
        simp [isSuccessfulReconnect, hn1, step] at hno h
        rw [h] at hno
        simp [hsucc] at hno
      refine ⟨e, ?_, hdis, htools⟩
      rw [hst]
      simp only [reconnectedState]
      rw [GoMap.get_set_other _ _ _ _ hne]
      exact hge
  | call s t x request =>
    rcases createDynamicProxyHandler_cases s t w x request r h with ⟨hst, _⟩ |
      ⟨info, ref, client1, hg, hic, _, hst | ⟨err, _, hst⟩⟩
    · rw [hst]
      exact ⟨e, hge, hdis, htools⟩
    · rw [hst]
      exact ⟨e, hge, hdis, htools⟩
    · have hne : s ≠ name := by
        intro heq
        rw [heq, hge] at hg
        cases hg
        rw [hdis] at hic
        cases hic
      refine ⟨e, ?_, hdis, htools⟩
      rw [hst]
      simp only
      rw [GoMap.get_set_other _ _ _ _ hne]
      exact hge

theorem MarkedWith_run (name : String) (tools : List String) (ops : List Op) :
    ∀ w w2 : DynamicWrapper, MarkedWith name tools w → keepsEntry name w ops = true →
      run w ops = some w2 → MarkedWith name tools w2 := by
  induction ops with
  | nil =>
    intro w w2 hJ _ hrun
    simp only [run, Option.some.injEq] at hrun
    rw [← hrun]
    exact hJ
  | cons op ops ih =>
    intro w w2 hJ hno hrun
    simp only [keepsEntry, Bool.and_eq_true, Bool.not_eq_true'] at hno
    cases hs : step w op with
    | panicked p =>
      simp [run, hs] at hrun
    | ok r =>
      simp only [run, hs] at hrun
      have hno2 := hno.2
      simp only [hs] at hno2
      exact ih r.state w2 (MarkedWith_step name tools w op r hJ hno.1.1 hno.1.2 hs) hno2 hrun

theorem MarkedWith_calls (name : String) (tools : List String) (w2 : DynamicWrapper)
    (hJ : MarkedWith name tools w2) :
    (GoMap.get w2.dynamicServers name).map (fun e => e.Tools) = some tools ∧
    ∀ (t : String) (x : Exchange) (req : CallToolRequest),
      ∃ r2, createDynamicProxyHandler name t w2 x req = .ok r2 ∧ r2.state = w2 ∧
        r2.result.IsError = true ∧ Contains r2.result.Text "server_reconnect" = true := by
  obtain ⟨e, he, hdis, ht⟩ := hJ
  refine ⟨by rw [he]; simp [ht], ?_⟩
  intro t x req
  exact handler_of_disconnected w2 name t x req e he hdis

/-- After `server_disconnect(name)` of a connected entry returns, its result is not an
error, the tool registry and the upstream tool table are unchanged and the entry's
registered-tools list is the same as before. In every state reached from there by
management operations and forwarded calls of which none is a successful
`server_reconnect(name)`, the entry still has that list, and every call dispatched
through a handler of the entry returns an error result whose message contains
"server_reconnect", without changing the state. -/
theorem disconnect_of_connected (w : DynamicWrapper) (world : CloseWorld)
    (request : CallToolRequest) (name : String) (info : DynamicServerInfo) (r : Reply)
    (hn : request.RequireString "name" = some name)
    (hget : GoMap.get w.dynamicServers name = some info) (hconn : info.IsConnected = true)
    (hok : handleServerDisconnect w world request = .ok r) :
    r.result.IsError = false ∧
    r.state.registry = w.registry ∧ r.state.baseTools = w.baseTools ∧
    (GoMap.get r.state.dynamicServers name).map (fun e => e.Tools) = some info.Tools ∧
    ∀ (ops : List Op) (w2 : DynamicWrapper),
      noReconnect name r.state ops = true → run r.state ops = some w2 →
      (GoMap.get w2.dynamicServers name).map (fun e => e.Tools) = some info.Tools ∧
      ∀ (t : String) (x : Exchange) (req : CallToolRequest),
        ∃ r2, createDynamicProxyHandler name t w2 x req = .ok r2 ∧ r2.state = w2 ∧
          r2.result.IsError = true ∧ Contains r2.result.Text "server_reconnect" = true := by
  rcases handleServerDisconnect_cases w world request r hok with ⟨hst, herr⟩ |
    ⟨name1, info1, hn1, hg1, hic1, _, _⟩ | ⟨name1, info1, heap1, hn1, hg1, _, hsucc, hst⟩
  · exfalso
    simp only [handleServerDisconnect, hn, hget, hconn, Bool.not_true, Bool.false_eq_true,
      if_false] at hok
    split at hok
    · cases hok
    · cases hok
      cases herr
  · rw [hn] at hn1
    cases hn1
    rw [hget] at hg1
    cases hg1
    rw [hconn] at hic1
    cases hic1
  · rw [hn] at hn1
    cases hn1
    rw [hget] at hg1
    cases hg1
    have hJ : Disconnected name info.Tools r.state := by
      refine ⟨{ info with
                IsConnected := false, ErrorMessage := "Server disconnected by user",
                Client := none }, ?_, rfl, rfl, rfl⟩
      rw [hst]
      exact GoMap.get_set_same _ _ _
    refine ⟨hsucc, by rw [hst], by rw [hst], ?_, ?_⟩
    · obtain ⟨e, he, _, _, ht⟩ := hJ
      rw [he]
      simp [ht]
    · intro ops w2 hno hrun
      obtain ⟨e, he, hdis, _, ht⟩ := Disconnected_run name info.Tools ops r.state w2 hJ hno hrun
      refine ⟨by rw [he]; simp [ht], ?_⟩
      intro t x req
      exact handler_of_disconnected w2 name t x req e he hdis

/-- C3 (amended). After `server_disconnect(name)` succeeds, on an entry that was connected
or on one already marked disconnected, the tool registry and the upstream tool table are
unchanged, the entry's registered-tools list is the same as before and the entry is marked
disconnected. In every state reached from there by management operations and forwarded
calls of which none is a successful `server_reconnect(name)` or a successful
`server_remove(name)`, the entry still has that list, and every call dispatched through a
handler of the entry returns an error result whose message contains "server_reconnect",
without changing the state. When the entry was connected, the same holds over the
sequences without a successful `server_reconnect(name)` that do not panic. -/
theorem disconnect_retains_bindings (w : DynamicWrapper) (world : CloseWorld)
    (request : CallToolRequest) (name : String) (r : Reply)
    (hn : request.RequireString "name" = some name)
    (hok : handleServerDisconnect w world request = .ok r)
    (hsucc : r.result.IsError = false) :
    ∃ info, GoMap.get w.dynamicServers name = some info ∧
      r.state.registry = w.registry ∧ r.state.baseTools = w.baseTools ∧
      (GoMap.get r.state.dynamicServers name).map (fun e => (e.Tools, e.IsConnected)) =
        some (info.Tools, false) ∧
      (∀ (ops : List Op) (w2 : DynamicWrapper),
        keepsEntry name r.state ops = true → run r.state ops = some w2 →
        (GoMap.get w2.dynamicServers name).map (fun e => e.Tools) = some info.Tools ∧
        ∀ (t : String) (x : Exchange) (req : CallToolRequest),
          ∃ r2, createDynamicProxyHandler name t w2 x req = .ok r2 ∧ r2.state = w2 ∧
            r2.result.IsError = true ∧
            Contains r2.result.Text "server_reconnect" = true) ∧
      (info.IsConnected = true →
        ∀ (ops : List Op) (w2 : DynamicWrapper),
          noReconnect name r.state ops = true → run r.state ops = some w2 →
          (GoMap.get w2.dynamicServers name).map (fun e => e.Tools) = some info.Tools ∧
          ∀ (t : String) (x : Exchange) (req : CallToolRequest),
            ∃ r2, createDynamicProxyHandler name t w2 x req = .ok r2 ∧ r2.state = w2 ∧
              r2.result.IsError = true ∧
              Contains r2.result.Text "server_reconnect" = true) := by
  rcases handleServerDisconnect_cases w world request r hok with ⟨_, herr⟩ |
    ⟨name1, info1, hn1, hg1, hic1, hst, _⟩ | ⟨name1, info1, heap1, hn1, hg1, hic1, _, hst⟩
  · rw [hsucc] at herr
    cases herr
  · rw [hn] at hn1
    cases hn1
    have hJ : MarkedWith name info1.Tools r.state := ⟨info1, by rw [hst]; exact hg1, hic1, rfl⟩
    refine ⟨info1, hg1, by rw [hst], by rw [hst], ?_, ?_, ?_⟩
    · rw [hst, hg1]
      simp [hic1]
    · intro ops w2 hk hrun
      exact MarkedWith_calls name info1.Tools w2
        (MarkedWith_run name info1.Tools ops r.state w2 hJ hk hrun)
    · intro hconn
      rw [hic1] at hconn
      cases hconn
  · rw [hn] at hn1
    cases hn1
    have hg2 : GoMap.get r.state.dynamicServers name =
        some { info1 with
          IsConnected := false, ErrorMessage := "Server disconnected by user",
          Client := none } := by
      rw [hst]
      exact GoMap.get_set_same _ _ _
    have hJ : MarkedWith name info1.Tools r.state := ⟨_, hg2, rfl, rfl⟩
    refine ⟨info1, hg1, by rw [hst], by rw [hst], ?_, ?_, ?_⟩
    · rw [hg2]
      rfl
    · intro ops w2 hk hrun
      exact MarkedWith_calls name info1.Tools w2
        (MarkedWith_run name info1.Tools ops r.state w2 hJ hk hrun)
    · intro hconn
      exact (disconnect_of_connected w world request name info1 r hn hg1 hconn hok).2.2.2.2

/-- C3 (amended), at `server_disconnect("s")` of the entry "s" that a failed call has
marked disconnected, followed by a failed `server_reconnect("s")` and a
`server_add("m")`: a call of `s_hi` returns the `server_reconnect` error. -/
theorem disconnect_retains_bindings_witness :
    step (afterOps [addS, callHi exchangeEOF]) disconnectS =
      .ok ⟨afterOps [addS, callHi exchangeEOF],
        NewToolResultText "Server 's' is already disconnected", []⟩ ∧
    run (afterOps [addS, callHi exchangeEOF]) [reconnectFails, addM] =
      some (afterOps [addS, callHi exchangeEOF, reconnectFails, addM]) ∧
    (GoMap.get (afterOps [addS, callHi exchangeEOF, reconnectFails, addM]).dynamicServers
      "s").map (fun e => e.Tools) = some ["s_hi", "s_bye"] ∧
    ∃ r2, createDynamicProxyHandler "s" "hi"
        (afterOps [addS, callHi exchangeEOF, reconnectFails, addM])
        { reader := .doc (textAnswer 4 "v1") } { Name := "s_hi" } = .ok r2 ∧
      r2.state = afterOps [addS, callHi exchangeEOF, reconnectFails, addM] ∧
      r2.result.IsError = true ∧ Contains r2.result.Text "server_reconnect" = true := by
  obtain ⟨info, hg, _, _, _, hgen, _⟩ :=
    disconnect_retains_bindings (afterOps [addS, callHi exchangeEOF]) {}
      (nameRequest "server_disconnect" "s") "s"
      ⟨afterOps [addS, callHi exchangeEOF],
        NewToolResultText "Server 's' is already disconnected", []⟩
      (by decide) (by decide) rfl
  have ht : (GoMap.get (afterOps [addS, callHi exchangeEOF]).dynamicServers "s").map
      (fun e => e.Tools) = some ["s_hi", "s_bye"] := by decide
  rw [hg] at ht
  simp only [Option.map_some', Option.some.injEq] at ht
  have h := hgen [reconnectFails, addM]
    (afterOps [addS, callHi exchangeEOF, reconnectFails, addM]) (by decide) (by decide)
  rw [ht] at h
  exact ⟨by decide, by decide, h.1, h.2 "hi" { reader := .doc (textAnswer 4 "v1") }
    { Name := "s_hi" }⟩

/-- C3 as stated fails. A call of `s_hi` that meets the end of the child's stdout marks
the entry "s" disconnected and leaves it its client; `server_disconnect("s")` then
succeeds with "Server 's' is already disconnected"; `server_remove("s")`, which is no
reconnect, succeeds and deletes the entry; the binding "s_hi" is still registered, and a
call dispatched through it returns "Server 's' not found", which does not contain
"server_reconnect". -/
theorem disconnect_then_remove_counterexample :
    step (afterOps [addS, callHi exchangeEOF]) disconnectS =
      .ok ⟨afterOps [addS, callHi exchangeEOF],
        NewToolResultText "Server 's' is already disconnected", []⟩ ∧
    (NewToolResultText "Server 's' is already disconnected").IsError = false ∧
    noReconnect "s" (afterOps [addS, callHi exchangeEOF, disconnectS]) [removeS] = true ∧
    run NewDynamicWrapper [addS, callHi exchangeEOF, disconnectS, removeS] =
      some (afterOps [addS, callHi exchangeEOF, disconnectS, removeS]) ∧
    ((afterOps [addS, callHi exchangeEOF, disconnectS, removeS]).registry.GetTool
      "s_hi").isSome = true ∧
    (match createDynamicProxyHandler "s" "hi"
        (afterOps [addS, callHi exchangeEOF, disconnectS, removeS])
        { reader := .doc (textAnswer 4 "v1") } { Name := "s_hi" } with
      | .ok r => some r.result
      | .panicked _ => none) = some (NewToolResultError "Server 's' not found") ∧
    Contains "Server 's' not found" "server_reconnect" = false := by
  decide

/-! ## C5: prefixed names in reachable states -/

theorem GoMap.mem_set {α : Type} (m : List (String × α)) (k : String) (v : α)
    (kv : String × α) (h : kv ∈ GoMap.set m k v) : kv = (k, v) ∨ kv ∈ m := by
  induction m with
  | nil =>
    simp only [GoMap.set, List.mem_singleton] at h
    exact Or.inl h
  | cons x m ih =>
    obtain ⟨k1, v1⟩ := x
    by_cases h1 : k1 = k
    · subst h1
      simp only [GoMap.set, if_true, List.mem_cons] at h
      rcases h with h | h
      · exact Or.inl h
      · exact Or.inr (List.mem_cons_of_mem _ h)
    · simp only [GoMap.set, h1, if_false, List.mem_cons] at h
      rcases h with h | h
      · exact Or.inr (by rw [h]; exact List.mem_cons_self _ _)
      · rcases ih h with h2 | h2
        · exact Or.inl h2
        · exact Or.inr (List.mem_cons_of_mem _ h2)

theorem GoMap.keys_set {α : Type} (m : List (String × α)) (k : String) (v : α) :
    (GoMap.set m k v).map Prod.fst =
      if k ∈ m.map Prod.fst then m.map Prod.fst else m.map Prod.fst ++ [k] := by
  induction m with
  | nil => simp [GoMap.set]
  | cons x m ih =>
    obtain ⟨k1, v1⟩ := x
    by_cases h1 : k1 = k
    · subst h1
      simp [GoMap.set]
    · have h2 : ¬ k = k1 := fun h => h1 h.symm
      simp only [GoMap.set, h1, if_false, List.map_cons, ih, List.mem_cons, h2, false_or]
      split <;> simp

theorem GoMap.nodup_set {α : Type} (m : List (String × α)) (k : String) (v : α)
    (h : (m.map Prod.fst).Nodup) : ((GoMap.set m k v).map Prod.fst).Nodup := by
  rw [GoMap.keys_set]
  split
  · exact h
  · next hk =>
    rw [List.nodup_append]
    refine ⟨h, List.nodup_singleton _, ?_⟩
    intro a ha hb
    simp only [List.mem_singleton] at hb
    rw [hb] at ha
    exact hk ha

theorem GoMap.mem_of_get {α : Type} (m : List (String × α)) (k : String) (v : α)
    (h : GoMap.get m k = some v) : (k, v) ∈ m := by
  induction m with
  | nil => simp [GoMap.get] at h
  | cons x m ih =>
    obtain ⟨k1, v1⟩ := x
    by_cases h1 : k1 = k
    · subst h1
      simp only [GoMap.get, if_true, Option.some.injEq] at h
      rw [h]
      exact List.mem_cons_self _ _
    · simp only [GoMap.get, h1, if_false] at h
      exact List.mem_cons_of_mem _ (ih h)

theorem GoMap.get_of_mem {α : Type} (m : List (String × α)) (k : String) (v : α)
    (hnd : (m.map Prod.fst).Nodup) (h : (k, v) ∈ m) : GoMap.get m k = some v := by
  induction m with
  | nil => simp at h
  | cons x m ih =>
    obtain ⟨k1, v1⟩ := x
    simp only [List.map_cons, List.nodup_cons, List.mem_map, Prod.exists, exists_and_right,
      exists_eq_right, not_exists] at hnd
    simp only [List.mem_cons, Prod.mk.injEq] at h
    rcases h with ⟨hk, hv⟩ | h
    · simp [GoMap.get, hk, hv]
    · have hne : k1 ≠ k := by
        intro heq
        rw [heq] at hnd
        exact hnd.1 v h
      simp only [GoMap.get, hne, if_false]
      exact ih hnd.2 h

theorem RegOK_register {servers : List ServerConfig}
    (r : ToolRegistry) (tool : RemoteTool) (c : ClientRef) (h : RegOK servers r)
    (hw : tool.PrefixedName = tool.ServerName ++ "_" ++ tool.OriginalName ∨
      (tool.PrefixedName = tool.ServerPrefix ++ "_" ++ tool.OriginalName ∧
        ∃ sc ∈ servers, sc.Name = tool.ServerName ∧ sc.Prefix = tool.ServerPrefix)) :
    RegOK servers (r.RegisterTool tool c) := by
  refine ⟨GoMap.nodup_set _ _ _ h.1, ?_⟩
  intro k t hmem
  rcases GoMap.mem_set _ _ _ _ hmem with heq | hold
  · cases heq
    exact ⟨rfl, hw⟩
  · exact h.2 k t hold

theorem bound_register (r : ToolRegistry) (tool : RemoteTool) (c : ClientRef) (p : String)
    (h : (GoMap.get r.tools p).isSome = true) :
    (GoMap.get (r.RegisterTool tool c).tools p).isSome = true := by
  simp only [ToolRegistry.RegisterTool, GoMap.get_set]
  split
  · rfl
  · exact h

theorem registerOne_fold {servers : List ServerConfig}
    (name : String) (c : ClientRef) (r0 : ToolRegistry)
    (tools : List ToolInfo) :
    ∀ acc : ToolRegistry × List (String × McpTool × Handler) × List String,
      RegOK servers acc.1 →
      (∀ p, (GoMap.get r0.tools p).isSome = true → (GoMap.get acc.1.tools p).isSome = true) →
      (∀ p ∈ acc.2.2,
        (∃ orig, p = name ++ "_" ++ orig) ∧ (GoMap.get acc.1.tools p).isSome = true) →
      RegOK servers (tools.foldl (registerOne name c) acc).1 ∧
      (∀ p, (GoMap.get r0.tools p).isSome = true →
        (GoMap.get (tools.foldl (registerOne name c) acc).1.tools p).isSome = true) ∧
      (∀ p ∈ (tools.foldl (registerOne name c) acc).2.2,
        (∃ orig, p = name ++ "_" ++ orig) ∧
          (GoMap.get (tools.foldl (registerOne name c) acc).1.tools p).isSome = true) := by
  induction tools with
  | nil =>
    intro acc h1 h2 h3
    exact ⟨h1, h2, h3⟩
  | cons tool tools ih =>
    intro acc h1 h2 h3
    simp only [List.foldl_cons]
    apply ih
    · exact RegOK_register _ _ _ h1 (Or.inl rfl)
    · intro p hp
      exact bound_register _ _ _ _ (h2 p hp)
    · intro p hp
      simp only [registerOne, List.mem_append, List.mem_singleton] at hp
      rcases hp with hp | hp
      · exact ⟨(h3 p hp).1, bound_register _ _ _ _ (h3 p hp).2⟩
      · refine ⟨⟨tool.Name, hp⟩, ?_⟩
        rw [hp]
        simp [registerOne, ToolRegistry.RegisterTool, GoMap.get_set]

theorem reregisterOne_fold {servers : List ServerConfig}
    (name : String) (registered : List String) (c : ClientRef)
    (r0 : ToolRegistry) (tools : List ToolInfo) :
    ∀ r : ToolRegistry, RegOK servers r →
      (∀ p, (GoMap.get r0.tools p).isSome = true → (GoMap.get r.tools p).isSome = true) →
      RegOK servers (tools.foldl (reregisterOne name registered c) r) ∧
      (∀ p, (GoMap.get r0.tools p).isSome = true →
        (GoMap.get (tools.foldl (reregisterOne name registered c) r).tools p).isSome = true) := by
  induction tools with
  | nil =>
    intro r h1 h2
    exact ⟨h1, h2⟩
  | cons tool tools ih =>
    intro r h1 h2
    simp only [List.foldl_cons]
    apply ih
    · unfold reregisterOne
      simp only
      split
      · exact RegOK_register _ _ _ h1 (Or.inl rfl)
      · exact h1
    · intro p hp
      unfold reregisterOne
      simp only
      split
      · exact bound_register _ _ _ _ (h2 p hp)
      · exact h2 p hp

theorem RegistryInv_of_same {servers : List ServerConfig}
    (w w1 : DynamicWrapper) (h : RegistryInv servers w)
    (hreg : w1.registry = w.registry) (hds : w1.dynamicServers = w.dynamicServers) :
    RegistryInv servers w1 := by
  unfold RegistryInv
  rw [hreg, hds]
  exact h

theorem RegistryInv_of_update {servers : List ServerConfig} (w w1 : DynamicWrapper) (name : String)
    (info info1 : DynamicServerInfo) (h : RegistryInv servers w)
    (hg : GoMap.get w.dynamicServers name = some info)
    (hreg : w1.registry = w.registry)
    (hds : w1.dynamicServers = GoMap.set w.dynamicServers name info1)
    (ht : info1.Tools = info.Tools) :
    RegistryInv servers w1 := by
  refine ⟨by rw [hreg]; exact h.1, ?_⟩
  intro n e hge p hp
  rw [hreg]
  rw [hds, GoMap.get_set] at hge
  by_cases hn : name = n
  · subst hn
    simp only [if_true, Option.some.injEq] at hge
    rw [← hge, ht] at hp
    exact h.2 name info hg p hp
  · simp only [hn, if_false] at hge
    exact h.2 n e hge p hp

theorem RegistryInv_step {servers : List ServerConfig}
    (w : DynamicWrapper) (op : Op) (r : Reply) (hI : RegistryInv servers w)
    (h : step w op = .ok r) : RegistryInv servers r.state := by
  cases op with
  | add world request =>
    rcases handleServerAdd_cases w world request r h with ⟨hst, _⟩ |
      ⟨name1, _, cmd, args, client, tls, _, _, _, _, _, _, hst⟩
    · rw [hst]
      exact hI
    · obtain ⟨f1, f2, f3⟩ := registerOne_fold name1 w.heap.length w.registry tls
        (w.registry, w.baseTools, []) hI.1 (fun _ hp => hp) (by simp)
      rw [hst]
      refine ⟨f1, ?_⟩
      intro n e hge p hp
      simp only [addedState, GoMap.get_set] at hge
      by_cases hn : name1 = n
      · subst hn
        simp only [if_true, Option.some.injEq] at hge
        rw [← hge] at hp
        exact f3 p hp
      · simp only [hn, if_false] at hge
        exact ⟨(hI.2 n e hge p hp).1, f2 p (hI.2 n e hge p hp).2⟩
  | remove world request =>
    rcases handleServerRemove_cases w world request r h with ⟨hst, _⟩ |
      ⟨name1, info, ref, heap1, _, _, _, _, _, _, hst⟩
    · rw [hst]
      exact hI
    · rw [hst]
      refine ⟨hI.1, ?_⟩
      intro n e hge p hp
      simp only [GoMap.get_delete] at hge
      split at hge
      · cases hge
      · exact hI.2 n e hge p hp
  | disconnect world request =>
    rcases handleServerDisconnect_cases w world request r h with ⟨hst, _⟩ |
      ⟨_, _, _, _, _, hst, _⟩ | ⟨name1, info, heap1, _, hg, _, _, hst⟩
    · rw [hst]
      exact hI
    · rw [hst]
      exact hI
    · rw [hst]
      exact RegistryInv_of_update w _ name1 info _ hI hg rfl rfl rfl
  | reconnect world request =>
    rcases handleServerReconnect_cases w world request r h with ⟨hst, _⟩ |
      ⟨name1, info, err, cfg, _, hg, _, _, hst⟩ |
      ⟨name1, _, cmd, args, info, client, tls, clients1, _, _, hg, _, _, _, _, _, hst⟩
    · rw [hst]
      exact hI
    · rw [hst]
      exact RegistryInv_of_update w _ name1 info _ hI hg rfl rfl rfl
    · obtain ⟨f1, f2⟩ := reregisterOne_fold name1 info.Tools w.heap.length w.registry tls
        w.registry hI.1 (fun _ hp => hp)
      rw [hst]
      refine ⟨f1, ?_⟩
      intro n e hge p hp
      simp only [reconnectedState, GoMap.get_set] at hge
      by_cases hn : name1 = n
      · subst hn
        simp only [if_true, Option.some.injEq] at hge
        rw [← hge] at hp
        exact ⟨(hI.2 name1 info hg p hp).1, f2 p (hI.2 name1 info hg p hp).2⟩
      · simp only [hn, if_false] at hge
        exact ⟨(hI.2 n e hge p hp).1, f2 p (hI.2 n e hge p hp).2⟩
  | call s t x request =>
    rcases createDynamicProxyHandler_cases s t w x request r h with ⟨hst, _⟩ |
      ⟨info, ref, client1, hg, _, _, hst | ⟨err, _, hst⟩⟩
    · rw [hst]
      exact hI
    · rw [hst]
      exact RegistryInv_of_same w _ hI rfl rfl
    · rw [hst]
      exact RegistryInv_of_update w _ s info _ hI hg rfl rfl rfl

theorem RegistryInv_run {servers : List ServerConfig} (ops : List Op) :
    ∀ w w2 : DynamicWrapper, RegistryInv servers w → run w ops = some w2 → RegistryInv servers w2 := by
  induction ops with
  | nil =>
    intro w w2 hI hrun
    simp only [run, Option.some.injEq] at hrun
    rw [← hrun]
    exact hI
  | cons op ops ih =>
    intro w w2 hI hrun
    cases hs : step w op with
    | panicked p => simp [run, hs] at hrun
    | ok r =>
      simp only [run, hs] at hrun
      exact ih r.state w2 (RegistryInv_step w op r hI hs) hrun

theorem RegistryInv_new {servers : List ServerConfig} : RegistryInv servers NewDynamicWrapper := by
  refine ⟨⟨by simp [NewDynamicWrapper], by simp [NewDynamicWrapper]⟩, ?_⟩
  intro n e hge
  simp [NewDynamicWrapper, GoMap.get] at hge

theorem discoverServer_tools (world : ConnectWorld) (sc : ServerConfig) :
    ∀ t ∈ (discoverServer world sc).Tools,
      t.PrefixedName = t.ServerPrefix ++ "_" ++ t.OriginalName ∧ t.ServerName = sc.Name ∧
        t.ServerPrefix = sc.Prefix := by
  intro t ht
  unfold discoverServer at ht
  simp only at ht
  split at ht
  · split at ht
    · simp at ht
    · split at ht
      · simp at ht
      · split at ht
        · simp at ht
        · simp only [convertToPrefixed, List.mem_map] at ht
          obtain ⟨ti, _, rfl⟩ := ht
          exact ⟨rfl, rfl, rfl⟩
  · split at ht <;> simp at ht

theorem GetSuccessfulResults_tools (worlds : Nat → StaticWorld) (cfg : ProxyConfig) :
    ∀ ir ∈ GetSuccessfulResults (DiscoverAll worlds cfg), ∀ t ∈ ir.2.Tools,
      t.PrefixedName = t.ServerPrefix ++ "_" ++ t.OriginalName ∧
        ∃ sc ∈ cfg.Servers, sc.Name = t.ServerName ∧ sc.Prefix = t.ServerPrefix := by
  intro ir hir t ht
  have h1 : ir.2 ∈ DiscoverAll worlds cfg :=
    List.snd_mem_of_mem_enum (List.mem_filter.1 hir).1
  simp only [DiscoverAll, List.mem_map] at h1
  obtain ⟨ic, hic, heq⟩ := h1
  rw [← heq] at ht
  obtain ⟨h2, h3, h4⟩ := discoverServer_tools _ _ t ht
  exact ⟨h2, ic.2, List.snd_mem_of_mem_enum hic, h3.symm, h4.symm⟩

theorem registerStaticTool_fold {servers : List ServerConfig} (c : ClientRef)
    (tools : List RemoteTool)
    (htools : ∀ t ∈ tools, t.PrefixedName = t.ServerPrefix ++ "_" ++ t.OriginalName ∧
      ∃ sc ∈ servers, sc.Name = t.ServerName ∧ sc.Prefix = t.ServerPrefix) :
    ∀ acc : ToolRegistry × StaticTable, RegOK servers acc.1 →
      RegOK servers (tools.foldl (registerStaticTool c) acc).1 := by
  induction tools with
  | nil => intro acc h; exact h
  | cons tool tools ih =>
    intro acc h
    simp only [List.foldl_cons]
    apply ih (fun t ht => htools t (List.mem_cons_of_mem _ ht))
    exact RegOK_register _ _ _ h (Or.inr (htools tool (List.mem_cons_self _ _)))

theorem processResult_inv (cfg : ProxyConfig) (worlds : Nat → StaticWorld)
    (acc : DynamicWrapper × StaticTable) (ir : Nat × DiscoveryResult)
    (hir : ∀ t ∈ ir.2.Tools, t.PrefixedName = t.ServerPrefix ++ "_" ++ t.OriginalName ∧
      ∃ sc ∈ cfg.Servers, sc.Name = t.ServerName ∧ sc.Prefix = t.ServerPrefix)
    (h : RegOK cfg.Servers acc.1.registry) (hd : acc.1.dynamicServers = []) :
    RegOK cfg.Servers (processResult cfg worlds acc ir).1.registry ∧
      (processResult cfg worlds acc ir).1.dynamicServers = [] := by
  unfold processResult
  cases createAndConnectClient cfg (worlds ir.1) ir.2.ServerName with
  | error e => exact ⟨h, hd⟩
  | ok client =>
    exact ⟨registerStaticTool_fold _ _ hir (acc.1.registry, acc.2) h, hd⟩

theorem foldl_processResult_inv (cfg : ProxyConfig) (worlds : Nat → StaticWorld)
    (l : List (Nat × DiscoveryResult))
    (hl : ∀ ir ∈ l, ∀ t ∈ ir.2.Tools,
      t.PrefixedName = t.ServerPrefix ++ "_" ++ t.OriginalName ∧
        ∃ sc ∈ cfg.Servers, sc.Name = t.ServerName ∧ sc.Prefix = t.ServerPrefix) :
    ∀ acc : DynamicWrapper × StaticTable, RegOK cfg.Servers acc.1.registry →
      acc.1.dynamicServers = [] →
      RegOK cfg.Servers (l.foldl (processResult cfg worlds) acc).1.registry ∧
        (l.foldl (processResult cfg worlds) acc).1.dynamicServers = [] := by
  induction l with
  | nil => intro acc h hd; exact ⟨h, hd⟩
  | cons ir l ih =>
    intro acc h hd
    simp only [List.foldl_cons]
    obtain ⟨h1, h2⟩ := processResult_inv cfg worlds acc ir
      (hl ir (List.mem_cons_self _ _)) h hd
    exact ih (fun ir2 h2 => hl ir2 (List.mem_cons_of_mem _ h2)) _ h1 h2

theorem RegistryInv_Initialize (cfg : ProxyConfig) (worlds : Nat → StaticWorld) :
    RegistryInv cfg.Servers ((NewDynamicWrapperWith cfg).Initialize worlds).wrapper := by
  have hnew : RegistryInv cfg.Servers NewDynamicWrapper := RegistryInv_new
  obtain ⟨h1, h2⟩ := foldl_processResult_inv cfg worlds
    (GetSuccessfulResults (DiscoverAll worlds cfg)) (GetSuccessfulResults_tools worlds cfg)
    (NewDynamicWrapper, []) hnew.1 rfl
  simp only [ConfiguredWrapper.Initialize, NewDynamicWrapperWith, Bool.false_eq_true, if_false]
  refine ⟨h1, ?_⟩
  intro n e hge
  rw [h2] at hge
  simp [GoMap.get] at hge

/-- C5 (amended). In every state reached, after `Initialize` of the configured static
servers, through `server_add`, `server_remove`, `server_disconnect`, `server_reconnect` and
forwarded calls, no two bindings of the registry share a prefixed name: each prefixed name
resolves to exactly one binding (the binding registered last under that name), whose
prefixed name is its server name, "_" and its original tool name or, for a binding of a
configured server, that server's prefix, "_" and its original tool name; and every
prefixed name in an entry's registered-tools list starts with the entry's name and "_" and
is bound in the registry. The lists themselves may repeat a name and may overlap between
entries. Without configured servers every binding is named by its server name. -/
theorem registry_names_unique (cfg : ProxyConfig) (worlds : Nat → StaticWorld)
    (ops : List Op) (w : DynamicWrapper)
    (hrun : run ((NewDynamicWrapperWith cfg).Initialize worlds).wrapper ops = some w) :
    (w.registry.tools.map Prod.fst).Nodup ∧
    (∀ p t1 t2, (p, t1) ∈ w.registry.tools → (p, t2) ∈ w.registry.tools → t1 = t2) ∧
    (∀ p t, w.registry.GetTool p = some t →
      t.PrefixedName = p ∧
      (p = t.ServerName ++ "_" ++ t.OriginalName ∨
        (p = t.ServerPrefix ++ "_" ++ t.OriginalName ∧
          ∃ sc ∈ cfg.Servers, sc.Name = t.ServerName ∧ sc.Prefix = t.ServerPrefix))) ∧
    (∀ name e p, GoMap.get w.dynamicServers name = some e → p ∈ e.Tools →
      (∃ orig, p = name ++ "_" ++ orig) ∧ (w.registry.GetTool p).isSome = true) ∧
    (cfg.Servers = [] →
      ((NewDynamicWrapperWith cfg).Initialize worlds).wrapper = NewDynamicWrapper ∧
      ∀ p t, w.registry.GetTool p = some t → p = t.ServerName ++ "_" ++ t.OriginalName) := by
  have hI := RegistryInv_run ops _ w (RegistryInv_Initialize cfg worlds) hrun
  refine ⟨hI.1.1, ?_, ?_, ?_, ?_⟩
  · intro p t1 t2 h1 h2
    have g1 := GoMap.get_of_mem _ p t1 hI.1.1 h1
    have g2 := GoMap.get_of_mem _ p t2 hI.1.1 h2
    rw [g1] at g2
    exact Option.some.inj g2
  · intro p t hg
    exact hI.1.2 p t (GoMap.mem_of_get _ p t hg)
  · intro name e p hge hp
    exact hI.2 name e hge p hp
  · intro hnil
    refine ⟨?_, ?_⟩
    · simp [ConfiguredWrapper.Initialize, NewDynamicWrapperWith, DiscoverAll,
        GetSuccessfulResults, hnil]
    · intro p t hg
      rcases (hI.1.2 p t (GoMap.mem_of_get _ p t hg)).2 with h | ⟨_, sc, hsc, _⟩
      · exact h
      · rw [hnil] at hsc
        cases hsc

/-- C5 (amended), at the wrapper configured with the static server "math" (prefix "m",
tools `add` and `sub`), after `Initialize` and a `server_add("m")` whose server lists the
tool `add`: the one binding of "m_add" is that of the dynamic server "m", and "m_sub" is
still that of "math". -/
theorem registry_names_unique_witness :
    run mathInitialized.wrapper [addMAdd] = some (mathAfter [addMAdd]) ∧
    ((mathAfter [addMAdd]).registry.tools.map Prod.fst).Nodup ∧
    (mathAfter [addMAdd]).registry.tools.map
      (fun kt => (kt.1, kt.2.ServerName, kt.2.OriginalName)) =
      [("m_add", "m", "add"), ("m_sub", "math", "sub")] :=
  ⟨by decide,
    (registry_names_unique mathConfig mathWorlds [addMAdd] (mathAfter [addMAdd])
      (by decide)).1,
    by decide⟩

/-- C5 as stated fails. After `server_add("a")` whose server lists the tool `b_c` and
`server_add("a_b")` whose server lists the tool `c`, the registered-tools lists of the two
entries both hold "a_b_c"; after `server_add("d")` whose server lists the tool `t` twice,
the entry's list holds "d_t" twice. -/
theorem prefixed_names_counterexample :
    run NewDynamicWrapper [addA, addAB, addD] = some (afterOps [addA, addAB, addD]) ∧
    (GoMap.get (afterOps [addA, addAB, addD]).dynamicServers "a").map (fun e => e.Tools) =
      some ["a_b_c"] ∧
    (GoMap.get (afterOps [addA, addAB, addD]).dynamicServers "a_b").map (fun e => e.Tools) =
      some ["a_b_c"] ∧
    (GoMap.get (afterOps [addA, addAB, addD]).dynamicServers "d").map (fun e => e.Tools) =
      some ["d_t", "d_t"] := by
  decide

/-! ## C7: `server_reconnect` -/

theorem reregisterOne_tools_get (name : String) (registered : List String) (c : ClientRef)
    (r : ToolRegistry) (tool : ToolInfo) (p : String) :
    GoMap.get (reregisterOne name registered c r tool).tools p =
      if name ++ "_" ++ tool.Name = p ∧ p ∈ registered then some (reconnectTool name tool)
      else GoMap.get r.tools p := by
  unfold reregisterOne
  by_cases hreg : name ++ "_" ++ tool.Name ∈ registered
  · by_cases hp : name ++ "_" ++ tool.Name = p
    · subst hp
      simp [hreg, ToolRegistry.RegisterTool, GoMap.get_set, reconnectTool]
    · simp [hreg, hp, ToolRegistry.RegisterTool, GoMap.get_set]
  · by_cases hp : name ++ "_" ++ tool.Name = p
    · subst hp
      simp [hreg]
    · simp [hreg, hp]

theorem reregister_fold_tools_get (name : String) (registered : List String) (c : ClientRef)
    (tools : List ToolInfo) (p : String) :
    ∀ r : ToolRegistry,
      GoMap.get (tools.foldl (reregisterOne name registered c) r).tools p =
        match lastListed name tools p with
        | some t => if p ∈ registered then some (reconnectTool name t) else GoMap.get r.tools p
        | none => GoMap.get r.tools p := by
  unfold lastListed
  induction tools with
  | nil => intro r; simp
  | cons tool tools ih =>
    intro r
    simp only [List.foldl_cons, ih, List.reverse_cons, List.find?_append]
    cases hf : tools.reverse.find? (fun t => decide (name ++ "_" ++ t.Name = p)) with
    | some t1 =>
      simp only [Option.or, reregisterOne_tools_get]
      by_cases hreg : p ∈ registered
      · simp [hreg]
      · simp [hreg]
    | none =>
      simp only [Option.or, reregisterOne_tools_get]
      by_cases hp : name ++ "_" ++ tool.Name = p
      · simp [hp, List.find?]
      · simp [hp, List.find?]

theorem reregister_fold_clients_get (name : String) (registered : List String) (c : ClientRef)
    (tools : List ToolInfo) (n : String) :
    ∀ r : ToolRegistry,
      GoMap.get (tools.foldl (reregisterOne name registered c) r).clients n =
        if name = n ∧ ∃ t ∈ tools, name ++ "_" ++ t.Name ∈ registered then some c
        else GoMap.get r.clients n := by
  induction tools with
  | nil => intro r; simp
  | cons tool tools ih =>
    intro r
    simp only [List.foldl_cons, ih, List.mem_cons, exists_eq_or_imp]
    by_cases hn : name = n
    · subst hn
      by_cases hrest : ∃ t ∈ tools, name ++ "_" ++ t.Name ∈ registered
      · simp [hrest]
      · by_cases hreg : name ++ "_" ++ tool.Name ∈ registered
        · simp [hrest, hreg, reregisterOne, ToolRegistry.RegisterTool, GoMap.get_set]
        · simp [hrest, hreg, reregisterOne]
    · by_cases hreg : name ++ "_" ++ tool.Name ∈ registered
      · simp [hn, hreg, reregisterOne, ToolRegistry.RegisterTool, GoMap.get_set]
      · simp [hn, hreg, reregisterOne]

/-- C7 (amended). After a successful `server_reconnect(name, command)` whose new server
lists `tools`: the entry is connected, carries the new client handle and the same
registered-tools list as before. For each prefixed name `p` of that list: when a listed
tool has the prefixed name `p`, the registry binds `p` to the last such tool (its original
name, description and schema, server name `name`), and `GetClient(name)` is the new
client; when no listed tool has it, the registry's binding of `p` (its schema) is the old
one. Client handles are kept per server, not per binding: `GetClient(name)` is the new
client as soon as one listed tool matches a registered name (and the old one otherwise),
and the entry's handle, through which every handler of the entry forwards, is the new
client for all its bindings. Names outside the entry's list keep their binding. -/
theorem reconnect_updates_bindings (w : DynamicWrapper) (world : ConnectWorld)
    (request : CallToolRequest) (name command cmd : String) (args : List String)
    (info : DynamicServerInfo) (client : StdioClient) (tools : List ToolInfo) (r : Reply)
    (hn : request.RequireString "name" = some name)
    (hc : request.RequireString "command" = some command)
    (hget : GoMap.get w.dynamicServers name = some info) (hdis : info.IsConnected = false)
    (hf : Fields command = cmd :: args)
    (hcl : connectAndList name cmd args world = .ok (client, tools))
    (hok : handleServerReconnect w world request = .ok r) :
    r.result.IsError = false ∧
    (∃ e, GoMap.get r.state.dynamicServers name = some e ∧ e.Tools = info.Tools ∧
      e.IsConnected = true ∧ e.Client = some w.heap.length) ∧
    r.state.heap.get? w.heap.length = some client ∧
    (∀ p ∈ info.Tools, ∀ t, lastListed name tools p = some t →
      r.state.registry.GetTool p = some (reconnectTool name t) ∧
      r.state.registry.GetClient name = some w.heap.length) ∧
    (∀ p, lastListed name tools p = none →
      r.state.registry.GetTool p = w.registry.GetTool p) ∧
    (∀ p, p ∉ info.Tools → r.state.registry.GetTool p = w.registry.GetTool p) ∧
    ((¬ ∃ t ∈ tools, name ++ "_" ++ t.Name ∈ info.Tools) →
      r.state.registry.GetClient name = w.registry.GetClient name) ∧
    (∀ other, other ≠ name →
      r.state.registry.GetClient other = w.registry.GetClient other) := by
  rcases handleServerReconnect_cases w world request r hok with ⟨hst, herr⟩ |
    ⟨name1, info1, err, cfg, hn1, hg1, _, herr, hst⟩ |
    ⟨name1, command1, cmd1, args1, info1, client1, tls, clients1, hn1, hc1, hg1, _, hf1, hcl1,
      _, hsucc, hst⟩
  · exfalso
    simp only [handleServerReconnect, hn, hc, hget, hdis, hf, hcl, Bool.false_eq_true,
      if_false] at hok
    split at hok
    · cases hok
    · cases hok
      cases herr
  · exfalso
    simp only [handleServerReconnect, hn, hc, hget, hdis, hf, hcl, Bool.false_eq_true,
      if_false] at hok
    split at hok
    · cases hok
    · cases hok
      cases herr
  · rw [hn] at hn1
    cases hn1
    rw [hc] at hc1
    cases hc1
    rw [hget] at hg1
    cases hg1
    rw [hf] at hf1
    cases hf1
    rw [hcl] at hcl1
    cases hcl1
    refine ⟨hsucc, ?_, ?_, ?_, ?_, ?_, ?_, ?_⟩
    · rw [hst]
      exact ⟨_, GoMap.get_set_same _ _ _, rfl, rfl, rfl⟩
    · rw [hst, List.get?_eq_getElem?]
      simp [reconnectedState]
    · intro p hp t ht
      rw [hst]
      constructor
      · simp only [reconnectedState, ToolRegistry.GetTool, reregister_fold_tools_get, ht, hp,
          if_true]
      · simp only [reconnectedState, ToolRegistry.GetClient, reregister_fold_clients_get]
        have hex : ∃ t ∈ tools, name ++ "_" ++ t.Name ∈ info.Tools := by
          unfold lastListed at ht
          have h1 := List.find?_some ht
          have h2 := List.mem_of_find?_eq_some ht
          simp only [decide_eq_true_eq] at h1
          exact ⟨t, by simpa using h2, by rw [h1]; exact hp⟩
        simp [hex]
    · intro p hp
      rw [hst]
      simp only [reconnectedState, ToolRegistry.GetTool, reregister_fold_tools_get, hp]
    · intro p hp
      rw [hst]
      simp only [reconnectedState, ToolRegistry.GetTool, reregister_fold_tools_get]
      split <;> simp [hp]
    · intro hno
      rw [hst]
      simp only [reconnectedState, ToolRegistry.GetClient, reregister_fold_clients_get]
      simp [hno]
    · intro other hne
      rw [hst]
      simp only [reconnectedState, ToolRegistry.GetClient, reregister_fold_clients_get]
      simp [Ne.symm hne]

/-- C7 (amended), at `server_reconnect("s")` after `server_add("s")` (tools `hi`, `bye`)
and `server_disconnect("s")`, against a new server that lists only `hi`. -/
theorem reconnect_updates_bindings_witness :
    run NewDynamicWrapper [addS, disconnectS] = some (afterOps [addS, disconnectS]) ∧
    ((afterOps [addS, disconnectS, reconnectHi]).registry.GetTool "s_hi").map
      (fun t => t.Description) = some "says hi, v2" ∧
    (afterOps [addS, disconnectS, reconnectHi]).registry.GetClient "s" = some 1 ∧
    (afterOps [addS, disconnectS, reconnectHi]).registry.GetTool "s_bye" =
      (afterOps [addS, disconnectS]).registry.GetTool "s_bye" := by
  have h := reconnect_updates_bindings (afterOps [addS, disconnectS])
    (serverWorld [.obj [("name", .str "hi"), ("description", .str "says hi, v2"),
      ("inputSchema", .obj [("type", .str "object"), ("required", .arr [.str "who"])])]])
    (commandRequest "server_reconnect" "s" "bin/v2") "s" "bin/v2" "bin/v2" []
    { Name := "s", Client := none, Tools := ["s_hi", "s_bye"],
      Config := { Name := "s", Prefix := "s", Transport := "stdio", Command := "bin/v1",
                  Timeout := "30s" },
      IsConnected := false, ErrorMessage := "Server disconnected by user" }
    { serverName := "s", command := "bin/v2", args := [], counter := 2, connected := true }
    [{ Name := "hi", Description := "says hi, v2",
       InputSchema := some (.obj [("type", .str "object"), ("required", .arr [.str "who"])]) }]
    ⟨afterOps [addS, disconnectS, reconnectHi],
      NewToolResultText ("Reconnected server 's' with command: bin/v2 " ++
        "\\nServer now connected and tools updated."), []⟩
    (by decide) (by decide) (by decide) rfl (by decide) (by decide) (by decide)
  obtain ⟨h1, h2⟩ := h.2.2.2.1 "s_hi" (by decide)
    { Name := "hi", Description := "says hi, v2",
      InputSchema := some (.obj [("type", .str "object"), ("required", .arr [.str "who"])]) }
    (by decide)
  exact ⟨by decide, by rw [h1]; rfl, h2, h.2.2.2.2.1 "s_bye" (by decide)⟩

/-- C7 as stated fails. After `server_add("s")` (tools `hi`, `bye`), `server_disconnect("s")`
and a successful `server_reconnect("s")` against a server that lists only `hi`, the
binding "s_bye", for which the new server has no tool, keeps its old registry record but
not its old client handle: `GetClient("s")` and the entry's handle are the new client
(reference 1, the old one was 0), and a call of `s_bye` is forwarded to the new child,
whose request counter goes from 2 to 3. -/
theorem reconnect_counterexample :
    run NewDynamicWrapper [addS, disconnectS, reconnectHi] =
      some (afterOps [addS, disconnectS, reconnectHi]) ∧
    (afterOps [addS, disconnectS]).registry.GetClient "s" = some 0 ∧
    (afterOps [addS, disconnectS, reconnectHi]).registry.GetTool "s_bye" =
      (afterOps [addS, disconnectS]).registry.GetTool "s_bye" ∧
    (afterOps [addS, disconnectS, reconnectHi]).registry.GetClient "s" = some 1 ∧
    (GoMap.get (afterOps [addS, disconnectS, reconnectHi]).dynamicServers "s").map
      (fun e => (e.Client, e.Tools)) = some (some 1, ["s_hi", "s_bye"]) ∧
    (afterOps [addS, disconnectS, reconnectHi]).heap.map (fun c => (c.counter, c.connected)) =
      [(2, false), (2, true)] ∧
    (afterOps [addS, disconnectS, reconnectHi,
        .call "s" "bye" { reader := .doc (textAnswer 3 "v2") } { Name := "s_bye" }]).heap.map
      (fun c => (c.counter, c.connected)) = [(2, false), (3, true)] := by
  decide

/-! ## C2 in general: every recorded session loses its first message -/

theorem unmarshalPlaybackSession_of_message (timeOK : String → Bool) (m : RecordedMessage) :
    unmarshalPlaybackSession timeOK (marshalRecordedMessage m) = .ok {} := by
  unfold marshalRecordedMessage
  by_cases h1 : m.ToolName = "" <;> by_cases h2 : m.ServerName = "" <;>
    simp only [h1, h2, if_true, if_false, List.append_nil, List.cons_append,
      List.nil_append] <;> rfl

theorem unmarshalRecordedMessage_of_event (timeOK : String → Bool) (e : SessionEvent)
    (h : timeOK e.now = true) :
    unmarshalRecordedMessage timeOK (marshalRecordedMessage e.recorded) = .ok e.recorded := by
  unfold marshalRecordedMessage SessionEvent.recorded
  by_cases h1 : e.toolName = "" <;> by_cases h2 : e.serverName = "" <;>
    simp only [h1, h2, if_true, if_false, List.append_nil, List.cons_append, List.nil_append,
      Option.getD_some] <;>
    simp [unmarshalRecordedMessage, decodeStruct, foldFields, stepRecordedMessage, decodeTime, h,
      decodeString, Except.map,
      (by decide : keyIs "timestamp" "timestamp" = true),
      (by decide : keyIs "timestamp" "direction" = false),
      (by decide : keyIs "direction" "direction" = true),
      (by decide : keyIs "timestamp" "message_type" = false),
      (by decide : keyIs "direction" "message_type" = false),
      (by decide : keyIs "message_type" "message_type" = true),
      (by decide : keyIs "timestamp" "tool_name" = false),
      (by decide : keyIs "direction" "tool_name" = false),
      (by decide : keyIs "message_type" "tool_name" = false),
      (by decide : keyIs "tool_name" "tool_name" = true),
      (by decide : keyIs "timestamp" "server_name" = false),
      (by decide : keyIs "direction" "server_name" = false),
      (by decide : keyIs "message_type" "server_name" = false),
      (by decide : keyIs "tool_name" "server_name" = false),
      (by decide : keyIs "server_name" "server_name" = true),
      (by decide : keyIs "timestamp" "message" = false),
      (by decide : keyIs "direction" "message" = false),
      (by decide : keyIs "message_type" "message" = false),
      (by decide : keyIs "tool_name" "message" = false),
      (by decide : keyIs "server_name" "message" = false),
      (by decide : keyIs "message" "message" = true), h1, h2]

theorem recordMessage_fold (S : List SessionEvent) :
    ∀ r : Recorder, r.recordEnabled = true →
      (S.foldl
        (fun r e => recordMessage r e.now e.direction e.messageType e.toolName e.serverName
          (some e.message)) r).recordFile =
        r.recordFile ++ S.map (fun e => Line.doc (marshalRecordedMessage e.recorded)) := by
  induction S with
  | nil => intro r _; simp
  | cons e S ih =>
    intro r hr
    simp only [List.foldl_cons, List.map_cons]
    rw [ih]
    · simp [recordMessage, hr, SessionEvent.recorded]
    · simp [recordMessage, hr]

theorem parseLine_fold_messages (timeOK : String → Bool) (s : PlaybackSession)
    (S : List SessionEvent) (hts : ∀ e ∈ S, timeOK e.now = true) :
    ∀ msgs : List RecordedMessage,
      (S.map (fun e => Line.doc (marshalRecordedMessage e.recorded))).foldl (parseLine timeOK)
        (some s, msgs) = (some s, msgs ++ S.map SessionEvent.recorded) := by
  induction S with
  | nil => intro msgs; simp
  | cons e S ih =>
    intro msgs
    simp only [List.map_cons, List.foldl_cons]
    have h1 : parseLine timeOK (some s, msgs) (.doc (marshalRecordedMessage e.recorded)) =
        (some s, msgs ++ [e.recorded]) := by
      simp only [parseLine,
        unmarshalRecordedMessage_of_event timeOK e (hts e (List.mem_cons_self _ _))]
    rw [h1, ih (fun x hx => hts x (List.mem_cons_of_mem _ hx))]
    simp

/-- Every recorded session with at least one message loses its first message when parsed
back: the first message line is taken for the session header (whose fields stay at their
zero values), and `Messages` holds the other messages, in order. -/
theorem record_parse_drops_head (timeOK : String → Bool) (start now : String)
    (e : SessionEvent) (rest : List SessionEvent) (hts : ∀ x ∈ rest, timeOK x.now = true) :
    ParseRecordingFile timeOK now none (recordSession start (e :: rest)).recordFile =
      .ok { Messages := rest.map SessionEvent.recorded } := by
  have hfile : (recordSession start (e :: rest)).recordFile =
      (EnableRecording {} start none).1.recordFile ++
        (e :: rest).map (fun e => Line.doc (marshalRecordedMessage e.recorded)) :=
    recordMessage_fold (e :: rest) _ (by simp [EnableRecording])
  have hhead : (EnableRecording {} start none).1.recordFile.foldl (parseLine timeOK)
      (none, []) = (none, []) := by
    simp [EnableRecording, marshalIndentHeader, parseLine]
  have hfirst : parseLine timeOK (none, []) (.doc (marshalRecordedMessage e.recorded)) =
      (some {}, []) := by
    simp only [parseLine, unmarshalPlaybackSession_of_message]
  rw [ParseRecordingFile, hfile, List.foldl_append, hhead, List.map_cons, List.foldl_cons,
    hfirst, parseLine_fold_messages timeOK {} rest hts]
  simp

/-! ## C13: the request id generator -/

theorem wrapInt64_of_fits (n : Int) (h1 : -(2 ^ 63 : Int) ≤ n) (h2 : n < (2 ^ 63 : Int)) :
    wrapInt64 n = n := by
  unfold wrapInt64
  rw [Int.emod_eq_of_lt] <;> omega

theorem idAfter_eq (n : Nat) (h : n ≤ 2 ^ 63 - 1) : idAfter n = (n : Int) := by
  induction n with
  | zero => rfl
  | succ n ih =>
    have h1 : n ≤ 2 ^ 63 - 1 := by omega
    rw [idAfter, ih h1, NextID, wrapInt64_of_fits]
    · push_cast; ring
    · omega
    · have : (n : Int) + 1 ≤ 2 ^ 63 - 1 := by
        have h3 : ((n + 1 : Nat) : Int) ≤ ((2 ^ 63 - 1 : Nat) : Int) := by exact_mod_cast h
        simpa using h3
      omega

theorem buildRequest_ID (counter : Int) (k : RequestKind) :
    (buildRequest counter k).ID = NextID counter := by
  cases k <;> rfl

theorem buildRequests_ids (kinds : List RequestKind) :
    ∀ k : Nat, (buildRequests (idAfter k) kinds).map (fun r => r.ID) =
      (List.range kinds.length).map (fun i => idAfter (k + i + 1)) := by
  induction kinds with
  | nil => intro k; rfl
  | cons kind kinds ih =>
    intro k
    have h := ih (k + 1)
    have e : NextID (idAfter k) = idAfter (k + 1) := rfl
    rw [buildRequests, List.map_cons, buildRequest_ID, e, h, List.length_cons,
      List.range_succ_eq_map, List.map_cons, List.map_map]
    refine congrArg₂ _ rfl ?_
    apply List.map_congr_left
    intro i _
    show idAfter (k + 1 + i + 1) = idAfter (k + (i + 1) + 1)
    congr 1
    omega

/-- C13. For a fresh `RequestIDGenerator` the `n`-th call of `NextID` returns `n`, for every
`n` from 1 up to 2^63 - 1; so it is positive, larger than every earlier result, and
different from every other result in that range; and the requests that one client builds
with `NewInitializeRequest`, `NewListToolsRequest` and `NewCallToolRequest`, in whatever
order, carry the ids 1, 2, ..., `n`, which are pairwise distinct. -/
theorem NextID_sequence (n : Nat) (h1 : 1 ≤ n) (h2 : n ≤ 2 ^ 63 - 1) :
    idAfter n = (n : Int) ∧ 0 < idAfter n ∧
    (∀ m, 1 ≤ m → m < n → idAfter m < idAfter n) ∧
    (∀ m, 1 ≤ m → m ≤ 2 ^ 63 - 1 → m ≠ n → idAfter m ≠ idAfter n) ∧
    (∀ kinds : List RequestKind, kinds.length = n →
      (buildRequests 0 kinds).map (fun r => r.ID) =
        (List.range n).map (fun i : Nat => (i : Int) + 1) ∧
      ((buildRequests 0 kinds).map (fun r => r.ID)).Nodup) := by
  have hn := idAfter_eq n h2
  refine ⟨hn, ?_, ?_, ?_, ?_⟩
  · rw [hn]
    exact_mod_cast h1
  · intro m _ hm
    rw [hn, idAfter_eq m (by omega)]
    exact_mod_cast hm
  · intro m _ hm hne
    rw [hn, idAfter_eq m hm]
    exact_mod_cast hne
  · intro kinds hlen
    have hids : (buildRequests 0 kinds).map (fun r => r.ID) =
        (List.range n).map (fun i : Nat => (i : Int) + 1) := by
      have h := buildRequests_ids kinds 0
      rw [show idAfter 0 = 0 from rfl, hlen] at h
      rw [h]
      apply List.map_congr_left
      intro i hi
      rw [List.mem_range] at hi
      rw [idAfter_eq (0 + i + 1) (by omega)]
      push_cast
      ring
    refine ⟨hids, ?_⟩
    rw [hids]
    exact (List.nodup_range n).map (fun a b hab => by simpa using hab)

/-- C13, at the first three requests of a client: `initialize`, `tools/list` and
`tools/call` carry the ids 1, 2 and 3. -/
theorem NextID_sequence_witness :
    idAfter 3 = 3 ∧
    (buildRequests 0 [.Initialize "dynamic-mcp-proxy" "1.0.0", .listTools,
      .callTool "greet" [("name", .str "World")]]).map (fun r => (r.Method, r.ID)) =
      [("initialize", 1), ("tools/list", 2), ("tools/call", 3)] :=
  ⟨(NextID_sequence 3 (by decide) (by decide)).1, by decide⟩

/-! ## C11: a closed client -/

/-- C11 (amended). `Close` leaves a client not connected. On a client that is not
connected, `Initialize`, `ListTools` and `CallTool` fail with "client not connected" and
`Close` does nothing, so the client stays as it is through every sequence of operations
that holds no `Connect`. `Connect` does not fail with a not-connected error: it starts
the command again, and the client is connected again exactly when the pipes and the
process start without error. -/
theorem closed_client_operations (c : StdioClient) (hc : c.connected = false) :
    (∀ (c0 : StdioClient) (w : CloseWorld), (c0.Close w).1.connected = false) ∧
    (∀ x, c.Initialize x = (c, .error "client not connected")) ∧
    (∀ x, c.ListTools x = (c, .error "client not connected")) ∧
    (∀ x name args, c.CallTool x name args = (c, .error "client not connected")) ∧
    (∀ w, c.Close w = (c, none)) ∧
    (∀ ops : List ClientOp, (∀ op ∈ ops, op.isConnect = false) →
      c.applyAll ops = c ∧
      ∀ op ∈ ops, op.isClose = false → (c.apply op).2 = some "client not connected") ∧
    (∀ w : SpawnWorld,
      w.stdinPipeErr = none → w.stdoutPipeErr = none → w.startErr = none →
      c.Connect w = ({ c with connected := true }, none)) ∧
    (∀ w : SpawnWorld, (c.Connect w).1.connected = true ↔
      (w.stdinPipeErr = none ∧ w.stdoutPipeErr = none ∧ w.startErr = none)) := by
  have hI : ∀ x, c.Initialize x = (c, .error "client not connected") := by
    intro x; simp [StdioClient.Initialize, hc]
  have hL : ∀ x, c.ListTools x = (c, .error "client not connected") := by
    intro x; simp [StdioClient.ListTools, hc]
  have hC : ∀ x name args, c.CallTool x name args = (c, .error "client not connected") := by
    intro x name args; simp [StdioClient.CallTool, hc]
  have hX : ∀ w, c.Close w = (c, none) := by
    intro w; simp [StdioClient.Close, hc]
  have hstep : ∀ op : ClientOp, op.isConnect = false →
      (c.apply op).1 = c ∧ (op.isClose = false → (c.apply op).2 = some "client not connected") := by
    intro op hop
    cases op with
    | connect w => simp [ClientOp.isConnect] at hop
    | Initialize x => simp [StdioClient.apply, hI]
    | listTools x => simp [StdioClient.apply, hL]
    | callTool x name args => simp [StdioClient.apply, hC]
    | close w => simp [StdioClient.apply, hX, ClientOp.isClose]
  refine ⟨?_, hI, hL, hC, hX, ?_, ?_, ?_⟩
  · intro c0 w
    unfold StdioClient.Close
    by_cases h0 : c0.connected = true
    · simp only [h0, Bool.not_true, Bool.false_eq_true, if_false]
      split <;> rfl
    · simp [h0]
  · intro ops
    induction ops with
    | nil => intro _; exact ⟨rfl, by simp⟩
    | cons op ops ih =>
      intro hall
      have h1 := hstep op (hall op (List.mem_cons_self _ _))
      have h2 := ih (fun o ho => hall o (List.mem_cons_of_mem _ ho))
      refine ⟨?_, ?_⟩
      · simp only [StdioClient.applyAll, h1.1]
        exact h2.1
      · intro o ho hcl
        exact (hstep o (hall o ho)).2 hcl
  · intro w h1 h2 h3
    simp [StdioClient.Connect, hc, h1, h2, h3]
  · intro w
    unfold StdioClient.Connect
    simp only [hc, Bool.false_eq_true, if_false]
    cases h1 : w.stdinPipeErr with
    | some e => simp [hc]
    | none =>
      cases h2 : w.stdoutPipeErr with
      | some e => simp [hc]
      | none =>
        cases h3 : w.startErr with
        | some e => simp [hc]
        | none => simp

/-- C11 (amended), at a client that was connected and closed. -/
theorem closed_client_operations_witness :
    closedClient.connected = false ∧
    closedClient.CallTool { reader := .doc (textAnswer 1 "v1") } "hi" [] =
      (closedClient, .error "client not connected") :=
  ⟨by decide,
    (closed_client_operations closedClient (by decide)).2.2.2.1
      { reader := .doc (textAnswer 1 "v1") } "hi" []⟩

/-- C11 as stated fails: a client that was connected and then closed is connected again
after a `Connect` whose command starts, without any error, and its next `CallTool` is
answered by the new child. -/
theorem closed_client_reconnects_counterexample :
    closedClient.connected = false ∧
    closedClient.Connect {} = ({ closedClient with connected := true }, none) ∧
    (closedClient.Connect {}).1.connected = true ∧
    ((closedClient.Connect {}).1.CallTool { reader := .doc (textAnswer 1 "v1") } "hi" []).2 =
      .ok { Content := [{ Typ := "text", Text := "v1" }], IsError := false } := by
  decide

/-! ## C12: the result of `CallTool` -/

theorem keyIs_type_type : keyIs "type" "type" = true := by decide
theorem keyIs_type_text : keyIs "type" "text" = false := by decide
theorem keyIs_text_text : keyIs "text" "text" = true := by decide
theorem keyIs_content_content : keyIs "content" "content" = true := by decide
theorem keyIs_content_isError : keyIs "content" "isError" = false := by decide
theorem keyIs_isError_isError : keyIs "isError" "isError" = true := by decide

theorem decode_contentItemJson (c : ContentItem) :
    decodeStruct stepContentItem "client.ContentItem" {} (contentItemJson c) = .ok c := by
  simp [contentItemJson, decodeStruct, foldFields, stepContentItem, decodeString, Except.map,
    keyIs_type_type, keyIs_type_text, keyIs_text_text]

theorem decode_contentItems (items : List ContentItem) :
    decodeElems (decodeStruct stepContentItem "client.ContentItem" {})
      (items.map contentItemJson) = .ok items := by
  induction items with
  | nil => rfl
  | cons c items ih => simp [decodeElems, decode_contentItemJson, ih]

theorem unmarshal_callToolResultJson (r : CallToolResult) :
    unmarshalCallToolResult (callToolResultJson r) = .ok r := by
  simp [unmarshalCallToolResult, callToolResultJson, decodeStruct, foldFields,
    stepCallToolResult, decodeSlice, decode_contentItems, decodeBool, Except.map,
    keyIs_content_content, keyIs_content_isError, keyIs_isError_isError]

theorem CallTool_connected (c : StdioClient) (x : Exchange) (name : String)
    (args : List (String × Json)) (hc : c.connected = true) :
    (c.CallTool x name args).2 =
      match sendRequest x (NewCallToolRequest (NextID c.counter) name args) with
      | .error e => .error ("tools/call request failed: " ++ e)
      | .ok response =>
        match ParseResponse unmarshalCallToolResult response with
        | .error e => .error ("failed to parse tools/call response: " ++ e)
        | .ok result => .ok result := by
  have e : unmarshalCallToolResult =
      decodeStruct stepCallToolResult "client.CallToolResult" {} := rfl
  rw [e]
  simp only [StdioClient.CallTool, hc, Bool.not_true, Bool.false_eq_true, if_false]
  cases sendRequest x (NewCallToolRequest (NextID c.counter) name args) with
  | error e => rfl
  | ok response =>
    dsimp only
    cases ParseResponse (decodeStruct stepCallToolResult "client.CallToolResult" {})
      response <;> rfl

theorem sendRequest_delivers (x : Exchange) (request : JSONRPCRequest) (j : Json)
    (resp : JSONRPCResponse) (hm : x.marshalErr = none) (hw : x.writeErr = none)
    (hctx : x.ctxDone = none) (hr : x.reader = .doc j)
    (hd : unmarshalResponse j = .ok resp) (hid : resp.ID = request.ID) :
    sendRequest x request = .ok resp := by
  simp [sendRequest, hm, hw, hctx, readerResult, hr, hd, hid]

/-- C12. When the client is connected, the request is written, the line read for it
decodes to a response with the request's id, without a JSON-RPC error object and with a
result that decodes to a `CallToolResult`, then `CallTool` returns exactly that content
and `isError` flag, with a nil error, whatever the flag is (a result written as
`{content, isError}` decodes to itself). `CallTool` returns an error exactly when the
client is not connected, the transport fails (the request cannot be marshalled or written,
the context is done first, the read fails), the response line cannot be decoded, the ids
differ, the response carries a JSON-RPC error object, or the result is absent or cannot
be decoded; for an error object the error's text carries its message and code. -/
theorem CallTool_outcome (c : StdioClient) (x : Exchange) (name : String)
    (args : List (String × Json)) :
    (∀ j resp rj res, c.connected = true → x.marshalErr = none → x.writeErr = none →
      x.ctxDone = none → x.reader = .doc j → unmarshalResponse j = .ok resp →
      resp.ID = NextID c.counter → resp.Error = none → resp.Result = some rj →
      unmarshalCallToolResult rj = .ok res →
      (c.CallTool x name args).2 = .ok res) ∧
    (∀ r : CallToolResult, unmarshalCallToolResult (callToolResultJson r) = .ok r) ∧
    ((∃ e, (c.CallTool x name args).2 = .error e) ↔
      (c.connected = false ∨
        x.marshalErr.isSome = true ∨ x.writeErr.isSome = true ∨ x.ctxDone.isSome = true ∨
        (∃ e, x.reader = .readErr e) ∨
        (∃ e, x.reader = .syntaxErr e) ∨
        (∃ j e, x.reader = .doc j ∧ unmarshalResponse j = .error e) ∨
        (∃ j resp, x.reader = .doc j ∧ unmarshalResponse j = .ok resp ∧
          (resp.ID ≠ NextID c.counter ∨ resp.Error.isSome = true ∨ resp.Result = none ∨
            ∃ rj e, resp.Result = some rj ∧ unmarshalCallToolResult rj = .error e)))) ∧
    (∀ j resp err, c.connected = true → x.marshalErr = none → x.writeErr = none →
      x.ctxDone = none → x.reader = .doc j → unmarshalResponse j = .ok resp →
      resp.ID = NextID c.counter → resp.Error = some err →
      (c.CallTool x name args).2 =
        .error ("failed to parse tools/call response: " ++
          ("[" ++ "" ++ "] " ++ err.Message ++ " (code: " ++ fmtInt err.Code ++ ")"))) := by
  refine ⟨?_, unmarshal_callToolResultJson, ?_, ?_⟩
  · intro j resp rj res hc hm hw hctx hr hd hid herr hres hdec
    rw [CallTool_connected c x name args hc,
      sendRequest_delivers x _ j resp hm hw hctx hr hd hid]
    simp [ParseResponse, herr, hres, hdec]
  · by_cases hc : c.connected = true
    swap
    · have hc2 : c.connected = false := by simpa using hc
      constructor
      · intro _
        exact Or.inl hc2
      · intro _
        exact ⟨"client not connected", by simp [StdioClient.CallTool, hc2]⟩
    rw [CallTool_connected c x name args hc]
    cases hm : x.marshalErr with
    | some e => simp [sendRequest, hm]
    | none =>
      cases hw : x.writeErr with
      | some e => simp [sendRequest, hm, hw]
      | none =>
        cases hctx : x.ctxDone with
        | some e => simp [sendRequest, hm, hw, hctx]
        | none =>
          cases hr : x.reader with
          | readErr e => simp [sendRequest, hm, hw, hctx, hr, readerResult]
          | syntaxErr e => simp [sendRequest, hm, hw, hctx, hr, readerResult]
          | doc j =>
            cases hd : unmarshalResponse j with
            | error e => simp [sendRequest, hm, hw, hctx, hr, readerResult, hd, hc]
            | ok resp =>
              by_cases hid : resp.ID = NextID c.counter
              swap
              · simp [sendRequest, hm, hw, hctx, hr, readerResult, hd, hc, hid,
                  NewCallToolRequest]
              · cases herr : resp.Error with
                | some err =>
                  simp [sendRequest, hm, hw, hctx, hr, readerResult, hd, hc, hid,
                    NewCallToolRequest, ParseResponse, herr]
                | none =>
                  cases hres : resp.Result with
                  | none =>
                    simp [sendRequest, hm, hw, hctx, hr, readerResult, hd, hc, hid,
                      NewCallToolRequest, ParseResponse, herr, hres]
                  | some rj =>
                    cases hdec : unmarshalCallToolResult rj with
                    | error e =>
                      simp [sendRequest, hm, hw, hctx, hr, readerResult, hd, hc, hid,
                        NewCallToolRequest, ParseResponse, herr, hres, hdec]
                    | ok res =>
                      simp [sendRequest, hm, hw, hctx, hr, readerResult, hd, hc, hid,
                        NewCallToolRequest, ParseResponse, herr, hres, hdec]
  · intro j resp err hc hm hw hctx hr hd hid herr
    rw [CallTool_connected c x name args hc,
      sendRequest_delivers x _ j resp hm hw hctx hr hd hid]
    simp [ParseResponse, herr, ClientError.Error]

/-- C12, at a connected client whose first `tools/call` is answered with a result whose
`isError` is true: `CallTool` returns the content and the flag, and no error. -/
theorem CallTool_outcome_witness :
    ((NewStdioClient "s" "bin/v1" []).Connect {}).1.connected = true ∧
    (((NewStdioClient "s" "bin/v1" []).Connect {}).1.CallTool
        { reader := .doc errorResultAnswer } "div" [("b", .int 0)]).2 =
      .ok { Content := [{ Typ := "text", Text := "division by zero" }], IsError := true } :=
  ⟨by decide,
    (CallTool_outcome ((NewStdioClient "s" "bin/v1" []).Connect {}).1
      { reader := .doc errorResultAnswer } "div" [("b", .int 0)]).1
      errorResultAnswer
      { JSONRPC := "2.0", ID := 1,
        Result := some (callToolResultJson
          { Content := [{ Typ := "text", Text := "division by zero" }], IsError := true }) }
      (callToolResultJson
        { Content := [{ Typ := "text", Text := "division by zero" }], IsError := true })
      { Content := [{ Typ := "text", Text := "division by zero" }], IsError := true }
      (by decide) rfl rfl rfl rfl (by decide) (by decide) rfl rfl (by decide)⟩

/-! ## C16: `Validate` -/

theorem timeout_check_none (durationErr : String → Option String) (t : String) :
    (if t ≠ "" then durationErr t else none) = none ↔ (t ≠ "" → durationErr t = none) := by
  by_cases h : t = "" <;> simp [h]

theorem validateServers_cons (durationErr : String → Option String) (server : ServerConfig)
    (rest : List ServerConfig) (i : Nat) (names prefixes : List String) :
    validateServers durationErr i names prefixes (server :: rest) = none ↔
      ((server.Name ≠ "" ∧ server.Prefix ≠ "" ∧
          (server.Transport = "stdio" ∨ server.Transport = "http") ∧
          (server.Transport = "stdio" → server.Command ≠ "") ∧
          (server.Transport = "http" → server.URL ≠ "") ∧
          (server.Timeout ≠ "" → durationErr server.Timeout = none)) ∧
        server.Name ∉ names ∧ server.Prefix ∉ prefixes ∧
        validateServers durationErr (i + 1) (server.Name :: names) (server.Prefix :: prefixes)
          rest = none) := by
  have hc : ("http" : String) ≠ "stdio" := by decide
  rw [validateServers, ← timeout_check_none]
  by_cases h1 : server.Name = ""
  · simp [h1]
  by_cases h2 : server.Name ∈ names
  · simp [h1, h2]
  by_cases h3 : server.Prefix = ""
  · simp [h1, h2, h3]
  by_cases h4 : server.Prefix ∈ prefixes
  · simp [h1, h2, h3, h4]
  by_cases h5 : server.Transport = "stdio"
  · by_cases h6 : server.Command = ""
    · simp [h1, h2, h3, h4, h5, h6]
    · cases h7 : (if server.Timeout ≠ "" then durationErr server.Timeout else none) with
      | some e => simp [h1, h2, h3, h4, h5, h6]
      | none => simp [h1, h2, h3, h4, h5, h6]
  · by_cases h5b : server.Transport = "http"
    · by_cases h6 : server.URL = ""
      · simp [h1, h2, h3, h4, h5b, h6]
      · cases h7 : (if server.Timeout ≠ "" then durationErr server.Timeout else none) with
        | some e => simp [h1, h2, h3, h4, h5b, h6]
        | none => simp [h1, h2, h3, h4, h5b, h6]
    · simp [h1, h2, h3, h4, h5, h5b]

theorem validateServers_none (durationErr : String → Option String) (l : List ServerConfig) :
    ∀ (i : Nat) (names prefixes : List String),
      validateServers durationErr i names prefixes l = none ↔
        ((∀ s ∈ l, s.Name ≠ "" ∧ s.Prefix ≠ "" ∧
            (s.Transport = "stdio" ∨ s.Transport = "http") ∧
            (s.Transport = "stdio" → s.Command ≠ "") ∧
            (s.Transport = "http" → s.URL ≠ "") ∧
            (s.Timeout ≠ "" → durationErr s.Timeout = none)) ∧
          (l.map (fun s => s.Name)).Nodup ∧ (∀ s ∈ l, s.Name ∉ names) ∧
          (l.map (fun s => s.Prefix)).Nodup ∧ (∀ s ∈ l, s.Prefix ∉ prefixes)) := by
  induction l with
  | nil => intro i names prefixes; simp [validateServers]
  | cons server rest ih =>
    intro i names prefixes
    rw [validateServers_cons, ih]
    simp only [List.mem_cons, forall_eq_or_imp, List.map_cons, List.nodup_cons, List.mem_map,
      not_exists, not_and, not_or]
    constructor
    · rintro ⟨r, n, p, rs, nd, nn, pd, pp⟩
      exact ⟨⟨r, rs⟩, ⟨fun s hs hn => (nn s hs).1 hn, nd⟩, ⟨n, fun s hs => (nn s hs).2⟩,
        ⟨fun s hs hn => (pp s hs).1 hn, pd⟩, p, fun s hs => (pp s hs).2⟩
    · rintro ⟨⟨r, rs⟩, ⟨n1, nd⟩, ⟨n, nn⟩, ⟨p1, pd⟩, p, pp⟩
      exact ⟨r, n, p, rs, nd, fun s hs => ⟨n1 s hs, nn s hs⟩, pd,
        fun s hs => ⟨p1 s hs, pp s hs⟩⟩

/-- C16. For a configuration with at least one server, `Validate` returns nil exactly when
every server has a non-empty name and prefix, a transport that is "stdio" or "http", a
non-empty command if it is a stdio server, a non-empty url if it is an http server and a
timeout that is empty or parses as a duration, no two servers share a name, no two servers
share a prefix, and the two durations of the proxy settings are empty or parse. So it
returns an error whenever one of these rules is violated, and the names and the prefixes
of a configuration that it accepts are pairwise distinct. -/
theorem Validate_rules (durationErr : String → Option String) (c : ProxyConfig)
    (h : c.Servers ≠ []) :
    (c.Validate durationErr = none ↔
      ((∀ s ∈ c.Servers, s.Name ≠ "" ∧ s.Prefix ≠ "" ∧
          (s.Transport = "stdio" ∨ s.Transport = "http") ∧
          (s.Transport = "stdio" → s.Command ≠ "") ∧
          (s.Transport = "http" → s.URL ≠ "") ∧
          (s.Timeout ≠ "" → durationErr s.Timeout = none)) ∧
        (c.Servers.map (fun s => s.Name)).Nodup ∧
        (c.Servers.map (fun s => s.Prefix)).Nodup ∧
        (c.Proxy.HealthCheckInterval ≠ "" → durationErr c.Proxy.HealthCheckInterval = none) ∧
        (c.Proxy.ConnectionTimeout ≠ "" → durationErr c.Proxy.ConnectionTimeout = none))) ∧
    (c.Validate durationErr = none →
      c.Servers.Pairwise (fun a b => a.Name ≠ b.Name ∧ a.Prefix ≠ b.Prefix)) ∧
    (∀ a b rest1 rest2 rest3, c.Servers = rest1 ++ a :: rest2 ++ b :: rest3 →
      (a.Name = b.Name ∨ a.Prefix = b.Prefix) → (c.Validate durationErr).isSome = true) ∧
    (∀ s ∈ c.Servers,
      ((s.Transport ≠ "stdio" ∧ s.Transport ≠ "http") ∨
        (s.Transport = "stdio" ∧ s.Command = "") ∨
        (s.Transport = "http" ∧ s.URL = "") ∨
        (s.Timeout ≠ "" ∧ (durationErr s.Timeout).isSome = true)) →
      (c.Validate durationErr).isSome = true) := by
  have hlen : ¬ c.Servers.length = 0 := by
    intro h0
    exact h (List.length_eq_zero.mp h0)
  have hiff : c.Validate durationErr = none ↔
      ((∀ s ∈ c.Servers, s.Name ≠ "" ∧ s.Prefix ≠ "" ∧
          (s.Transport = "stdio" ∨ s.Transport = "http") ∧
          (s.Transport = "stdio" → s.Command ≠ "") ∧
          (s.Transport = "http" → s.URL ≠ "") ∧
          (s.Timeout ≠ "" → durationErr s.Timeout = none)) ∧
        (c.Servers.map (fun s => s.Name)).Nodup ∧
        (c.Servers.map (fun s => s.Prefix)).Nodup ∧
        (c.Proxy.HealthCheckInterval ≠ "" → durationErr c.Proxy.HealthCheckInterval = none) ∧
        (c.Proxy.ConnectionTimeout ≠ "" → durationErr c.Proxy.ConnectionTimeout = none)) := by
    have hp : validateProxy durationErr c.Proxy = none ↔
        ((c.Proxy.HealthCheckInterval ≠ "" →
            durationErr c.Proxy.HealthCheckInterval = none) ∧
          (c.Proxy.ConnectionTimeout ≠ "" →
            durationErr c.Proxy.ConnectionTimeout = none)) := by
      rw [← timeout_check_none, ← timeout_check_none, validateProxy]
      cases (if c.Proxy.HealthCheckInterval ≠ "" then
          durationErr c.Proxy.HealthCheckInterval else none) with
      | some e => simp
      | none =>
        cases (if c.Proxy.ConnectionTimeout ≠ "" then
            durationErr c.Proxy.ConnectionTimeout else none) with
        | some e => simp
        | none => simp
    have hs := validateServers_none durationErr c.Servers 0 [] []
    unfold ProxyConfig.Validate
    rw [if_neg hlen]
    cases hv : validateServers durationErr 0 [] [] c.Servers with
    | some e =>
      rw [hv] at hs
      simp only [reduceCtorEq, false_iff] at hs
      simp only [reduceCtorEq, false_iff]
      intro hall
      exact hs ⟨hall.1, hall.2.1, fun _ _ => List.not_mem_nil _, hall.2.2.1,
        fun _ _ => List.not_mem_nil _⟩
    | none =>
      rw [hv] at hs
      have hs1 := hs.mp rfl
      simp only [hp]
      exact ⟨fun hh => ⟨hs1.1, hs1.2.1, hs1.2.2.2.1, hh⟩, fun hh => hh.2.2.2⟩
  have hsome : ∀ o : Option String, o ≠ none → o.isSome = true := by
    intro o ho
    cases o with
    | none => exact absurd rfl ho
    | some _ => rfl
  refine ⟨hiff, ?_, ?_, ?_⟩
  · intro hv
    have hall := hiff.mp hv
    have hn := List.pairwise_map.mp hall.2.1
    have hpf := List.pairwise_map.mp hall.2.2.1
    exact hn.and hpf
  · intro a b rest1 rest2 rest3 hsplit hdup
    apply hsome
    intro hv
    have hall := hiff.mp hv
    rw [hsplit] at hall
    rcases hdup with hd | hd
    · have hn := hall.2.1
      simp only [List.map_append, List.map_cons, List.append_assoc, List.cons_append] at hn
      have h1 := (List.nodup_append.mp hn).2.1
      have h2 := (List.nodup_cons.mp h1).1
      apply h2
      rw [hd]
      simp
    · have hn := hall.2.2.1
      simp only [List.map_append, List.map_cons, List.append_assoc, List.cons_append] at hn
      have h1 := (List.nodup_append.mp hn).2.1
      have h2 := (List.nodup_cons.mp h1).1
      apply h2
      rw [hd]
      simp
  · intro s hs hbad
    apply hsome
    intro hv
    have hr := (hiff.mp hv).1 s hs
    rcases hbad with ⟨h1, h2⟩ | ⟨h1, h2⟩ | ⟨h1, h2⟩ | ⟨h1, h2⟩
    · rcases hr.2.2.1 with h3 | h3
      · exact h1 h3
      · exact h2 h3
    · exact hr.2.2.2.1 h1 h2
    · exact hr.2.2.2.2.1 h1 h2
    · rw [hr.2.2.2.2.2 h1] at h2
      exact absurd h2 (by decide)

/-- C16, at a configuration of a stdio server and an http server that `Validate` accepts:
the names are pairwise distinct. -/
theorem Validate_rules_witness :
    twoServers.Servers ≠ [] ∧ twoServers.Validate sampleDurationErr = none ∧
      (twoServers.Servers.map (fun s => s.Name)).Nodup :=
  ⟨by decide, by decide,
    ((Validate_rules sampleDurationErr twoServers (by decide)).1.mp (by decide)).2.1⟩

/-- The errors of `Validate` on configurations that break one rule each. -/
theorem Validate_rejects_examples :
    ProxyConfig.Validate sampleDurationErr
        { Servers := [{ Name := "a", Prefix := "p", Transport := "stdio", Command := "x" },
            { Name := "a", Prefix := "q", Transport := "stdio", Command := "x" }] } =
      some "duplicate server name: a" ∧
    ProxyConfig.Validate sampleDurationErr
        { Servers := [{ Name := "a", Prefix := "p", Transport := "stdio", Command := "x" },
            { Name := "b", Prefix := "p", Transport := "stdio", Command := "x" }] } =
      some "duplicate server prefix: p" ∧
    ProxyConfig.Validate sampleDurationErr
        { Servers := [{ Name := "a", Prefix := "p", Transport := "sse", Command := "x" }] } =
      some "server a: transport must be 'stdio' or 'http'" ∧
    ProxyConfig.Validate sampleDurationErr
        { Servers := [{ Name := "a", Prefix := "p", Transport := "stdio" }] } =
      some "server a: command is required for stdio transport" ∧
    ProxyConfig.Validate sampleDurationErr
        { Servers := [{ Name := "a", Prefix := "p", Transport := "http" }] } =
      some "server a: url is required for http transport" ∧
    ProxyConfig.Validate sampleDurationErr
        { Servers := [
            { Name := "a", Prefix := "p", Transport := "stdio", Command := "x", Timeout := "soon" }] } =
      some "server a: invalid timeout format: time: invalid duration soon" ∧
    ProxyConfig.Validate sampleDurationErr
        { Servers := []
          Proxy := { ConnectionTimeout := "soon" } } =
      none := by
  decide

/-! ## C17: the fields that `ExpandEnvVars` expands -/

theorem Contains_empty (sub : String) (h : sub ≠ "") : Contains "" sub = false := by
  have hd : sub.data ≠ [] := by
    intro h0
    apply h
    cases sub
    simp_all
  unfold Contains
  cases hs : sub.data with
  | nil => exact absurd hs hd
  | cons c l => rfl

theorem expandEnvVar_eq (env : List (String × String)) (value : String) :
    expandEnvVar env value =
      if Contains value "$\x7b" = true then ExpandEnv env value else value := by
  unfold expandEnvVar
  by_cases h : value = ""
  · rw [if_pos h, h, Contains_empty _ (by decide)]
    rfl
  · rw [if_neg h]

theorem LoadConfigFromString_ok (env : List (String × String))
    (durationErr : String → Option String) (config r : ProxyConfig) :
    LoadConfigFromString env durationErr (.ok config) = .ok r ↔
      (r = config.ExpandEnvVars env ∧ (config.ExpandEnvVars env).Validate durationErr = none) := by
  unfold LoadConfigFromString
  cases h : (config.ExpandEnvVars env).Validate durationErr with
  | some e => simp [h]
  | none =>
    simp only [h, Except.ok.injEq, and_true]
    exact eq_comm

/-- C17 (amended). `ExpandEnvVars` changes only the servers, and of every server only the
command, the args, the values of env, the url and the token, username and password of
auth: each becomes `expandEnvVar` of the old value, which is `os.ExpandEnv` of a value that
contains a dollar sign followed by an opening brace and the value itself otherwise. The
name, the prefix, the transport, the timeout and the type of auth stay as they were
parsed. `LoadConfigFromString` and `LoadConfig` return a configuration exactly when
`Validate` accepts the parsed configuration after `ExpandEnvVars`, and they return that
expanded configuration. -/
theorem ExpandEnvVars_fields (env : List (String × String))
    (durationErr : String → Option String) (c : ProxyConfig) :
    (c.ExpandEnvVars env).Proxy = c.Proxy ∧
    List.Forall₂ (fun s t : ServerConfig =>
        t.Name = s.Name ∧ t.Prefix = s.Prefix ∧ t.Transport = s.Transport ∧
        t.Timeout = s.Timeout ∧
        t.Command = expandEnvVar env s.Command ∧
        t.Args = s.Args.map (expandEnvVar env) ∧
        t.Env = s.Env.map (fun kv => (kv.1, expandEnvVar env kv.2)) ∧
        t.URL = expandEnvVar env s.URL ∧
        (s.Auth = none → t.Auth = none) ∧
        (∀ a, s.Auth = some a → ∃ b, t.Auth = some b ∧ b.Typ = a.Typ ∧
          b.Token = expandEnvVar env a.Token ∧ b.Username = expandEnvVar env a.Username ∧
          b.Password = expandEnvVar env a.Password))
      c.Servers (c.ExpandEnvVars env).Servers ∧
    (∀ value : String, expandEnvVar env value =
      if Contains value "$\x7b" = true then ExpandEnv env value else value) ∧
    (∀ r, LoadConfigFromString env durationErr (.ok c) = .ok r ↔
      (r = c.ExpandEnvVars env ∧ (c.ExpandEnvVars env).Validate durationErr = none)) ∧
    (∀ r, LoadConfig env durationErr (.ok (.ok c)) = .ok r ↔
      (r = c.ExpandEnvVars env ∧ (c.ExpandEnvVars env).Validate durationErr = none)) := by
  refine ⟨rfl, ?_, expandEnvVar_eq env, LoadConfigFromString_ok env durationErr c,
    LoadConfigFromString_ok env durationErr c⟩
  show List.Forall₂ _ c.Servers (c.Servers.map (expandServer env))
  rw [List.forall₂_map_right_iff, List.forall₂_same]
  intro s _
  refine ⟨rfl, rfl, rfl, rfl, rfl, rfl, rfl, rfl, ?_, ?_⟩
  · intro h
    show s.Auth.map _ = none
    rw [h]
    rfl
  · intro a h
    refine ⟨{ a with
        Token := expandEnvVar env a.Token
        Username := expandEnvVar env a.Username
        Password := expandEnvVar env a.Password }, ?_, rfl, rfl, rfl, rfl⟩
    show s.Auth.map _ = _
    rw [h]
    rfl

/-- C17 (amended), at a server whose every string field holds a reference. -/
theorem ExpandEnvVars_fields_witness :
    (referenceConfig.ExpandEnvVars toolEnv).Proxy = referenceConfig.Proxy ∧
    (referenceConfig.ExpandEnvVars toolEnv).Servers.map
        (fun s => (s.Name, s.Command, s.Args, s.URL)) =
      [("$\x7bN\x7d", "xyz", ["a"], "a")] :=
  ⟨(ExpandEnvVars_fields toolEnv sampleDurationErr referenceConfig).1, by decide⟩

/-- C17 as stated fails: with `N` set to `a` and `TOOL` to `xyz`, `ExpandEnvVars` on a
server whose every string field is a reference leaves the name, the prefix, the timeout and
the type of auth unexpanded, and `Validate`, run after it by `LoadConfigFromString`,
reports the unexpanded name and timeout. -/
theorem ExpandEnvVars_skips_fields_counterexample :
    referenceConfig.ExpandEnvVars toolEnv = referenceExpanded ∧
    (referenceExpanded.Servers.map
        (fun s => (s.Name, s.Prefix, s.Timeout, s.Auth.map (fun a => a.Typ)))) =
      [("$\x7bN\x7d", "$\x7bN\x7d", "$\x7bN\x7d", some "$\x7bN\x7d")] ∧
    Getenv toolEnv "N" = "a" ∧
    LoadConfigFromString toolEnv sampleDurationErr (.ok referenceConfig) =
      .error ("invalid configuration: server $\x7bN\x7d: invalid timeout format: " ++
        "time: invalid duration $\x7bN\x7d") := by
  decide

/-! ## C18: the references that `expandEnvVar` expands -/

theorem expandAux_skip (mapping : String → String) (l : List Char) :
    ∀ k : Nat, expandAux mapping k l = expandAux mapping 0 (l.drop k) := by
  induction l with
  | nil => intro k; cases k <;> rfl
  | cons c rest ih =>
    intro k
    cases k with
    | zero => rfl
    | succ k =>
      rw [expandAux, ih k]
      rfl

theorem expandAux_pre (mapping : String → String) (pre rest : List Char)
    (h : '$' ∉ pre) : expandAux mapping 0 (pre ++ rest) = pre ++ expandAux mapping 0 rest := by
  induction pre with
  | nil => rfl
  | cons c pre ih =>
    have hc : c ≠ '$' := fun e => h (e ▸ List.mem_cons_self _ _)
    have hp : '$' ∉ pre := fun e => h (List.mem_cons_of_mem _ e)
    rw [List.cons_append, expandAux, if_neg (fun hh => hc hh.1), ih hp]
    rfl

theorem scanBrace_name (name post : List Char) (h : '\x7d' ∉ name) :
    scanBrace (name ++ '\x7d' :: post) = some name := by
  induction name with
  | nil => simp [scanBrace]
  | cons c name ih =>
    have hc : c ≠ '\x7d' := fun e => h (e ▸ List.mem_cons_self _ _)
    have hp : '\x7d' ∉ name := fun e => h (List.mem_cons_of_mem _ e)
    rw [List.cons_append, scanBrace, if_neg hc, ih hp]
    rfl

theorem getShellName_braces (name post : List Char) (h0 : name ≠ [])
    (h : '\x7d' ∉ name) :
    getShellName ('\x7b' :: (name ++ '\x7d' :: post)) = (name, name.length + 2) := by
  have hs := scanBrace_name name post h
  cases name with
  | nil => exact absurd rfl h0
  | cons c1 name =>
    have hc : c1 ≠ '\x7d' := fun e => h (e ▸ List.mem_cons_self _ _)
    cases name with
    | nil =>
      simp only [List.cons_append, List.nil_append] at hs ⊢
      by_cases hsp : isShellSpecialVar c1 = true
      · simp [getShellName, hsp]
      · simp [getShellName, hsp, hs]
    | cons c2 name =>
      have hc2 : c2 ≠ '\x7d' := fun e =>
        h (e ▸ List.mem_cons_of_mem _ (List.mem_cons_self _ _))
      simp only [List.cons_append] at hs ⊢
      simp [getShellName, hc2, hs]

theorem expandAux_reference (mapping : String → String) (name post : List Char)
    (h0 : name ≠ []) (h : '\x7d' ∉ name) :
    expandAux mapping 0 ('$' :: '\x7b' :: (name ++ '\x7d' :: post)) =
      (mapping (String.mk name)).data ++ expandAux mapping 0 post := by
  have hd : List.drop (name.length + 2) ('\x7b' :: (name ++ '\x7d' :: post)) = post := by
    rw [show name.length + 2 = (name.length + 1) + 1 from rfl, List.drop_succ_cons,
      show name ++ '\x7d' :: post = (name ++ ['\x7d']) ++ post by simp,
      show name.length + 1 = (name ++ ['\x7d']).length by simp, List.drop_left]
  rw [expandAux, getShellName_braces name post h0 h, expandAux_skip, hd]
  simp [h0]

theorem containsChars_reference (pre rest : List Char) :
    containsChars (pre ++ '$' :: '\x7b' :: rest) ['$', '\x7b'] = true := by
  induction pre with
  | nil => simp [containsChars, hasPrefixChars]
  | cons c pre ih =>
    rw [List.cons_append, containsChars, ih]
    simp

/-- C18 (amended). `expandEnvVar` returns a value that holds no dollar sign followed by an
opening brace as it is, so a reference written as a dollar sign and a name alone is not
replaced. In a value that holds, after a text without dollar sign, a dollar sign, an
opening brace, a non-empty name and a closing brace, that reference is replaced by the
value of the variable (the empty string when it is not set), and what follows is expanded
by `os.ExpandEnv`. The command of every server of a configuration that
`LoadConfigFromString` or `LoadConfig` returns is `expandEnvVar` of the command parsed. -/
theorem expandEnvVar_command (env : List (String × String))
    (durationErr : String → Option String) :
    (∀ value : String, Contains value "$\x7b" = false → expandEnvVar env value = value) ∧
    (∀ pre name post : List Char, '$' ∉ pre → name ≠ [] → '\x7d' ∉ name →
      expandEnvVar env (String.mk (pre ++ '$' :: '\x7b' :: (name ++ '\x7d' :: post))) =
        String.mk (pre ++ (Getenv env (String.mk name)).data ++
          (ExpandEnv env (String.mk post)).data)) ∧
    (∀ config r, LoadConfigFromString env durationErr (.ok config) = .ok r →
      r.Servers.map (fun s => s.Command) =
        config.Servers.map (fun s => expandEnvVar env s.Command)) ∧
    (∀ config r, LoadConfig env durationErr (.ok (.ok config)) = .ok r →
      r.Servers.map (fun s => s.Command) =
        config.Servers.map (fun s => expandEnvVar env s.Command)) := by
  have hload : ∀ config r, LoadConfigFromString env durationErr (.ok config) = .ok r →
      r.Servers.map (fun s => s.Command) =
        config.Servers.map (fun s => expandEnvVar env s.Command) := by
    intro config r h
    rw [((LoadConfigFromString_ok env durationErr config r).mp h).1]
    show (config.Servers.map (expandServer env)).map _ = _
    rw [List.map_map]
    rfl
  refine ⟨?_, ?_, hload, hload⟩
  · intro value h
    rw [expandEnvVar_eq, h]
    rfl
  · intro pre name post hpre h0 h
    rw [expandEnvVar_eq]
    have hc : Contains (String.mk (pre ++ '$' :: '\x7b' :: (name ++ '\x7d' :: post)))
        "$\x7b" = true := containsChars_reference pre _
    rw [hc, if_pos rfl]
    unfold ExpandEnv
    rw [expandAux_pre _ _ _ hpre, expandAux_reference _ _ _ h0 h, List.append_assoc]

/-- C18 (amended), at the command "/bin/" followed by the reference to `TOOL` in braces,
with `TOOL` set to `xyz`: the command loaded is "/bin/xyz". -/
theorem expandEnvVar_command_witness :
    expandEnvVar toolEnv "/bin/$\x7bTOOL\x7d" = "/bin/xyz" ∧
    LoadConfigFromString toolEnv sampleDurationErr
        (.ok (configWithCommand "/bin/$\x7bTOOL\x7d")) =
      .ok (configWithCommand "/bin/xyz") ∧
    expandEnvVar toolEnv "$\x7bN\x7d/bin/$TOOL" = "a/bin/xyz" :=
  ⟨(expandEnvVar_command toolEnv sampleDurationErr).2.1 "/bin/".data "TOOL".data []
      (by decide) (by decide) (by decide),
    by decide, by decide⟩

/-- C18 as stated fails: with `TOOL` set to `xyz`, the command "/bin/$TOOL" is loaded as
it is, by `LoadConfigFromString` and by `LoadConfig`. -/
theorem expandEnvVar_dollar_name_counterexample :
    Getenv toolEnv "TOOL" = "xyz" ∧
    expandEnvVar toolEnv "/bin/$TOOL" = "/bin/$TOOL" ∧
    LoadConfigFromString toolEnv sampleDurationErr (.ok (configWithCommand "/bin/$TOOL")) =
      .ok (configWithCommand "/bin/$TOOL") ∧
    LoadConfig toolEnv sampleDurationErr (.ok (.ok (configWithCommand "/bin/$TOOL"))) =
      .ok (configWithCommand "/bin/$TOOL") := by
  decide

/-! ## C15: prefixed tool names -/

theorem append_left_cancel_str (a b c : String) (h : a ++ b = a ++ c) : b = c := by
  have hd := congrArg String.data h
  simp only [String.data_append] at hd
  exact String.ext (List.append_cancel_left hd)

/-- A loop that binds, for every element that passes a test, a key to a value: a binding
with a property that every value written has stays a binding with that property. -/
theorem foldl_set_keeps {α β : Type} (key : β → String) (val : β → α) (test : β → Bool)
    (Q : String → α → Prop) (l : List β) :
    (∀ b ∈ l, Q (key b) (val b)) →
    ∀ (m : List (String × α)) (p : String), (∃ v, GoMap.get m p = some v ∧ Q p v) →
      ∃ v, GoMap.get (l.foldl (fun m b => if test b then GoMap.set m (key b) (val b) else m)
        m) p = some v ∧ Q p v := by
  induction l with
  | nil => intro _ m p h; exact h
  | cons b l ih =>
    intro hQ m p h
    rw [List.foldl_cons]
    apply ih (fun a ha => hQ a (List.mem_cons_of_mem _ ha))
    by_cases ht : test b = true
    · rw [if_pos ht, GoMap.get_set]
      by_cases hk : key b = p
      · rw [if_pos hk]
        exact ⟨val b, rfl, hk ▸ hQ b (List.mem_cons_self _ _)⟩
      · rw [if_neg hk]
        exact h
    · rw [if_neg ht]
      exact h

theorem foldl_set_binds {α β : Type} (key : β → String) (val : β → α) (test : β → Bool)
    (Q : String → α → Prop) (l : List β) :
    (∀ b ∈ l, Q (key b) (val b)) →
    ∀ (m : List (String × α)) (b : β), b ∈ l → test b = true →
      ∃ v, GoMap.get (l.foldl (fun m b => if test b then GoMap.set m (key b) (val b) else m)
        m) (key b) = some v ∧ Q (key b) v := by
  induction l with
  | nil => intro _ m b hb; exact absurd hb (List.not_mem_nil _)
  | cons a l ih =>
    intro hQ m b hb ht
    rw [List.foldl_cons]
    rcases List.mem_cons.mp hb with rfl | hb
    · apply foldl_set_keeps key val test Q l (fun a ha => hQ a (List.mem_cons_of_mem _ ha))
      rw [if_pos ht, GoMap.get_set_same]
      exact ⟨val b, rfl, hQ b (List.mem_cons_self _ _)⟩
    · exact ih (fun a ha => hQ a (List.mem_cons_of_mem _ ha)) _ b hb ht

theorem registerOne_fold_tools (name : String) (c : ClientRef) (tools : List ToolInfo) :
    ∀ acc : ToolRegistry × List (String × McpTool × Handler) × List String,
      (tools.foldl (registerOne name c) acc).1.tools =
        tools.foldl (fun m t => if (fun _ : ToolInfo => true) t then
          GoMap.set m (name ++ "_" ++ t.Name) (reconnectTool name t) else m) acc.1.tools := by
  induction tools with
  | nil => intro acc; rfl
  | cons t tools ih =>
    intro acc
    rw [List.foldl_cons, ih, List.foldl_cons]
    rfl

theorem registerOne_fold_baseTools (name : String) (c : ClientRef) (tools : List ToolInfo) :
    ∀ acc : ToolRegistry × List (String × McpTool × Handler) × List String,
      (tools.foldl (registerOne name c) acc).2.1 =
        tools.foldl (fun m t => if (fun _ : ToolInfo => true) t then
          GoMap.set m (name ++ "_" ++ t.Name)
            (createMCPTool (reconnectTool name t), Handler.dynamicProxy name t.Name)
          else m) acc.2.1 := by
  induction tools with
  | nil => intro acc; rfl
  | cons t tools ih =>
    intro acc
    rw [List.foldl_cons, ih, List.foldl_cons]
    rfl

theorem registerOne_fold_names (name : String) (c : ClientRef) (tools : List ToolInfo) :
    ∀ acc : ToolRegistry × List (String × McpTool × Handler) × List String,
      (tools.foldl (registerOne name c) acc).2.2 =
        acc.2.2 ++ tools.map (fun t => name ++ "_" ++ t.Name) := by
  induction tools with
  | nil => intro acc; simp
  | cons t tools ih =>
    intro acc
    rw [List.foldl_cons, ih, List.map_cons]
    simp [registerOne]

theorem reregisterOne_fold_tools (name : String) (registered : List String) (c : ClientRef)
    (tools : List ToolInfo) :
    ∀ r : ToolRegistry,
      (tools.foldl (reregisterOne name registered c) r).tools =
        tools.foldl (fun m t => if (fun t : ToolInfo =>
            registered.contains (name ++ "_" ++ t.Name)) t then
          GoMap.set m (name ++ "_" ++ t.Name) (reconnectTool name t) else m) r.tools := by
  induction tools with
  | nil => intro r; rfl
  | cons t tools ih =>
    intro r
    rw [List.foldl_cons, ih, List.foldl_cons]
    congr 1
    unfold reregisterOne
    by_cases h : registered.contains (name ++ "_" ++ t.Name) = true
    · simp only [h, if_true]
      rfl
    · simp only [h, if_false]
      rfl

theorem registerDiscovered_fold_tools (registerErr : String → Option String) (c : ClientRef)
    (ds : List DiscoveredTool) :
    ∀ acc : DynamicProxyServer × List String,
      (ds.foldl (registerDiscovered registerErr c) acc).1.mcpTools =
        ds.foldl (fun m d => if (fun d : DiscoveredTool =>
            (registerErr d.PrefixedName).isNone) d then
          GoMap.set m d.PrefixedName
            { Description := "[" ++ d.ServerName ++ "] " ++ d.Description,
              Target := d.OriginalName, Client := c }
          else m) acc.1.mcpTools := by
  induction ds with
  | nil => intro acc; rfl
  | cons d ds ih =>
    intro acc
    rw [List.foldl_cons, ih, List.foldl_cons]
    congr 1
    unfold registerDiscovered DynamicProxyServer.registerTool
    cases h : registerErr d.PrefixedName with
    | some e => simp [h]
    | none => simp [h]

theorem registerDiscovered_fold_names (registerErr : String → Option String) (c : ClientRef)
    (ds : List DiscoveredTool) :
    ∀ acc : DynamicProxyServer × List String,
      (ds.foldl (registerDiscovered registerErr c) acc).2 =
        acc.2 ++ (ds.filter (fun d => (registerErr d.PrefixedName).isNone)).map
          (fun d => d.PrefixedName) := by
  induction ds with
  | nil => intro acc; simp
  | cons d ds ih =>
    intro acc
    rw [List.foldl_cons, ih]
    unfold registerDiscovered DynamicProxyServer.registerTool
    cases h : registerErr d.PrefixedName with
    | some e => simp [h]
    | none => simp [h]

theorem registerDiscovered_fold_registry (registerErr : String → Option String)
    (c : ClientRef) (ds : List DiscoveredTool) :
    ∀ acc : DynamicProxyServer × List String,
      (ds.foldl (registerDiscovered registerErr c) acc).1.toolRegistry =
        acc.1.toolRegistry := by
  induction ds with
  | nil => intro acc; rfl
  | cons d ds ih =>
    intro acc
    rw [List.foldl_cons, ih]
    unfold registerDiscovered DynamicProxyServer.registerTool
    cases h : registerErr d.PrefixedName with
    | some e => simp
    | none => simp

/-- C15. The prefixed name of a tool is the prefix of its server, "_" and the name that the
downstream server gave: in `CreatePrefixedTool` and in the tools that static discovery
builds with it; in the bindings, the handlers and the entry that a successful `server_add`
writes, where the prefix is the server name; in the bindings that a successful
`server_reconnect` writes; and in the tools that `ConnectToServer` registers. The original
name stored with each of them is the downstream name unchanged. -/
theorem prefixed_name_format :
    (∀ (serverName serverPrefix : String) (tool : DiscoveryToolInfo),
      (CreatePrefixedTool serverName serverPrefix tool).PrefixedName =
          serverPrefix ++ "_" ++ tool.Name ∧
        (CreatePrefixedTool serverName serverPrefix tool).OriginalName = tool.Name) ∧
    (∀ (cfg : ServerConfig) (toolInfos : List ToolInfo),
      (convertToPrefixed cfg toolInfos).map (fun r => (r.PrefixedName, r.OriginalName)) =
        toolInfos.map (fun t => (cfg.Prefix ++ "_" ++ t.Name, t.Name))) ∧
    (∀ (w : DynamicWrapper) (world : ConnectWorld) (request : CallToolRequest) (r : Reply),
      handleServerAdd w world request = .ok r → r.result.IsError = false →
      ∃ name command cmd args client tools info,
        request.RequireString "name" = some name ∧
        request.RequireString "command" = some command ∧ Fields command = cmd :: args ∧
        connectAndList name cmd args world = .ok (client, tools) ∧
        GoMap.get r.state.dynamicServers name = some info ∧
        info.Config.Name = name ∧ info.Config.Prefix = name ∧
        info.Tools = tools.map (fun t => name ++ "_" ++ t.Name) ∧
        ∀ t ∈ tools,
          (∃ rt, r.state.registry.GetTool (name ++ "_" ++ t.Name) = some rt ∧
            rt.PrefixedName = name ++ "_" ++ t.Name ∧ rt.OriginalName = t.Name ∧
            rt.ServerName = name) ∧
          (∃ mt, GoMap.get r.state.baseTools (name ++ "_" ++ t.Name) =
            some (mt, Handler.dynamicProxy name t.Name) ∧
            mt.Name = name ++ "_" ++ t.Name)) ∧
    (∀ (w : DynamicWrapper) (world : ConnectWorld) (request : CallToolRequest) (r : Reply),
      handleServerReconnect w world request = .ok r → r.result.IsError = false →
      ∃ name command cmd args client tools info0 info,
        request.RequireString "name" = some name ∧
        request.RequireString "command" = some command ∧ Fields command = cmd :: args ∧
        connectAndList name cmd args world = .ok (client, tools) ∧
        GoMap.get w.dynamicServers name = some info0 ∧
        GoMap.get r.state.dynamicServers name = some info ∧
        info.Config.Name = name ∧ info.Config.Prefix = name ∧ info.Tools = info0.Tools ∧
        ∀ t ∈ tools, name ++ "_" ++ t.Name ∈ info0.Tools →
          ∃ rt, r.state.registry.GetTool (name ++ "_" ++ t.Name) = some rt ∧
            rt.PrefixedName = name ++ "_" ++ t.Name ∧ rt.OriginalName = t.Name ∧
            rt.ServerName = name) ∧
    (∀ (p p1 : DynamicProxyServer) (cfg : ServerConfig) (connected : Except String ClientRef)
        (listed : Except String (List ToolInfo)) (registerErr : String → Option String),
      p.ConnectToServer cfg connected listed registerErr = (p1, none) →
      ∃ tools, listed = .ok tools ∧
        (∀ d ∈ convertDiscovered cfg tools,
          d.PrefixedName = cfg.Prefix ++ "_" ++ d.OriginalName) ∧
        (convertDiscovered cfg tools).map (fun d => d.OriginalName) =
          tools.map (fun t => t.Name) ∧
        GoMap.get p1.toolRegistry cfg.Name =
          some ((tools.filter
              (fun t => (registerErr (cfg.Prefix ++ "_" ++ t.Name)).isNone)).map
            (fun t => cfg.Prefix ++ "_" ++ t.Name)) ∧
        ∀ t ∈ tools, registerErr (cfg.Prefix ++ "_" ++ t.Name) = none →
          ∃ e, GoMap.get p1.mcpTools (cfg.Prefix ++ "_" ++ t.Name) = some e ∧
            e.Target = t.Name) := by
  refine ⟨fun _ _ _ => ⟨rfl, rfl⟩, ?_, ?_, ?_, ?_⟩
  · intro cfg toolInfos
    simp [convertToPrefixed, CreatePrefixedTool]
  · intro w world request r h herr
    rcases handleServerAdd_cases w world request r h with ⟨_, he⟩ | hok
    · rw [he] at herr
      exact absurd herr (by decide)
    obtain ⟨name, command, cmd, args, client, tools, hn, hc, _, hf, hcl, _, hst⟩ := hok
    have hinfo : ∃ info, GoMap.get r.state.dynamicServers name = some info ∧
        info.Config.Name = name ∧ info.Config.Prefix = name ∧
        info.Tools = tools.map (fun t => name ++ "_" ++ t.Name) := by
      rw [hst]
      refine ⟨_, GoMap.get_set_same _ _ _, rfl, rfl, ?_⟩
      show (tools.foldl (registerOne name w.heap.length) (w.registry, w.baseTools, [])).2.2 = _
      rw [registerOne_fold_names]
      rfl
    obtain ⟨info, hi1, hi2, hi3, hi4⟩ := hinfo
    refine ⟨name, command, cmd, args, client, tools, info, hn, hc, hf, hcl, hi1, hi2, hi3,
      hi4, ?_⟩
    intro t ht
    constructor
    · have hb := foldl_set_binds (fun t : ToolInfo => name ++ "_" ++ t.Name)
        (reconnectTool name) (fun _ => true)
        (fun p rt => rt.PrefixedName = p ∧ name ++ "_" ++ rt.OriginalName = p ∧
          rt.ServerName = name) tools
        (fun b _ => ⟨rfl, rfl, rfl⟩) w.registry.tools t ht rfl
      obtain ⟨rt, hget, h1, h2, h3⟩ := hb
      refine ⟨rt, ?_, h1, append_left_cancel_str _ _ _ h2, h3⟩
      rw [hst]
      show GoMap.get (tools.foldl (registerOne name w.heap.length)
        (w.registry, w.baseTools, [])).1.tools _ = _
      rw [registerOne_fold_tools]
      exact hget
    · have hb := foldl_set_binds (fun t : ToolInfo => name ++ "_" ++ t.Name)
        (fun t => (createMCPTool (reconnectTool name t), Handler.dynamicProxy name t.Name))
        (fun _ => true)
        (fun p v => v.1.Name = p ∧
          ∃ orig, v.2 = Handler.dynamicProxy name orig ∧ name ++ "_" ++ orig = p) tools
        (fun b _ => ⟨rfl, b.Name, rfl, rfl⟩) w.baseTools t ht rfl
      obtain ⟨⟨mt, hd⟩, hget, h1, orig, h2, h3⟩ := hb
      have ho : orig = t.Name := append_left_cancel_str _ _ _ h3
      simp only at h1 h2
      rw [ho] at h2
      refine ⟨mt, ?_, h1⟩
      rw [hst, ← h2]
      show GoMap.get (tools.foldl (registerOne name w.heap.length)
        (w.registry, w.baseTools, [])).2.1 _ = _
      rw [registerOne_fold_baseTools]
      exact hget
  · intro w world request r h herr
    rcases handleServerReconnect_cases w world request r h with ⟨_, he⟩ | hfail | hok
    · rw [he] at herr
      exact absurd herr (by decide)
    · obtain ⟨_, _, _, _, _, _, _, he, _⟩ := hfail
      rw [he] at herr
      exact absurd herr (by decide)
    obtain ⟨name, command, cmd, args, info0, client, tools, clients1, hn, hc, hg, _, hf, hcl,
      _, _, hst⟩ := hok
    have hinfo : ∃ info, GoMap.get r.state.dynamicServers name = some info ∧
        info.Config.Name = name ∧ info.Config.Prefix = name ∧ info.Tools = info0.Tools := by
      rw [hst]
      exact ⟨_, GoMap.get_set_same _ _ _, rfl, rfl, rfl⟩
    obtain ⟨info, hi1, hi2, hi3, hi4⟩ := hinfo
    refine ⟨name, command, cmd, args, client, tools, info0, info, hn, hc, hf, hcl, hg, hi1,
      hi2, hi3, hi4, ?_⟩
    intro t ht hreg
    have hb := foldl_set_binds (fun t : ToolInfo => name ++ "_" ++ t.Name)
      (reconnectTool name) (fun t => info0.Tools.contains (name ++ "_" ++ t.Name))
      (fun p rt => rt.PrefixedName = p ∧ name ++ "_" ++ rt.OriginalName = p ∧
        rt.ServerName = name) tools
      (fun b _ => ⟨rfl, rfl, rfl⟩) w.registry.tools t ht (by simpa using hreg)
    obtain ⟨rt, hget, h1, h2, h3⟩ := hb
    refine ⟨rt, ?_, h1, append_left_cancel_str _ _ _ h2, h3⟩
    rw [hst]
    show GoMap.get (tools.foldl (reregisterOne name info0.Tools w.heap.length)
      w.registry).tools _ = _
    rw [reregisterOne_fold_tools]
    exact hget
  · intro p p1 cfg connected listed registerErr h
    unfold DynamicProxyServer.ConnectToServer at h
    by_cases hex : (GoMap.get p.clients cfg.Name).isSome = true
    · simp [hex] at h
    cases connected with
    | error e => simp [hex] at h
    | ok mcpClient =>
      cases listed with
      | error e => simp [hex] at h
      | ok tools =>
        simp only [hex, Bool.false_eq_true, if_false, Prod.mk.injEq, and_true] at h
        refine ⟨tools, rfl, ?_, ?_, ?_, ?_⟩
        · intro d hd
          simp only [convertDiscovered, List.mem_map] at hd
          obtain ⟨t, _, rfl⟩ := hd
          rfl
        · simp [convertDiscovered]
        · rw [← h]
          simp only [GoMap.get_set_same, registerDiscovered_fold_names, List.nil_append,
            convertDiscovered, List.filter_map, List.map_map]
          rfl
        · intro t ht hnone
          have hd : (⟨t.Name, cfg.Prefix ++ "_" ++ t.Name, t.Description, cfg.Name⟩ :
              DiscoveredTool) ∈ convertDiscovered cfg tools := by
            simp only [convertDiscovered, List.mem_map]
            exact ⟨t, ht, rfl⟩
          have hb := foldl_set_binds (fun d : DiscoveredTool => d.PrefixedName)
            (fun d => (⟨"[" ++ d.ServerName ++ "] " ++ d.Description, d.OriginalName,
              mcpClient⟩ : ProxyToolEntry))
            (fun d => (registerErr d.PrefixedName).isNone)
            (fun p e => cfg.Prefix ++ "_" ++ e.Target = p) (convertDiscovered cfg tools)
            (by
              intro d hd
              simp only [convertDiscovered, List.mem_map] at hd
              obtain ⟨t, _, rfl⟩ := hd
              rfl)
            p.mcpTools _ hd
            (by simp [hnone])
          obtain ⟨e, hget, hq⟩ := hb
          refine ⟨e, ?_, append_left_cancel_str _ _ _ hq⟩
          rw [← h]
          show GoMap.get (List.foldl (registerDiscovered registerErr mcpClient) _
            (convertDiscovered cfg tools)).1.mcpTools _ = _
          rw [registerDiscovered_fold_tools]
          exact hget

/-- C15, at the server "math" with prefix "m" and the tools `add` and `sub`, and at
`server_add("s")` for a server with the tools `hi` and `bye`. -/
theorem prefixed_name_format_witness :
    (CreatePrefixedTool "math" "m" { Name := "add" }).PrefixedName = "m" ++ "_" ++ "add" ∧
    (convertToPrefixed mathServer mathTools).map
        (fun r => (r.PrefixedName, r.OriginalName, r.ServerName)) =
      [("m_add", "add", "math"), ("m_sub", "sub", "math")] ∧
    (DynamicProxyServer.ConnectToServer {} mathServer (.ok 0) (.ok mathTools)
        (fun _ => none)).1.toolRegistry = [("math", ["m_add", "m_sub"])] ∧
    (afterOps [addS]).dynamicServers.map (fun e => (e.1, e.2.Config.Prefix, e.2.Tools)) =
      [("s", "s", ["s_hi", "s_bye"])] ∧
    (afterOps [addS]).registry.tools.map (fun e => (e.1, e.2.OriginalName)) =
      [("s_hi", "hi"), ("s_bye", "bye")] :=
  ⟨(prefixed_name_format.1 "math" "m" { Name := "add" }).1, by decide, by decide, by decide,
    by decide⟩

/-! ## C14: the request envelope there and back -/

theorem roundToMultiple_zero (n : Nat) : roundToMultiple n 0 = n := by
  simp [roundToMultiple, Nat.mod_one]

theorem float64OfNat_exact (n : Nat) (h : n ≤ 2 ^ 53) :
    float64OfNat n = n ∧ float64Exp 1024 0 n ≤ 1 := by
  by_cases h1 : n < 2 ^ 53
  · have he : float64Exp 1024 0 n = 0 := by
      show (if n < 2 ^ (53 + 0) then 0 else float64Exp 1023 (0 + 1) n) = 0
      rw [if_pos h1]
    rw [float64OfNat, he, roundToMultiple_zero]
    exact ⟨rfl, by omega⟩
  · have hn : n = 2 ^ 53 := by omega
    subst hn
    exact ⟨by decide, by decide⟩

theorem float64OfInt_exact (n : Int) (h : n.natAbs ≤ 2 ^ 53) :
    float64OfInt n = n ∧ float64Overflows n = false := by
  have h1 := float64OfNat_exact n.natAbs h
  constructor
  · unfold float64OfInt
    rw [h1.1]
    by_cases hn : n < 0
    · rw [if_pos hn]
      omega
    · rw [if_neg hn]
      omega
  · unfold float64Overflows
    rw [h1.1]
    simp only [decide_eq_false_iff_not]
    omega

theorem GoMap.set_append_new {α : Type} (m : List (String × α)) (k : String) (v : α)
    (h : k ∉ m.map Prod.fst) : GoMap.set m k v = m ++ [(k, v)] := by
  induction m with
  | nil => rfl
  | cons kv m ih =>
    obtain ⟨k1, v1⟩ := kv
    simp only [List.map_cons, List.mem_cons, not_or] at h
    have hne : ¬ k1 = k := fun e => h.1 e.symm
    simp only [GoMap.set, hne, if_false, ih h.2, List.cons_append]

theorem foldl_set_of_nodup {α : Type} (kvs : List (String × α)) :
    ∀ acc : List (String × α), ((acc ++ kvs).map Prod.fst).Nodup →
      kvs.foldl (fun acc kv => GoMap.set acc kv.1 kv.2) acc = acc ++ kvs := by
  induction kvs with
  | nil => intro acc _; simp
  | cons kv kvs ih =>
    intro acc h
    have hk : kv.1 ∉ acc.map Prod.fst := by
      simp only [List.map_append, List.map_cons] at h
      have h2 := (List.nodup_append.mp h).2.2
      intro hmem
      exact h2 hmem (List.mem_cons_self _ _) 
    rw [List.foldl_cons, GoMap.set_append_new _ _ _ hk, ih]
    · simp
    · simpa using h

mutual
theorem decodeInterface_exact (floatText : String → Option Json) :
    ∀ j : Json, Json.exact floatText j = true → decodeInterface floatText j = .ok j
  | .null, _ => rfl
  | .bool _, _ => rfl
  | .int n, h => by
    have hn : n.natAbs ≤ 2 ^ 53 := by simpa [Json.exact] using h
    have h1 := float64OfInt_exact n hn
    simp [decodeInterface, h1.1, h1.2]
  | .frac t, h => by
    have ht : floatText t = some (.frac t) := by simpa [Json.exact] using h
    simp [decodeInterface, ht]
  | .str _, _ => rfl
  | .arr xs, h => by
    have hx : Json.exactList floatText xs = true := by simpa [Json.exact] using h
    simp [decodeInterface, decodeInterfaceList_exact floatText xs hx]
  | .obj kvs, h => by
    have hx : Json.exactFields floatText kvs = true ∧ (kvs.map Prod.fst).Nodup := by
      simpa [Json.exact] using h
    simp only [decodeInterface, decodeInterfaceFields_exact floatText kvs hx.1]
    rw [foldl_set_of_nodup kvs [] (by simpa using hx.2)]
    rfl
theorem decodeInterfaceList_exact (floatText : String → Option Json) :
    ∀ xs : List Json, Json.exactList floatText xs = true →
      decodeInterfaceList floatText xs = .ok xs
  | [], _ => rfl
  | x :: xs, h => by
    have hx : Json.exact floatText x = true ∧ Json.exactList floatText xs = true := by
      simpa [Json.exactList] using h
    simp [decodeInterfaceList, decodeInterface_exact floatText x hx.1,
      decodeInterfaceList_exact floatText xs hx.2]
theorem decodeInterfaceFields_exact (floatText : String → Option Json) :
    ∀ kvs : List (String × Json), Json.exactFields floatText kvs = true →
      decodeInterfaceFields floatText kvs = .ok kvs
  | [], _ => rfl
  | (k, x) :: kvs, h => by
    have hx : Json.exact floatText x = true ∧ Json.exactFields floatText kvs = true := by
      simpa [Json.exactFields] using h
    simp [decodeInterfaceFields, decodeInterface_exact floatText x hx.1,
      decodeInterfaceFields_exact floatText kvs hx.2]
end

theorem keyIs_jsonrpc_jsonrpc : keyIs "jsonrpc" "jsonrpc" = true := by decide
theorem keyIs_jsonrpc_method : keyIs "jsonrpc" "method" = false := by decide
theorem keyIs_method_method : keyIs "method" "method" = true := by decide
theorem keyIs_jsonrpc_params : keyIs "jsonrpc" "params" = false := by decide
theorem keyIs_method_params : keyIs "method" "params" = false := by decide
theorem keyIs_params_params : keyIs "params" "params" = true := by decide
theorem keyIs_jsonrpc_id : keyIs "jsonrpc" "id" = false := by decide
theorem keyIs_method_id : keyIs "method" "id" = false := by decide
theorem keyIs_params_id : keyIs "params" "id" = false := by decide
theorem keyIs_id_id : keyIs "id" "id" = true := by decide

/-- C14 (amended). For a request whose id is an `int64` and whose params, as JSON, come
back as they are from an `interface{}` (every integer at most `2 ^ 53` in absolute value,
every other number a `float64`, no key twice in an object), `json.Unmarshal` of the
document that `json.Marshal` writes for it gives the same jsonrpc, method and id, and as
params nil for a request without params and otherwise the generic value whose JSON form is
that of the params of the request. -/
theorem request_round_trip (floatText : String → Option Json) (request : JSONRPCRequest)
    (hid : fitsInt64 request.ID = true)
    (hparams : ∀ p, marshalParams request.Params = some p → Json.exact floatText p = true) :
    unmarshalRequest floatText (marshalRequest request) =
      .ok { JSONRPC := request.JSONRPC, Method := request.Method,
            Params := marshalParams request.Params, ID := request.ID } := by
  cases hp : marshalParams request.Params with
  | none =>
    simp [unmarshalRequest, marshalRequest, hp, decodeStruct, foldFields, stepJSONRPCRequest,
      decodeString, decodeInt64, hid, Except.map, keyIs_jsonrpc_jsonrpc, keyIs_jsonrpc_method,
      keyIs_method_method, keyIs_jsonrpc_id, keyIs_method_id, keyIs_params_id, keyIs_id_id]
  | some p =>
    have hd := decodeInterface_exact floatText p (hparams p hp)
    have hobj : ∃ kvs, p = .obj kvs := by
      cases hq : request.Params with
      | absent => rw [hq] at hp; cases hp
      | InitializeParams a b c d => rw [hq] at hp; cases hp; exact ⟨_, rfl⟩
      | CallToolParams a b => rw [hq] at hp; cases hp; exact ⟨_, rfl⟩
    obtain ⟨kvs, rfl⟩ := hobj
    simp [unmarshalRequest, marshalRequest, hp, decodeStruct, foldFields,
      stepJSONRPCRequest, decodeString, decodeInt64, hid, hd, Except.map,
      keyIs_jsonrpc_jsonrpc, keyIs_jsonrpc_method, keyIs_method_method,
      keyIs_jsonrpc_params, keyIs_method_params, keyIs_params_params, keyIs_jsonrpc_id,
      keyIs_method_id, keyIs_params_id, keyIs_id_id]

/-- C14 (amended), at the request `tools/call` of `greet` with id 1. -/
theorem request_round_trip_witness :
    fitsInt64 request1.ID = true ∧
    unmarshalRequest sampleFloatText (marshalRequest request1) =
      .ok { JSONRPC := "2.0", Method := "tools/call",
            Params := marshalParams request1.Params, ID := 1 } :=
  ⟨by decide, request_round_trip sampleFloatText request1 (by decide)
    (by
      intro p hp
      have e : p = .obj [("name", .str "greet"), ("arguments", .obj [("name", .str "World")])] :=
        (Option.some.inj hp).symm
      rw [e]
      decide)⟩

/-- C14 as stated fails: the request `tools/call` whose argument `n` is the `int64` value
9007199254740993 is written with that number, and `json.Unmarshal` of the line into a
`JSONRPCRequest` stores the `float64` value 9007199254740992 in the params. -/
theorem request_round_trip_counterexample :
    marshalParams bigIntRequest.Params =
      some (.obj [("name", .str "count"), ("arguments", .obj [("n", .int 9007199254740993)])]) ∧
    unmarshalRequest sampleFloatText (marshalRequest bigIntRequest) =
      .ok { JSONRPC := "2.0", Method := "tools/call",
            Params := some (.obj [("name", .str "count"),
              ("arguments", .obj [("n", .int 9007199254740992)])]),
            ID := 1 } := by
  decide

/-! ## C19: what `ParseRecordingFile` takes for the session header -/

/-- C19 fails on a file without session header. `ParseRecordingFile` takes the first line
that `json.Unmarshal` accepts for a `PlaybackSession`, and it accepts the line of a
recorded message, whose members it ignores: on a file of a comment, a blank line, a
request line, a line that is not JSON and a response line, the session returned has the
zero-value header, not the synthetic one with `ServerInfo` "Unknown", and its `Messages`
holds the response only, although the request line decodes as a `RecordedMessage`. The
synthetic header is returned for a file in which no line is a JSON document, and a file
with a one-line header keeps every message. -/
theorem parse_headerless_file_drops_first_message :
    ParseRecordingFile (fun _ => true) "2024-01-02T00:00:00Z" none headerlessFile =
      .ok { StartTime := "0001-01-01T00:00:00Z", ServerInfo := "",
            Messages := [greetResponseEvent.recorded] } ∧
    unmarshalRecordedMessage (fun _ => true)
        (marshalRecordedMessage greetRequestEvent.recorded) = .ok greetRequestEvent.recorded ∧
    ParseRecordingFile (fun _ => true) "2024-01-02T00:00:00Z" none
        [.text "# notes", .text "", .text "not json"] =
      .ok { StartTime := "2024-01-02T00:00:00Z", ServerInfo := "Unknown", Messages := [] } ∧
    ParseRecordingFile (fun _ => true) "2024-01-02T00:00:00Z" none oneLineHeaderFile =
      .ok { StartTime := "2024-01-01T00:00:00Z", ServerInfo := "Dynamic MCP Proxy v1.0.0",
            Messages := [greetRequestEvent.recorded, greetResponseEvent.recorded] } := by
  decide

/-! ## C20: the lines that `EnableRecording` writes -/

/-- C20 fails on the session header. For every start time and every session, the file
holds the two comment lines, then the session header as `json.MarshalIndent` writes it,
on five lines of which none is a JSON document, then one line per recorded message, each
the JSON object of one `RecordedMessage`. `ParseRecordingFile` finds no session header in
what `EnableRecording` wrote and returns the synthetic one. -/
theorem recording_file_layout (timeOK : String → Bool) (start now : String)
    (S : List SessionEvent) :
    (recordSession start S).recordFile =
      [.text "# MCP Recording Session", .text ("# Started: " ++ formatRFC3339 start),
       .text "\x7b",
       .text ("  \"start_time\": \"" ++ start ++ "\","),
       .text "  \"server_info\": \"Dynamic MCP Proxy v1.0.0\",",
       .text "  \"messages\": []",
       .text "\x7d"] ++
        S.map (fun e => Line.doc (marshalRecordedMessage e.recorded)) ∧
    (∀ j, Line.doc j ∉ (EnableRecording {} start none).1.recordFile) ∧
    ParseRecordingFile timeOK now none (EnableRecording {} start none).1.recordFile =
      .ok { StartTime := now, ServerInfo := "Unknown", Messages := [] } := by
  refine ⟨?_, ?_, ?_⟩
  · rw [recordSession, recordMessage_fold S _ (by simp [EnableRecording])]
    rfl
  · intro j
    simp [EnableRecording, marshalIndentHeader]
  · simp [ParseRecordingFile, EnableRecording, marshalIndentHeader, parseLine]

/-! ## C25: `PlaybackServer.Run` -/

theorem serverLoop_length (responses : List (Option Json)) (stdin : List String) :
    ∀ idx : Nat, (serverLoop responses idx stdin).length = stdin.length := by
  induction stdin with
  | nil => intro idx; rfl
  | cons line stdin ih =>
    intro idx
    unfold serverLoop
    split <;> simp [ih]

theorem serverLoop_get (responses : List (Option Json)) (stdin : List String) :
    ∀ idx i : Nat, i < stdin.length →
      (serverLoop responses idx stdin)[i]? =
        some ((responses[idx + i]?).getD (some errorResponse)) := by
  induction stdin with
  | nil => intro idx i hi; simp at hi
  | cons line stdin ih =>
    intro idx i hi
    unfold serverLoop
    by_cases h : idx < responses.length
    · rw [dif_pos h]
      cases i with
      | zero => simp [List.getElem?_eq_getElem h]
      | succ i =>
        have hi2 : i < stdin.length := by simpa using hi
        rw [List.getElem?_cons_succ, ih (idx + 1) i hi2]
        congr 3
        omega
    · rw [dif_neg h]
      have hn : ∀ j, responses[idx + j]? = none := by
        intro j
        apply List.getElem?_eq_none
        omega
      cases i with
      | zero =>
        have h0 := hn 0
        rw [Nat.add_zero] at h0
        simp [h0]
      | succ i =>
        have hi2 : i < stdin.length := by simpa using hi
        rw [List.getElem?_cons_succ, ih idx i hi2, hn, hn]

/-- C25. `PlaybackServer.Run` prints one line for every line that it reads from standard
input. The line printed for the `i`-th line read, counted from 0, is the message of the
`i`-th recorded response, in recorded order, while `i` is less than their number `n`, and
the generic error object afterwards, which the client's decoder reads as a response with a
JSON-RPC error of code -32000 and message "No more recorded responses available" and a
null id. -/
theorem playback_server_answers (session : PlaybackSession) (stdin : List String)
    (scanErr : Option String) :
    (NewPlaybackServer session).responses =
      (session.Messages.filter (fun m => m.Direction = "response")).map (fun m => m.Message) ∧
    (((NewPlaybackServer session).Run stdin scanErr).1).length = stdin.length ∧
    (∀ i, i < stdin.length →
      (∀ raw, (NewPlaybackServer session).responses[i]? = some raw →
        (((NewPlaybackServer session).Run stdin scanErr).1)[i]? = some raw) ∧
      ((NewPlaybackServer session).responses.length ≤ i →
        (((NewPlaybackServer session).Run stdin scanErr).1)[i]? = some (some errorResponse))) ∧
    unmarshalResponse errorResponse =
      .ok { JSONRPC := "2.0", Result := none,
            Error := some { Code := -32000, Message := "No more recorded responses available" },
            ID := 0 } ∧
    GoMap.get (match errorResponse with | .obj kvs => kvs | _ => []) "id" = some .null := by
  refine ⟨rfl, serverLoop_length _ _ _, ?_, by decide, by decide⟩
  intro i hi
  have h := serverLoop_get (NewPlaybackServer session).responses stdin 0 i hi
  rw [Nat.zero_add] at h
  constructor
  · intro raw hraw
    show (serverLoop (NewPlaybackServer session).responses 0 stdin)[i]? = _
    rw [h, hraw]
    rfl
  · intro hle
    show (serverLoop (NewPlaybackServer session).responses 0 stdin)[i]? = _
    rw [h, List.getElem?_eq_none hle]
    rfl

/-! ## C26: `PlaybackClient.Run` -/

theorem clientLoop_spec (messages : List (Option Json)) (stdin : List String) :
    ∀ idx : Nat,
      (clientLoop messages idx stdin).printed = (messages.drop idx).take stdin.length ∧
      (clientLoop messages idx stdin).linesRead =
        min stdin.length (messages.length - idx + 1) ∧
      ((clientLoop messages idx stdin).broke = true ↔ messages.length - idx < stdin.length) := by
  induction stdin with
  | nil => intro idx; simp [clientLoop]
  | cons line stdin ih =>
    intro idx
    unfold clientLoop
    by_cases h : idx < messages.length
    · rw [dif_pos h]
      obtain ⟨h1, h2, h3⟩ := ih (idx + 1)
      refine ⟨?_, ?_, ?_⟩
      · simp only [h1, List.length_cons]
        rw [List.drop_eq_getElem_cons h, List.take_succ_cons]
      · simp only [h2, List.length_cons]
        omega
      · simp only [h3, List.length_cons]
        omega
    · rw [dif_neg h]
      have hd : messages.drop idx = [] := List.drop_eq_nil_of_le (by omega)
      refine ⟨by simp [hd], ?_, ?_⟩
      · simp only [List.length_cons]
        omega
      · simp only [List.length_cons, true_iff]
        omega

/-- C25, at a session with three recorded responses and five lines read. -/
theorem playback_server_answers_witness :
    ((NewPlaybackServer mixedSession).Run ["a", "b", "c", "d", "e"] none).1 =
      [some (.int 3), some (.int 5), some (.int 8), some errorResponse, some errorResponse] ∧
    (((NewPlaybackServer mixedSession).Run ["a", "b", "c", "d", "e"] none).1).length = 5 :=
  ⟨by decide, (playback_server_answers mixedSession ["a", "b", "c", "d", "e"] none).2.1⟩

/-- C26. `PlaybackClient.Run` prints, for the lines that it reads from standard input, the
messages of the recorded requests in recorded order, one per line read: after `k` lines
it has printed the first `min k n` of the `n` recorded requests. It reads at most `n + 1`
lines: the line that arrives after all `n` are printed is read, the loop is left, and no
further line is read. -/
theorem playback_client_sends (session : PlaybackSession) (stdin : List String)
    (scanErr : Option String) :
    (NewPlaybackClient session).messages =
      (session.Messages.filter (fun m => m.Direction = "request")).map (fun m => m.Message) ∧
    (∀ k, (((NewPlaybackClient session).Run (stdin.take k) scanErr).1).printed =
      (NewPlaybackClient session).messages.take
        (min (min k stdin.length) (NewPlaybackClient session).messages.length)) ∧
    (((NewPlaybackClient session).Run stdin scanErr).1).printed =
      (NewPlaybackClient session).messages.take
        (min stdin.length (NewPlaybackClient session).messages.length) ∧
    (((NewPlaybackClient session).Run stdin scanErr).1).linesRead =
      min stdin.length ((NewPlaybackClient session).messages.length + 1) ∧
    ((((NewPlaybackClient session).Run stdin scanErr).1).broke = true ↔
      (NewPlaybackClient session).messages.length < stdin.length) := by
  have hrun : ∀ (l : List String),
      (((NewPlaybackClient session).Run l scanErr).1).printed =
        (NewPlaybackClient session).messages.take
          (min l.length (NewPlaybackClient session).messages.length) := by
    intro l
    have h := (clientLoop_spec (NewPlaybackClient session).messages l 0).1
    show (clientLoop (NewPlaybackClient session).messages 0 l).printed = _
    rw [h, List.drop_zero, List.take_eq_take]
    simp
  have h := clientLoop_spec (NewPlaybackClient session).messages stdin 0
  refine ⟨rfl, ?_, hrun stdin, ?_, ?_⟩
  · intro k
    rw [hrun, List.length_take]
  · exact h.2.1
  · exact h.2.2

/-- C26, at a session with three recorded requests: after two lines the first two are
printed; with five lines the three are printed, four lines are read and the loop is
left. -/
theorem playback_client_sends_witness :
    (((NewPlaybackClient mixedSession).Run ["a", "b"] none).1).printed =
      [some (.int 1), some (.int 2)] ∧
    ((NewPlaybackClient mixedSession).Run ["a", "b", "c", "d", "e"] none).1 =
      { printed := [some (.int 1), some (.int 2), some (.int 6)], linesRead := 4,
        broke := true } ∧
    (((NewPlaybackClient mixedSession).Run ["a", "b", "c", "d", "e"] none).1).linesRead =
      min 5 ((NewPlaybackClient mixedSession).messages.length + 1) :=
  ⟨by decide, by decide,
    (playback_client_sends mixedSession ["a", "b", "c", "d", "e"] none).2.2.2.1⟩

/-! ## C27: `GetMessagePairs` -/

theorem pairsLoop_mem (ms : List RecordedMessage) :
    ∀ (cur : Option RecordedMessage) (pr : MessagePair), pr ∈ pairsLoop cur ms →
      pr.Response.Direction = "response" ∧
      ((∃ pre mid post, ms = pre ++ pr.Request :: mid ++ pr.Response :: post ∧
          pr.Request.Direction = "request" ∧
          ∀ m ∈ mid, m.Direction ≠ "request" ∧ m.Direction ≠ "response") ∨
        (cur = some pr.Request ∧ ∃ mid post, ms = mid ++ pr.Response :: post ∧
          ∀ m ∈ mid, m.Direction ≠ "request" ∧ m.Direction ≠ "response")) := by
  induction ms with
  | nil => intro cur pr h; simp [pairsLoop] at h
  | cons m rest ih =>
    intro cur pr h
    unfold pairsLoop at h
    by_cases hreq : m.Direction = "request"
    · rw [if_pos hreq] at h
      obtain ⟨hd, hcase⟩ := ih (some m) pr h
      refine ⟨hd, Or.inl ?_⟩
      rcases hcase with ⟨pre, mid, post, hms, hr, hmid⟩ | ⟨hcur, mid, post, hms, hmid⟩
      · exact ⟨m :: pre, mid, post, by rw [hms]; simp, hr, hmid⟩
      · have hm : m = pr.Request := Option.some.inj hcur
        exact ⟨[], mid, post, by rw [hms, hm]; simp, hm ▸ hreq, hmid⟩
    · rw [if_neg hreq] at h
      by_cases hresp : m.Direction = "response"
      · rw [if_pos hresp] at h
        have hrest : pr ∈ pairsLoop none rest →
            pr.Response.Direction = "response" ∧
            ((∃ pre mid post, m :: rest = pre ++ pr.Request :: mid ++ pr.Response :: post ∧
                pr.Request.Direction = "request" ∧
                ∀ m ∈ mid, m.Direction ≠ "request" ∧ m.Direction ≠ "response") ∨
              (cur = some pr.Request ∧ ∃ mid post, m :: rest = mid ++ pr.Response :: post ∧
                ∀ m ∈ mid, m.Direction ≠ "request" ∧ m.Direction ≠ "response")) := by
          intro h2
          obtain ⟨hd, hcase⟩ := ih none pr h2
          refine ⟨hd, Or.inl ?_⟩
          rcases hcase with ⟨pre, mid, post, hms, hr, hmid⟩ | ⟨hcur, _⟩
          · exact ⟨m :: pre, mid, post, by rw [hms]; simp, hr, hmid⟩
          · cases hcur
        cases cur with
        | none => exact hrest h
        | some r =>
          rcases List.mem_cons.mp h with heq | h2
          · subst heq
            exact ⟨hresp, Or.inr ⟨rfl, [], rest, rfl, by simp⟩⟩
          · exact hrest h2
      · rw [if_neg hresp] at h
        obtain ⟨hd, hcase⟩ := ih cur pr h
        refine ⟨hd, ?_⟩
        rcases hcase with ⟨pre, mid, post, hms, hr, hmid⟩ | ⟨hcur, mid, post, hms, hmid⟩
        · exact Or.inl ⟨m :: pre, mid, post, by rw [hms]; simp, hr, hmid⟩
        · refine Or.inr ⟨hcur, m :: mid, post, by rw [hms]; simp, ?_⟩
          intro x hx
          rcases List.mem_cons.mp hx with rfl | hx
          · exact ⟨hreq, hresp⟩
          · exact hmid x hx

theorem pairsLoop_sublist (ms : List RecordedMessage) :
    ∀ cur : Option RecordedMessage,
      ((pairsLoop cur ms).flatMap (fun pr => [pr.Request, pr.Response])).Sublist
        (cur.toList ++ ms) := by
  induction ms with
  | nil => intro cur; simp [pairsLoop]
  | cons m rest ih =>
    intro cur
    unfold pairsLoop
    by_cases hreq : m.Direction = "request"
    · rw [if_pos hreq]
      exact (ih (some m)).trans (List.sublist_append_right _ _)
    · rw [if_neg hreq]
      by_cases hresp : m.Direction = "response"
      · rw [if_pos hresp]
        cases cur with
        | none =>
          exact ((ih none).trans (List.sublist_cons_self m rest))
        | some r =>
          simp only [List.flatMap_cons, Option.toList, List.cons_append, List.nil_append,
            List.singleton_append]
          exact ((ih none).cons₂ m).cons₂ r
      · rw [if_neg hresp]
        refine (ih cur).trans ?_
        exact List.Sublist.append (List.Sublist.refl _) (List.sublist_cons_self m rest)

theorem pairsLoop_length (ms : List RecordedMessage) :
    ∀ cur : Option RecordedMessage,
      (pairsLoop cur ms).length ≤ (ms.filter (fun m => m.Direction = "response")).length ∧
      (pairsLoop cur ms).length ≤
        cur.toList.length + (ms.filter (fun m => m.Direction = "request")).length := by
  induction ms with
  | nil => intro cur; simp [pairsLoop]
  | cons m rest ih =>
    intro cur
    unfold pairsLoop
    by_cases hreq : m.Direction = "request"
    · have hne : ¬ m.Direction = "response" := by rw [hreq]; decide
      have hd1 : decide (("request" : String) = "response") = false := by decide
      have h := ih (some m)
      simp only [if_pos hreq, List.filter_cons, hreq, hne, hd1, decide_True, decide_False, if_true,
        Bool.false_eq_true, if_false, List.length_cons, Option.toList, List.length_singleton,
        List.length_nil] at h ⊢
      omega
    · rw [if_neg hreq]
      by_cases hresp : m.Direction = "response"
      · rw [if_pos hresp]
        have hd2 : decide (("response" : String) = "request") = false := by decide
        cases cur with
        | none =>
          have h := ih none
          simp only [List.filter_cons, hreq, hresp, hd2, decide_True, decide_False, if_true,
            Bool.false_eq_true, if_false, List.length_cons, Option.toList, List.length_nil]
            at h ⊢
          omega
        | some r =>
          have h := ih none
          simp only [List.filter_cons, hreq, hresp, hd2, decide_True, decide_False, if_true,
            Bool.false_eq_true, if_false, List.length_cons, Option.toList, List.length_nil,
            List.length_singleton] at h ⊢
          omega
      · have h := ih cur
        simp only [if_neg hresp, List.filter_cons, hreq, hresp, decide_False,
          Bool.false_eq_true, if_false] at h ⊢
        exact h

/-- C27. Every pair that `GetMessagePairs` returns holds as `Request` a message with
direction "request" and as `Response` a message with direction "response", the request
standing before the response in the session with neither a request nor a response
between them; the pairs come in the order of the session; and there are at most as many
pairs as there are requests and as there are responses. -/
theorem message_pairs_spec (s : PlaybackSession) :
    (∀ pr ∈ s.GetMessagePairs,
      pr.Request.Direction = "request" ∧ pr.Response.Direction = "response" ∧
      ∃ pre mid post, s.Messages = pre ++ pr.Request :: mid ++ pr.Response :: post ∧
        ∀ m ∈ mid, m.Direction ≠ "request" ∧ m.Direction ≠ "response") ∧
    (s.GetMessagePairs.flatMap (fun pr => [pr.Request, pr.Response])).Sublist s.Messages ∧
    s.GetMessagePairs.length ≤ min s.GetClientMessages.length s.GetServerMessages.length := by
  refine ⟨?_, ?_, ?_⟩
  · intro pr hpr
    obtain ⟨hd, hcase⟩ := pairsLoop_mem s.Messages none pr hpr
    rcases hcase with ⟨pre, mid, post, hms, hr, hmid⟩ | ⟨hcur, _⟩
    · exact ⟨hr, hd, pre, mid, post, hms, hmid⟩
    · cases hcur
  · have h := pairsLoop_sublist s.Messages none
    simpa using h
  · have h := pairsLoop_length s.Messages none
    simp only [Option.toList, List.length_nil, Nat.zero_add] at h
    exact Nat.le_min.mpr ⟨h.2, h.1⟩

/-- C27, at a session of two requests, a response, a notification, a response, a request,
a log line and a response: the pairs are the second request with the first response and
the third request with the third response. -/
theorem message_pairs_spec_witness :
    mixedSession.GetMessagePairs =
      [⟨recordedAt "request" 2, recordedAt "response" 3⟩,
       ⟨recordedAt "request" 6, recordedAt "response" 8⟩] ∧
    mixedSession.GetMessagePairs.length ≤
      min mixedSession.GetClientMessages.length mixedSession.GetServerMessages.length :=
  ⟨by decide, (message_pairs_spec mixedSession).2.2⟩

/-! ## C28: the two translations of a downstream result -/

/-- C28. `transformResult` and the translation written out in `createDynamicProxyHandler`
give, for every `CallToolResult`, results with the same error flag and the same text. So
the handler of a static server and the handler of a dynamic server return the same result
for the same successful answer of `CallTool`. -/
theorem transformResult_eq_inline (result : CallToolResult) :
    (transformResult result).IsError = (wrapperTransform result).IsError ∧
    (transformResult result).Text = (wrapperTransform result).Text ∧
    transformResult result = wrapperTransform result ∧
    (∀ (w : DynamicWrapper) (s t : String) (x : Exchange) (req : CallToolRequest)
        (info : DynamicServerInfo) (ref : ClientRef) (client client1 : StdioClient)
        (tool : RemoteTool),
      GoMap.get w.dynamicServers s = some info → info.IsConnected = true →
      info.Client = some ref → w.heap.get? ref = some client → tool.OriginalName = t →
      client.CallTool x t req.Arguments = (client1, .ok result) →
      (CreateProxyHandler client tool x req).2 = transformResult result ∧
      ∃ r, createDynamicProxyHandler s t w x req = .ok r ∧
        r.result = (CreateProxyHandler client tool x req).2) := by
  have heq : transformResult result = wrapperTransform result := by
    unfold transformResult wrapperTransform
    cases result.IsError <;> cases result.Content <;> rfl
  refine ⟨by rw [heq], by rw [heq], heq, ?_⟩
  intro w s t x req info ref client client1 tool hget hconn hcl hheap ht hcall
  have hs : (CreateProxyHandler client tool x req).2 = transformResult result := by
    simp [CreateProxyHandler, ht, hcall]
  refine ⟨hs, ?_⟩
  have hh := handler_forwards w s t x req info ref client hget hconn hcl hheap
  rw [hcall] at hh
  exact ⟨_, hh, by rw [hs, heq]⟩

/-- C28, at a successful result of two items and at an error result without content. -/
theorem transformResult_eq_inline_witness :
    transformResult { Content := [{ Typ := "text", Text := "a" }, { Typ := "text", Text := "b" }] } =
      NewToolResultText "a\nb" ∧
    wrapperTransform { Content := [{ Typ := "text", Text := "a" }, { Typ := "text", Text := "b" }] } =
      NewToolResultText "a\nb" ∧
    transformResult { Content := [], IsError := true } =
      wrapperTransform { Content := [], IsError := true } :=
  ⟨by decide, by decide, (transformResult_eq_inline { Content := [], IsError := true }).2.2.1⟩

/-! ## C23: the server name in error results -/

theorem Contains_self (s : String) : Contains s s = true := by
  rw [Contains_iff]
  exact ⟨[], [], by simp⟩

theorem Contains_mid (a s b : String) : Contains (a ++ s ++ b) s = true :=
  Contains_append_right (Contains_append_left (Contains_self s) a) b

/-- C23 (amended). The error result that a forwarded-tool handler returns for an unknown
server, for a disconnected server and for a failed downstream call contains the name of
the server, in the handler of a dynamic server and, for a failed call, in the handler of
a static server. A downstream result with `isError` set is handed on as an error result
whose text is the text of its first content item, or "Tool execution failed" when it has
none, with nothing added. -/
theorem error_results_name_server (w : DynamicWrapper) (s t : String) (x : Exchange)
    (req : CallToolRequest) (r : Reply)
    (h : createDynamicProxyHandler s t w x req = .ok r) :
    (GoMap.get w.dynamicServers s = none →
      r.result.IsError = true ∧ Contains r.result.Text s = true) ∧
    (∀ info, GoMap.get w.dynamicServers s = some info → info.IsConnected = false →
      r.result.IsError = true ∧ Contains r.result.Text s = true) ∧
    (∀ info ref client client1 err, GoMap.get w.dynamicServers s = some info →
      info.IsConnected = true → info.Client = some ref → w.heap.get? ref = some client →
      client.CallTool x t req.Arguments = (client1, .error err) →
      r.result.IsError = true ∧ Contains r.result.Text s = true) ∧
    (∀ info ref client client1 res, GoMap.get w.dynamicServers s = some info →
      info.IsConnected = true → info.Client = some ref → w.heap.get? ref = some client →
      client.CallTool x t req.Arguments = (client1, .ok res) → res.IsError = true →
      r.result = NewToolResultError
        (match res.Content with
          | c :: _ => c.Text
          | [] => "Tool execution failed")) ∧
    (∀ (client client1 : StdioClient) (tool : RemoteTool) (err : String),
      client.CallTool x tool.OriginalName req.Arguments = (client1, .error err) →
      (CreateProxyHandler client tool x req).2.IsError = true ∧
      Contains (CreateProxyHandler client tool x req).2.Text tool.ServerName = true) ∧
    (∀ (client client1 : StdioClient) (tool : RemoteTool) (res : CallToolResult),
      client.CallTool x tool.OriginalName req.Arguments = (client1, .ok res) →
      res.IsError = true →
      (CreateProxyHandler client tool x req).2 = NewToolResultError
        (match res.Content with
          | c :: _ => c.Text
          | [] => "Tool execution failed")) := by
  refine ⟨?_, ?_, ?_, ?_, ?_, ?_⟩
  · intro hget
    rw [handler_of_missing w s t x req hget] at h
    cases h
    exact ⟨rfl, Contains_mid "Server '" s "' not found"⟩
  · intro info hget hdis
    simp only [createDynamicProxyHandler, hget, hdis, Bool.not_false, if_true] at h
    cases h
    refine ⟨rfl, ?_⟩
    apply Contains_append_right
    have h1 : Contains ("Server '" ++ s ++ "' is disconnected") s = true :=
      Contains_mid "Server '" s "' is disconnected"
    by_cases he : info.ErrorMessage ≠ ""
    · rw [if_pos he]
      exact Contains_append_right h1 _
    · rw [if_neg he]
      exact h1
  · intro info ref client client1 err hget hconn hcl hheap hcall
    rw [handler_forwards w s t x req info ref client hget hconn hcl hheap, hcall] at h
    by_cases he : isConnectionError err = true
    · simp only [he, if_true] at h
      cases h
      refine ⟨rfl, ?_⟩
      apply Contains_append_right
      apply Contains_append_right
      exact Contains_mid "Server '" s "' connection failed: "
    · simp only [he] at h
      cases h
      refine ⟨rfl, ?_⟩
      apply Contains_append_right
      exact Contains_mid "[" s "] "
  · intro info ref client client1 res hget hconn hcl hheap hcall herr
    rw [handler_forwards w s t x req info ref client hget hconn hcl hheap, hcall] at h
    cases h
    simp only [wrapperTransform, herr, if_true]
    cases res.Content <;> rfl
  · intro client client1 tool err hcall
    simp only [CreateProxyHandler, hcall]
    refine ⟨rfl, ?_⟩
    apply Contains_append_right
    exact Contains_mid "[" _ "] "
  · intro client client1 tool res hcall herr
    simp only [CreateProxyHandler, hcall, transformResult, herr, if_true]
    cases res.Content <;> rfl

/-- C23 (amended), at a call through the handler of a server that is not in the map. -/
theorem error_results_name_server_witness :
    createDynamicProxyHandler "s" "hi" NewDynamicWrapper exchangeEOF {} =
      .ok ⟨NewDynamicWrapper, NewToolResultError "Server 's' not found",
        [recRequest "s_hi" "s" {},
         recResponse "s_hi" "s" (NewToolResultError "Server 's' not found")]⟩ ∧
    Contains "Server 's' not found" "s" = true :=
  ⟨by decide,
    ((error_results_name_server NewDynamicWrapper "s" "hi" exchangeEOF {}
      ⟨NewDynamicWrapper, NewToolResultError "Server 's' not found",
        [recRequest "s_hi" "s" {},
         recResponse "s_hi" "s" (NewToolResultError "Server 's' not found")]⟩
      (by decide)).1 (by decide)).2⟩

/-- C23 as stated fails: the server "s" answers a call of its tool `hi` with a result
whose `isError` is set and whose text is "bad input"; the handler returns the error
result "bad input", which does not contain the name of the server. -/
theorem error_result_without_server_name_counterexample :
    createDynamicProxyHandler "s" "hi" (afterOps [addS]) exchangeToolError {} =
      .ok ⟨afterOps [addS, callHi exchangeToolError], NewToolResultError "bad input",
        [recRequest "s_hi" "s" {}, recResponse "s_hi" "s" (NewToolResultError "bad input")]⟩ ∧
    (NewToolResultError "bad input").IsError = true ∧
    Contains (NewToolResultError "bad input").Text "s" = false := by
  decide

/-! ## C24: failures of the management tools -/

theorem handleServerAdd_no_panic (w : DynamicWrapper) (world : ConnectWorld)
    (request : CallToolRequest) (p : String) :
    handleServerAdd w world request ≠ .panicked p := by
  intro h
  cases hn : request.RequireString "name" with
  | none => simp [handleServerAdd, hn] at h
  | some name =>
    cases hc : request.RequireString "command" with
    | none => simp [handleServerAdd, hn, hc] at h
    | some command =>
      cases hg : GoMap.get w.dynamicServers name with
      | some info => simp [handleServerAdd, hn, hc, hg] at h
      | none =>
        cases hf : Fields command with
        | nil => simp [handleServerAdd, hn, hc, hg, hf] at h
        | cons cmd args =>
          cases hcl : connectAndList name cmd args world with
          | error e => simp [handleServerAdd, hn, hc, hg, hf, hcl] at h
          | ok q => simp [handleServerAdd, hn, hc, hg, hf, hcl] at h

theorem handleServerAdd_total (w : DynamicWrapper) (world : ConnectWorld)
    (request : CallToolRequest) : ∃ r, handleServerAdd w world request = .ok r := by
  cases h : handleServerAdd w world request with
  | ok r => exact ⟨r, rfl⟩
  | panicked p => exact absurd h (handleServerAdd_no_panic w world request p)

/-- C24 (amended). A management tool of the wrapper that fails returns a tool-error
result, with a nil handler error: `server_add`, `server_remove`, `server_disconnect` and
`server_reconnect` for a missing argument, `server_add` for a name that exists, the other
three for a name that is not in the map, `server_reconnect` for an entry that is still
connected, and `server_add` and `server_reconnect` for a command without fields and for
a failure to connect, initialize or list. `server_disconnect` of an entry that is not
connected is not a failure: it returns the text result "Server '<name>' is already
disconnected" and changes nothing. -/
theorem management_failures_are_tool_errors (w : DynamicWrapper) (request : CallToolRequest) :
    (∀ world : ConnectWorld,
      (request.RequireString "name" = none ∨ request.RequireString "command" = none ∨
        (∃ name, request.RequireString "name" = some name ∧
          (GoMap.get w.dynamicServers name).isSome = true) ∨
        (∃ command, request.RequireString "command" = some command ∧ Fields command = []) ∨
        (∃ name command cmd args e, request.RequireString "name" = some name ∧
          request.RequireString "command" = some command ∧ Fields command = cmd :: args ∧
          connectAndList name cmd args world = .error e)) →
      ∃ r, handleServerAdd w world request = .ok r ∧ r.result.IsError = true ∧
        r.state = w) ∧
    (∀ world : CloseWorld,
      (request.RequireString "name" = none ∨
        ∃ name, request.RequireString "name" = some name ∧
          GoMap.get w.dynamicServers name = none) →
      ∃ r, handleServerRemove w world request = .ok r ∧ r.result.IsError = true ∧
        r.state = w) ∧
    (∀ world : CloseWorld,
      (request.RequireString "name" = none ∨
        ∃ name, request.RequireString "name" = some name ∧
          GoMap.get w.dynamicServers name = none) →
      ∃ r, handleServerDisconnect w world request = .ok r ∧ r.result.IsError = true ∧
        r.state = w) ∧
    (∀ (world : CloseWorld) (name : String) (info : DynamicServerInfo),
      request.RequireString "name" = some name →
      GoMap.get w.dynamicServers name = some info → info.IsConnected = false →
      handleServerDisconnect w world request =
        .ok ⟨w, NewToolResultText ("Server '" ++ name ++ "' is already disconnected"), []⟩) ∧
    (∀ world : ConnectWorld,
      (request.RequireString "name" = none ∨ request.RequireString "command" = none ∨
        (∃ name, request.RequireString "name" = some name ∧
          GoMap.get w.dynamicServers name = none) ∨
        (∃ name info, request.RequireString "name" = some name ∧
          GoMap.get w.dynamicServers name = some info ∧ info.IsConnected = true) ∨
        (∃ command, request.RequireString "command" = some command ∧ Fields command = []) ∨
        (∃ name command cmd args e, request.RequireString "name" = some name ∧
          request.RequireString "command" = some command ∧ Fields command = cmd :: args ∧
          connectAndList name cmd args world = .error e)) →
      ∃ r, handleServerReconnect w world request = .ok r ∧ r.result.IsError = true) := by
  refine ⟨?_, ?_, ?_, ?_, ?_⟩
  · intro world hfail
    obtain ⟨r, hr⟩ := handleServerAdd_total w world request
    refine ⟨r, hr, ?_⟩
    rcases handleServerAdd_cases w world request r hr with ⟨hst, herr⟩ |
      ⟨name, command, cmd, args, client, tools, hn, hc, hg, hf, hcl, _, _⟩
    · exact ⟨herr, hst⟩
    · exfalso
      rcases hfail with h | h | ⟨n, h1, h2⟩ | ⟨c, h1, h2⟩ | ⟨n, c, cmd2, args2, e, h1, h2, h3, h4⟩
      · rw [hn] at h; cases h
      · rw [hc] at h; cases h
      · rw [hn] at h1; cases h1
        rw [hg] at h2; cases h2
      · rw [hc] at h1; cases h1
        rw [hf] at h2; cases h2
      · rw [hn] at h1; cases h1
        rw [hc] at h2; cases h2
        rw [hf] at h3; cases h3
        rw [hcl] at h4; cases h4
  · intro world hfail
    rcases hfail with h | ⟨name, h1, h2⟩
    · simp only [handleServerRemove, h]
      exact ⟨_, rfl, rfl, rfl⟩
    · simp only [handleServerRemove, h1, h2]
      exact ⟨_, rfl, rfl, rfl⟩
  · intro world hfail
    rcases hfail with h | ⟨name, h1, h2⟩
    · simp only [handleServerDisconnect, h]
      exact ⟨_, rfl, rfl, rfl⟩
    · simp only [handleServerDisconnect, h1, h2]
      exact ⟨_, rfl, rfl, rfl⟩
  · intro world name info hn hg hdis
    simp only [handleServerDisconnect, hn, hg, hdis, Bool.not_false, if_true]
  · intro world hfail
    cases hn : request.RequireString "name" with
    | none =>
      simp only [handleServerReconnect, hn]
      exact ⟨_, rfl, rfl⟩
    | some name =>
      cases hc : request.RequireString "command" with
      | none =>
        simp only [handleServerReconnect, hn, hc]
        exact ⟨_, rfl, rfl⟩
      | some command =>
        cases hg : GoMap.get w.dynamicServers name with
        | none =>
          simp only [handleServerReconnect, hn, hc, hg]
          exact ⟨_, rfl, rfl⟩
        | some info =>
          cases hic : info.IsConnected with
          | true =>
            simp only [handleServerReconnect, hn, hc, hg, hic, if_true]
            exact ⟨_, rfl, rfl⟩
          | false =>
            cases hf : Fields command with
            | nil =>
              simp only [handleServerReconnect, hn, hc, hg, hic, hf, Bool.false_eq_true,
                if_false]
              exact ⟨_, rfl, rfl⟩
            | cons cmd args =>
              cases hcl : connectAndList name cmd args world with
              | error e =>
                simp only [handleServerReconnect, hn, hc, hg, hic, hf, hcl,
                  Bool.false_eq_true, if_false]
                exact ⟨_, rfl, rfl⟩
              | ok p =>
                exfalso
                rcases hfail with h | h | ⟨n, h1, h2⟩ | ⟨n, i, h1, h2, h3⟩ | ⟨c, h1, h2⟩ |
                  ⟨n, c, cmd2, args2, e, h1, h2, h3, h4⟩
                · rw [hn] at h; cases h
                · rw [hc] at h; cases h
                · rw [hn] at h1; cases h1
                  rw [hg] at h2; cases h2
                · rw [hn] at h1; cases h1
                  rw [hg] at h2; cases h2
                  rw [hic] at h3; cases h3
                · rw [hc] at h1; cases h1
                  rw [hf] at h2; cases h2
                · rw [hn] at h1; cases h1
                  rw [hc] at h2; cases h2
                  rw [hf] at h3; cases h3
                  rw [hcl] at h4; cases h4

/-- C24 (amended), at `server_remove` of a name that is not in the map. -/
theorem management_failures_are_tool_errors_witness :
    GoMap.get NewDynamicWrapper.dynamicServers "s" = none ∧
    handleServerRemove NewDynamicWrapper {} (nameRequest "server_remove" "s") =
      .ok ⟨NewDynamicWrapper, NewToolResultError "Server 's' not found", []⟩ ∧
    ∃ r, handleServerRemove NewDynamicWrapper {} (nameRequest "server_remove" "s") = .ok r ∧
      r.result.IsError = true ∧ r.state = NewDynamicWrapper :=
  ⟨by decide, by decide,
    (management_failures_are_tool_errors NewDynamicWrapper
      (nameRequest "server_remove" "s")).2.1 {} (Or.inr ⟨"s", by decide, by decide⟩)⟩

/-- C24 as stated fails: `server_disconnect("s")` of an entry that is already
disconnected returns a text result whose error flag is not set. -/
theorem disconnect_twice_counterexample :
    run NewDynamicWrapper [addS, disconnectS] = some (afterOps [addS, disconnectS]) ∧
    (GoMap.get (afterOps [addS, disconnectS]).dynamicServers "s").map
      (fun e => e.IsConnected) = some false ∧
    step (afterOps [addS, disconnectS]) disconnectS =
      .ok ⟨afterOps [addS, disconnectS],
        NewToolResultText "Server 's' is already disconnected", []⟩ ∧
    (NewToolResultText "Server 's' is already disconnected").IsError = false := by
  decide

/-! ## C21: what the handlers record -/

theorem createDynamicProxyHandler_records (s t : String) (w : DynamicWrapper) (x : Exchange)
    (req : CallToolRequest) (r : Reply) (h : createDynamicProxyHandler s t w x req = .ok r) :
    r.records = [recRequest (s ++ "_" ++ t) s req, recResponse (s ++ "_" ++ t) s r.result] := by
  cases hg : GoMap.get w.dynamicServers s with
  | none =>
    rw [handler_of_missing w s t x req hg] at h
    cases h
    rfl
  | some info =>
    cases hic : info.IsConnected with
    | false =>
      simp only [createDynamicProxyHandler, hg, hic, Bool.not_false, if_true] at h
      cases h
      rfl
    | true =>
      cases hcl : info.Client with
      | none => simp [createDynamicProxyHandler, hg, hic, hcl] at h
      | some ref =>
        cases hh : w.heap.get? ref with
        | none =>
          rw [List.get?_eq_getElem?] at hh
          simp [createDynamicProxyHandler, hg, hic, hcl, hh] at h
        | some client =>
          rw [handler_forwards w s t x req info ref client hg hic hcl hh] at h
          rcases hct : client.CallTool x t req.Arguments with ⟨client1, err | result⟩
          · rw [hct] at h
            by_cases he : isConnectionError err = true
            · simp only [he, if_true] at h
              cases h
              rfl
            · simp only [he] at h
              cases h
              rfl
          · rw [hct] at h
            cases h
            rfl

theorem handleServerAdd_records (w : DynamicWrapper) (world : ConnectWorld)
    (request : CallToolRequest) (r : Reply) (h : handleServerAdd w world request = .ok r) :
    r.records.head? = some (recRequest "server_add" "proxy" request) ∧
    ((r.result.IsError = false ∨ request.RequireString "name" = none ∨
        request.RequireString "command" = none) →
      r.records = [recRequest "server_add" "proxy" request,
        recResponse "server_add" "proxy" r.result]) := by
  cases hn : request.RequireString "name" with
  | none =>
    simp only [handleServerAdd, hn] at h
    cases h
    exact ⟨rfl, fun _ => rfl⟩
  | some name =>
    cases hc : request.RequireString "command" with
    | none =>
      simp only [handleServerAdd, hn, hc] at h
      cases h
      exact ⟨rfl, fun _ => rfl⟩
    | some command =>
      cases hg : GoMap.get w.dynamicServers name with
      | some info =>
        simp only [handleServerAdd, hn, hc, hg, Option.isSome_some, if_true] at h
        cases h
        exact ⟨rfl, fun hh => by simp [NewToolResultError] at hh⟩
      | none =>
        cases hf : Fields command with
        | nil =>
          simp [handleServerAdd, hn, hc, hg, hf] at h
          cases h
          exact ⟨rfl, fun hh => by simp [NewToolResultError] at hh⟩
        | cons cmd args =>
          cases hcl : connectAndList name cmd args world with
          | error e =>
            simp [handleServerAdd, hn, hc, hg, hf, hcl] at h
            cases h
            exact ⟨rfl, fun hh => by simp [NewToolResultError] at hh⟩
          | ok p =>
            obtain ⟨client, tools⟩ := p
            simp [handleServerAdd, hn, hc, hg, hf, hcl] at h
            cases h
            exact ⟨rfl, fun _ => rfl⟩

theorem handleServerRemove_records (w : DynamicWrapper) (world : CloseWorld)
    (request : CallToolRequest) (r : Reply) (h : handleServerRemove w world request = .ok r) :
    r.records = [] := by
  unfold handleServerRemove at h
  repeat' split at h
  all_goals first
    | (cases h; rfl)
    | cases h

theorem handleServerDisconnect_records (w : DynamicWrapper) (world : CloseWorld)
    (request : CallToolRequest) (r : Reply)
    (h : handleServerDisconnect w world request = .ok r) : r.records = [] := by
  unfold handleServerDisconnect at h
  repeat' split at h
  all_goals first
    | (cases h; rfl)
    | cases h
    | (dsimp only at h
       split at h
       · cases h
       · cases h
         rfl)

theorem handleServerReconnect_records (w : DynamicWrapper) (world : ConnectWorld)
    (request : CallToolRequest) (r : Reply)
    (h : handleServerReconnect w world request = .ok r) : r.records = [] := by
  unfold handleServerReconnect at h
  repeat' split at h
  all_goals first
    | (cases h; rfl)
    | cases h
    | (dsimp only at h
       split at h
       · cases h
       · cases h
         rfl)

theorem recordMessage_enabled (r : Recorder) (now direction messageType toolName
    serverName : String) (doc : Json) (h : r.recordEnabled = true) :
    recordMessage r now direction messageType toolName serverName (some doc) =
      { r with recordFile := r.recordFile ++ [.doc (marshalRecordedMessage
        { Timestamp := now, Direction := direction, MessageType := messageType,
          ToolName := toolName, ServerName := serverName, Message := some doc })] } := by
  simp [recordMessage, h]

/-- A forwarded-tool call records exactly one request and then exactly one
response, the result that it returns, on every path. `server_add` records its request
first, and after it the response that it returns when it succeeds and when an argument is
missing. `server_remove`, `server_list`, `server_disconnect` and `server_reconnect` record
nothing. While recording is enabled, a request record and a response record whose
messages can be marshalled append two lines to the log, a `RecordedMessage` with direction
"request" and one with direction "response"; while it is not, the log stays as it is. -/
theorem handlers_records (w : DynamicWrapper) (request : CallToolRequest) :
    (∀ (s t : String) (x : Exchange) (r : Reply),
      createDynamicProxyHandler s t w x request = .ok r →
      r.records = [recRequest (s ++ "_" ++ t) s request,
        recResponse (s ++ "_" ++ t) s r.result]) ∧
    (∀ (world : ConnectWorld) (r : Reply), handleServerAdd w world request = .ok r →
      r.records.head? = some (recRequest "server_add" "proxy" request) ∧
      ((r.result.IsError = false ∨ request.RequireString "name" = none ∨
          request.RequireString "command" = none) →
        r.records = [recRequest "server_add" "proxy" request,
          recResponse "server_add" "proxy" r.result])) ∧
    (∀ (world : CloseWorld) (r : Reply), handleServerRemove w world request = .ok r →
      r.records = []) ∧
    (∀ (config : ProxyConfig), ∃ r, handleServerList w config request = .ok r ∧
      r.records = [] ∧ r.state = w ∧ r.result.IsError = false) ∧
    (∀ (world : CloseWorld) (r : Reply), handleServerDisconnect w world request = .ok r →
      r.records = []) ∧
    (∀ (world : ConnectWorld) (r : Reply), handleServerReconnect w world request = .ok r →
      r.records = []) ∧
    (∀ (marshal : RecPayload → Option Json) (clock : Nat → String) (rec : Recorder)
        (toolName serverName : String) (result : ToolResult) (d1 d2 : Json),
      rec.recordEnabled = true → marshal (.request request) = some d1 →
      marshal (.result result) = some d2 →
      (writeRecords marshal clock rec
          [recRequest toolName serverName request,
           recResponse toolName serverName result]).recordFile =
        rec.recordFile ++
          [.doc (marshalRecordedMessage
            { Timestamp := clock rec.recordFile.length, Direction := "request",
              MessageType := "tool_call", ToolName := toolName, ServerName := serverName,
              Message := some d1 }),
           .doc (marshalRecordedMessage
            { Timestamp := clock (rec.recordFile.length + 1), Direction := "response",
              MessageType := "tool_call", ToolName := toolName, ServerName := serverName,
              Message := some d2 })]) ∧
    (∀ (marshal : RecPayload → Option Json) (clock : Nat → String) (rec : Recorder)
        (calls : List RecordCall),
      rec.recordEnabled = false → writeRecords marshal clock rec calls = rec) := by
  refine ⟨fun s t x r h => createDynamicProxyHandler_records s t w x request r h,
    fun world r h => handleServerAdd_records w world request r h,
    fun world r h => handleServerRemove_records w world request r h,
    fun config => ⟨_, rfl, rfl, rfl, rfl⟩,
    fun world r h => handleServerDisconnect_records w world request r h,
    fun world r h => handleServerReconnect_records w world request r h, ?_, ?_⟩
  · intro marshal clock rec toolName serverName result d1 d2 hen h1 h2
    simp only [writeRecords, List.foldl_cons, List.foldl_nil, recRequest, recResponse, h1, h2]
    rw [recordMessage_enabled _ _ _ _ _ _ _ hen, recordMessage_enabled]
    · simp only [List.length_append, List.length_singleton, List.append_assoc,
        List.singleton_append]
    · exact hen
  · intro marshal clock rec calls hdis
    unfold writeRecords
    induction calls with
    | nil => rfl
    | cons c calls ih =>
      rw [List.foldl_cons]
      have h1 : recordMessage rec (clock rec.recordFile.length) c.direction c.messageType
          c.toolName c.serverName (marshal c.message) = rec := by
        simp [recordMessage, hdis]
      rw [h1]
      exact ih

/-- The records of a call of the tool `s_hi` that the server answers with "v1". -/
theorem handlers_records_witness :
    (match createDynamicProxyHandler "s" "hi" (afterOps [addS])
        { reader := .doc (textAnswer 3 "v1") } {} with
      | .ok r => some (r.result, r.records)
      | .panicked _ => none) =
      some (NewToolResultText "v1",
        [recRequest "s_hi" "s" {}, recResponse "s_hi" "s" (NewToolResultText "v1")]) ∧
    ∀ r, createDynamicProxyHandler "s" "hi" (afterOps [addS])
        { reader := .doc (textAnswer 3 "v1") } {} = .ok r →
      r.records = [recRequest ("s" ++ "_" ++ "hi") "s" {},
        recResponse ("s" ++ "_" ++ "hi") "s" r.result] :=
  ⟨by decide,
    fun r h => (handlers_records (afterOps [addS]) {}).1 "s" "hi"
      { reader := .doc (textAnswer 3 "v1") } r h⟩

/-- C21 fails on the code. `server_disconnect("s")` on a connected entry succeeds and
calls `recordMessage` not once, and so does `server_list`; with recording enabled the log
is after them what it was before. `server_add("s")` for a name that exists returns its
error after the request record, without a response record. A forwarded call of `s_hi` and
a successful `server_add` record a request and a response. -/
theorem management_calls_unrecorded :
    (match step (afterOps [addS]) disconnectS with
      | .ok r => some (r.result.IsError, r.records)
      | .panicked _ => none) = some (false, []) ∧
    (match handleServerList (afterOps [addS]) {} listRequest with
      | .ok r => some (r.result.IsError, r.records)
      | .panicked _ => none) = some (false, []) ∧
    (EnableRecording {} "2024-01-01T00:00:00Z" none).1.recordEnabled = true ∧
    writeRecords (fun _ => some .null) (fun _ => "2024-01-01T00:00:01Z")
        (EnableRecording {} "2024-01-01T00:00:00Z" none).1 [] =
      (EnableRecording {} "2024-01-01T00:00:00Z" none).1 ∧
    (match step (afterOps [addS]) addS with
      | .ok r => some (r.result, r.records)
      | .panicked _ => none) =
      some (NewToolResultError "Server 's' already exists",
        [recRequest "server_add" "proxy" (commandRequest "server_add" "s" "bin/v1")]) ∧
    (match step (afterOps [addS]) (callHi { reader := .doc (textAnswer 3 "v1") }) with
      | .ok r => some (r.records.map (fun c => c.direction))
      | .panicked _ => none) = some ["request", "response"] ∧
    (match step NewDynamicWrapper addS with
      | .ok r => some (r.result.IsError, r.records.map (fun c => c.direction))
      | .panicked _ => none) = some (false, ["request", "response"]) := by
  decide

/-! ## C29: `server_remove` after `server_disconnect` -/

/-- C29 fails after a `server_disconnect`. The state after `server_add("s")` and
`server_disconnect("s")` is reached without a panic; in it the entry "s" has no client
(`Client` is nil) while the client list still holds the closed client; and
`server_remove("s")` calls `Close` on the nil `Client`, which is a runtime panic. -/
theorem server_remove_after_disconnect_panics :
    run NewDynamicWrapper [addS, disconnectS] = some (afterOps [addS, disconnectS]) ∧
    (GoMap.get (afterOps [addS, disconnectS]).dynamicServers "s").map (fun e => e.Client) =
      some none ∧
    (afterOps [addS, disconnectS]).clients = [0] ∧
    step (afterOps [addS, disconnectS]) removeS =
      .panicked "invalid memory address or nil pointer dereference" ∧
    run NewDynamicWrapper [addS, disconnectS, removeS] = none := by
  decide

/-! ## C30: a JSON-RPC error object that reads like a connection error -/

theorem ToLower_append (a b : String) : ToLower (a ++ b) = ToLower a ++ ToLower b := by
  apply String.ext
  simp [ToLower, String.data_append]

theorem isConnectionError_of_message (pre msg post : String)
    (h : Contains (ToLower msg) "connection" = true ∨
      Contains (ToLower msg) "broken pipe" = true ∨ Contains (ToLower msg) "eof" = true ∨
      Contains (ToLower msg) "closed" = true ∨ Contains (ToLower msg) "timeout" = true) :
    isConnectionError (pre ++ msg ++ post) = true := by
  have hk : ∀ kw : String, Contains (ToLower msg) kw = true →
      Contains (ToLower (pre ++ msg ++ post)) kw = true := by
    intro kw hkw
    rw [ToLower_append, ToLower_append]
    exact Contains_append_right (Contains_append_left hkw _) _
  unfold isConnectionError
  simp only [Bool.or_eq_true]
  rcases h with h | h | h | h | h
  · exact Or.inl (Or.inl (Or.inl (Or.inl (hk _ h))))
  · exact Or.inl (Or.inl (Or.inl (Or.inr (hk _ h))))
  · exact Or.inl (Or.inl (Or.inr (hk _ h)))
  · exact Or.inl (Or.inr (hk _ h))
  · exact Or.inr (hk _ h)

theorem CallTool_error_object (c : StdioClient) (x : Exchange) (name : String)
    (args : List (String × Json)) (j : Json) (resp : JSONRPCResponse) (err : JSONRPCError)
    (hc : c.connected = true) (hm : x.marshalErr = none) (hw : x.writeErr = none)
    (hctx : x.ctxDone = none) (hr : x.reader = .doc j)
    (hd : unmarshalResponse j = .ok resp) (hid : resp.ID = NextID c.counter)
    (herr : resp.Error = some err) :
    c.CallTool x name args =
      ({ c with counter := NextID c.counter },
        .error ("failed to parse tools/call response: " ++
          ("[" ++ "" ++ "] " ++ err.Message ++ " (code: " ++ fmtInt err.Code ++ ")"))) := by
  have hs := sendRequest_delivers x (NewCallToolRequest (NextID c.counter) name args) j resp
    hm hw hctx hr hd hid
  simp [StdioClient.CallTool, hc, hs, ParseResponse, herr, ClientError.Error]

theorem Marked_step (name : String) (w : DynamicWrapper) (op : Op) (r : Reply)
    (hJ : Marked name w) (hno : isSuccessfulReconnect name w op = false)
    (hrm : isSuccessfulRemove name w op = false) (h : step w op = .ok r) :
    Marked name r.state := by
  obtain ⟨e, hge, hdis⟩ := hJ
  obtain ⟨e1, h1, h2, _⟩ := MarkedWith_step name e.Tools w op r ⟨e, hge, hdis, rfl⟩ hno hrm h
  exact ⟨e1, h1, h2⟩

theorem Marked_run (name : String) (ops : List Op) :
    ∀ w w2 : DynamicWrapper, Marked name w → keepsEntry name w ops = true →
      run w ops = some w2 → Marked name w2 := by
  induction ops with
  | nil =>
    intro w w2 hJ _ hrun
    simp only [run, Option.some.injEq] at hrun
    rw [← hrun]
    exact hJ
  | cons op ops ih =>
    intro w w2 hJ hno hrun
    simp only [keepsEntry, Bool.and_eq_true, Bool.not_eq_true'] at hno
    cases hs : step w op with
    | panicked p =>
      simp [run, hs] at hrun
    | ok r =>
      simp only [run, hs] at hrun
      have hno2 := hno.2
      simp only [hs] at hno2
      exact ih r.state w2 (Marked_step name w op r hJ hno.1.1 hno.1.2 hs) hno2 hrun

/-- C30 (amended). When an entry is connected and its live client receives, as the
answer to the `tools/call` it sent, a line that decodes to a response with a JSON-RPC error
object whose message contains, in any letter case, "connection", "broken pipe", "eof",
"closed" or "timeout", then the error `CallTool` returns satisfies `isConnectionError`;
the handler returns an error result naming `server_reconnect`, the entry is stored with
`IsConnected = false` and the error text, the client in the heap is still connected (it
was not closed), and after any later operations of which none is a successful
`server_reconnect` or a successful `server_remove` of the entry every call through its
bindings returns the `server_reconnect` error and leaves the state, the clients included,
untouched. -/
theorem error_object_marks_entry (w : DynamicWrapper) (s t : String) (x : Exchange)
    (req : CallToolRequest) (info : DynamicServerInfo) (ref : ClientRef) (client : StdioClient)
    (j : Json) (resp : JSONRPCResponse) (err : JSONRPCError)
    (hget : GoMap.get w.dynamicServers s = some info) (hconn : info.IsConnected = true)
    (hcl : info.Client = some ref) (hheap : w.heap.get? ref = some client)
    (hc : client.connected = true) (hm : x.marshalErr = none) (hw : x.writeErr = none)
    (hctx : x.ctxDone = none) (hr : x.reader = .doc j)
    (hd : unmarshalResponse j = .ok resp) (hid : resp.ID = NextID client.counter)
    (herr : resp.Error = some err)
    (hkw : Contains (ToLower err.Message) "connection" = true ∨
      Contains (ToLower err.Message) "broken pipe" = true ∨
      Contains (ToLower err.Message) "eof" = true ∨
      Contains (ToLower err.Message) "closed" = true ∨
      Contains (ToLower err.Message) "timeout" = true) :
    ∃ text r,
      (client.CallTool x t req.Arguments).2 = .error text ∧
      isConnectionError text = true ∧
      createDynamicProxyHandler s t w x req = .ok r ∧
      r.result.IsError = true ∧
      Contains r.result.Text "server_reconnect" = true ∧
      GoMap.get r.state.dynamicServers s =
        some { info with IsConnected := false, ErrorMessage := text } ∧
      r.state.heap.get? ref = some { client with counter := NextID client.counter } ∧
      (∀ ops w2, keepsEntry s r.state ops = true → run r.state ops = some w2 →
        ∀ t2 x2 req2, ∃ r2, createDynamicProxyHandler s t2 w2 x2 req2 = .ok r2 ∧
          r2.state = w2 ∧ r2.result.IsError = true ∧
          Contains r2.result.Text "server_reconnect" = true) := by
  have hcall := CallTool_error_object client x t req.Arguments j resp err hc hm hw hctx hr hd
    hid herr
  have hconnErr : isConnectionError ("failed to parse tools/call response: " ++
      ("[" ++ "" ++ "] " ++ err.Message ++ " (code: " ++ fmtInt err.Code ++ ")")) = true := by
    have h1 := isConnectionError_of_message ("failed to parse tools/call response: " ++
      ("[" ++ "" ++ "] ")) err.Message (" (code: " ++ fmtInt err.Code ++ ")") hkw
    simp only [String.append_assoc] at h1 ⊢
    exact h1
  have h0 : Contains "\nUse server_reconnect to restore connection." "server_reconnect" = true := by
    decide
  have hfw := handler_forwards w s t x req info ref client hget hconn hcl hheap
  rw [hcall] at hfw
  simp only [hconnErr, if_true] at hfw
  refine ⟨_, _, by rw [hcall], hconnErr, hfw, rfl, Contains_append_left h0 _, ?_, ?_, ?_⟩
  · exact GoMap.get_set_same _ _ _
  · exact heap_get_set _ _ _ _ hheap
  · intro ops w2 hk hrun t2 x2 req2
    have hM : Marked s w2 :=
      Marked_run s ops _ w2 ⟨_, GoMap.get_set_same _ _ _, rfl⟩ hk hrun
    obtain ⟨e, hge, hdis⟩ := hM
    exact handler_of_disconnected w2 s t2 x2 req2 e hge hdis

/-- C30 (amended), at a call of `s_hi` after `server_add("s")` that the child answers with
the error object "Connection pool quota reached" (code -32000): the entry is marked
disconnected,
the client in the heap is still connected, and after a failed `server_reconnect` a call of
`s_bye` returns the `server_reconnect` error without a change of the state. -/
theorem error_object_marks_entry_witness :
    Contains (ToLower "Connection pool quota reached") "connection" = true ∧
    isConnectionError
      "failed to parse tools/call response: [] Connection pool quota reached (code: -32000)" =
      true ∧
    ∃ r, createDynamicProxyHandler "s" "hi" (afterOps [addS]) exchangeQuotaError
        { Name := "s_hi" } = .ok r ∧
      r.state = afterOps [addS, callHi exchangeQuotaError] ∧
      r.result.IsError = true ∧
      (GoMap.get r.state.dynamicServers "s").map (fun e => e.IsConnected) = some false ∧
      (r.state.heap.get? 0).map (fun cl => cl.connected) = some true ∧
      ∃ r2, createDynamicProxyHandler "s" "bye"
          (afterOps [addS, callHi exchangeQuotaError, reconnectFails])
          { reader := .doc (textAnswer 4 "bye") } { Name := "s_bye" } = .ok r2 ∧
        r2.state = afterOps [addS, callHi exchangeQuotaError, reconnectFails] ∧
        r2.result.IsError = true ∧ Contains r2.result.Text "server_reconnect" = true := by
  obtain ⟨text, r, _, _, h3, h4, _, h6, h7, h8⟩ :=
    error_object_marks_entry (afterOps [addS]) "s" "hi" exchangeQuotaError { Name := "s_hi" }
      { Name := "s", Client := some 0, Tools := ["s_hi", "s_bye"],
        Config := { Name := "s", Prefix := "s", Transport := "stdio", Command := "bin/v1",
                    Timeout := "30s" },
        IsConnected := true }
      0 { serverName := "s", command := "bin/v1", args := [], counter := 2, connected := true }
      (.obj [("jsonrpc", .str "2.0"), ("id", .int 3),
        ("error", .obj [("code", .int (-32000)),
          ("message", .str "Connection pool quota reached")])])
      { JSONRPC := "2.0",
        Error := some { Code := -32000, Message := "Connection pool quota reached" }, ID := 3 }
      { Code := -32000, Message := "Connection pool quota reached" }
      (by decide) rfl rfl (by decide) rfl rfl rfl rfl rfl (by decide) (by decide) rfl
      (Or.inl (by decide))
  have hst : r.state = afterOps [addS, callHi exchangeQuotaError] := by
    have hs : step (afterOps [addS]) (callHi exchangeQuotaError) = .ok r := h3
    have hrun : run (afterOps [addS]) [callHi exchangeQuotaError] = some r.state := by
      simp only [run, hs]
    have hd : run (afterOps [addS]) [callHi exchangeQuotaError] =
        some (afterOps [addS, callHi exchangeQuotaError]) := by decide
    rw [hd] at hrun
    exact (Option.some.inj hrun).symm
  refine ⟨by decide, by decide, r, h3, hst, h4, by rw [h6]; rfl, by rw [h7]; rfl, ?_⟩
  have h9 := h8 [reconnectFails] (afterOps [addS, callHi exchangeQuotaError, reconnectFails])
    (by rw [hst]; decide) (by rw [hst]; decide) "bye" { reader := .doc (textAnswer 4 "bye") }
    { Name := "s_bye" }
  exact h9

/-- C30 as stated fails. The child answers the call of `s_hi` with the error object
"Connection pool quota reached", which marks the entry "s" disconnected and leaves it its
client; `server_remove("s")` then succeeds and deletes the entry; the binding "s_bye" is
still registered, and the later call dispatched through it returns "Server 's' not found",
which does not contain "server_reconnect". -/
theorem error_object_then_remove_counterexample :
    run NewDynamicWrapper [addS, callHi exchangeQuotaError, removeS] =
      some (afterOps [addS, callHi exchangeQuotaError, removeS]) ∧
    (GoMap.get (afterOps [addS, callHi exchangeQuotaError]).dynamicServers "s").map
      (fun e => (e.IsConnected, e.Client)) = some (false, some 0) ∧
    ((afterOps [addS, callHi exchangeQuotaError, removeS]).registry.GetTool
      "s_bye").isSome = true ∧
    (match createDynamicProxyHandler "s" "bye"
        (afterOps [addS, callHi exchangeQuotaError, removeS])
        { reader := .doc (textAnswer 4 "bye") } { Name := "s_bye" } with
      | .ok r => some r.result
      | .panicked _ => none) = some (NewToolResultError "Server 's' not found") ∧
    Contains "Server 's' not found" "server_reconnect" = false := by
  decide

/-! ## C22: the tool set that `Start` serves after `Initialize` -/

theorem processResult_baseTools (config : ProxyConfig) (worlds : Nat → StaticWorld)
    (acc : DynamicWrapper × StaticTable) (ir : Nat × DiscoveryResult) :
    (processResult config worlds acc ir).1.baseTools = acc.1.baseTools := by
  unfold processResult
  cases createAndConnectClient config (worlds ir.1) ir.2.ServerName <;> rfl

theorem foldl_processResult_baseTools (config : ProxyConfig) (worlds : Nat → StaticWorld)
    (l : List (Nat × DiscoveryResult)) :
    ∀ acc : DynamicWrapper × StaticTable,
      (l.foldl (processResult config worlds) acc).1.baseTools = acc.1.baseTools := by
  induction l with
  | nil => intro acc; rfl
  | cons ir l ih =>
    intro acc
    rw [List.foldl_cons, ih, processResult_baseTools]

theorem Initialize_keeps_served (cfg : ProxyConfig) (worlds : Nat → StaticWorld) :
    ((NewDynamicWrapperWith cfg).Initialize worlds).Start = managementTools := by
  simp only [ConfiguredWrapper.Initialize, NewDynamicWrapperWith, ConfiguredWrapper.Start,
    Bool.false_eq_true, if_false]
  rw [foldl_processResult_baseTools]
  rfl

/-- C22 fails on the code. The wrapper is created from a configuration with the one static
server "math" (prefix "m", tools `add` and `sub`) and `Initialize` runs: the registry
holds the bindings `m_add` and `m_sub`, and they are added to the server that `Initialize`
creates, but the server that `Start` serves holds the five management tools only; after
`server_add("s")` it holds these and `s_hi`, `s_bye`, still without `m_add` and `m_sub`. -/
theorem static_tools_not_served :
    mathInitialized.initialized = true ∧
    mathInitialized.wrapper.registry.GetAllTools.map (fun t => t.PrefixedName) =
      ["m_add", "m_sub"] ∧
    mathInitialized.mcpServer.map (fun t => t.map Prod.fst) = some ["m_add", "m_sub"] ∧
    mathInitialized.Start.map Prod.fst =
      ["server_add", "server_remove", "server_list", "server_disconnect",
       "server_reconnect"] ∧
    (mathInitialized.apply addS).map (fun p => p.Start.map Prod.fst) =
      some ["server_add", "server_remove", "server_list", "server_disconnect",
       "server_reconnect", "s_hi", "s_bye"] ∧
    (mathInitialized.apply addS).map
      (fun p => p.wrapper.registry.GetAllTools.map (fun t => t.PrefixedName)) =
      some ["m_add", "m_sub", "s_hi", "s_bye"] := by
  decide

end McpDebug
